import Mathlib

/-!
# Relay gateway: order admission

A shallow embedding of `gateway/gateway.go`: the pricing primitive
(`generatePrice`), the five filter stages and the admission entry point
(`HandleInputOrder`).

Conventions of the embedding.

* `*big.Int` is `Option Int` where the pointer is a field that may be nil, and
  `Int` once it is known to be present; `*big.Rat` is `Option ℚ` / `ℚ`.
* A Go `error` is its message; the nil error is `none`.
* A function that takes `*types.Order` and may write to it returns the order as
  it stands after the call.
* A nil dereference (a run-time panic) is the outcome `none` of a call.
* Events, log lines and the calls made to stages are recorded in a trace, each with
  the value it carried when it was made.
* Packages that are imported but are not part of the sources at hand
  (`marketutil`, `loopringaccessor`, `accountmanager`, `viewer`, `crypto/sha256`,
  the clock) are parameters, gathered in `Registry` and `Env`.
-/

namespace Gateway

/-! ## Data model -/

/-- Go `common.Address`, a `[20]byte` array, held as the number its bytes spell. -/
structure Address where
  val : Nat
deriving DecidableEq, Repr

/-- Go `len(a)` for `a : common.Address`: the length of a `[20]byte` is the constant 20. -/
def Address.len (_ : Address) : Nat := 20

/-- Go `types.Hash`, a `[32]byte` array, held as the number its bytes spell. -/
structure Hash where
  val : Nat
deriving DecidableEq, Repr

/-- Go `len(h)` for `h : types.Hash`: the length of a `[32]byte` is the constant 32. -/
def Hash.len (_ : Hash) : Nat := 32

/-- Go `types.Bytes32`: exactly 32 bytes, most significant first. -/
structure Bytes32 where
  bytes : List Nat
  len_eq : bytes.length = 32
deriving DecidableEq

/-- Go `Bytes32.Bytes()`. -/
def Bytes32.Bytes (b : Bytes32) : List Nat := b.bytes

/-- The all-zero `Bytes32`. -/
def Bytes32.zero : Bytes32 := ⟨List.replicate 32 0, by simp⟩

/-- Go `types.Token` as the gateway reads it. -/
structure Token where
  Protocol : Address
  Symbol : String
  Decimals : Option Int
  Deny : Bool
deriving DecidableEq

/-- The zero value of `types.Token`, what a Go map returns for a missing key. -/
def Token.zeroValue : Token := ⟨⟨0⟩, "", none, false⟩

/-- Go `types.Order`, the fields the gateway reads or writes. -/
structure Order where
  Protocol : Address
  DelegateAddress : Address
  AuthAddr : Address
  AuthPrivateKey : Nat
  Owner : Address
  TokenS : Address
  TokenB : Address
  AmountS : Option Int
  AmountB : Option Int
  ValidSince : Option Int
  ValidUntil : Option Int
  MarginSplitPercentage : Nat
  BuyNoMoreThanAmountB : Bool
  OrderType : String
  V : Nat
  R : Bytes32
  S : Bytes32
  PowNonce : Nat
  Hash : Hash
  Price : Option ℚ
  Market : String
  Side : String
  LrcFee : Option Int := none
deriving DecidableEq

/-- Go `types.ORDER_TYPE_MARKET`. -/
def ORDER_TYPE_MARKET : String := "market_order"

/-- The token registry of package `marketutil` (imported as `util`). -/
structure Registry where
  /-- `util.AddressToToken` -/
  AddressToToken : Address → Except String Token
  /-- `util.AllTokens`, a map from symbol to token, as its list of entries -/
  AllTokens : List (String × Token)
  /-- `util.AliasToAddress` -/
  AliasToAddress : String → Address
  /-- `util.WrapMarketByAddress`, applied to the two hex strings -/
  WrapMarketByAddress : String → String → Except String String
  /-- `util.GetSide`, applied to the two hex strings -/
  GetSide : String → String → String

/-- Go map indexing `util.AllTokens[sym]`: the entry, or the zero value when the key is absent. -/
def Registry.tokenOf (reg : Registry) (sym : String) : Token :=
  match reg.AllTokens.find? (fun e => e.1 == sym) with
  | some e => e.2
  | none => Token.zeroValue

/-! ## Pricing primitive -/

/-- The message of the two decimals checks of `generatePrice` (the same text on both). -/
def errInvalidDecimals : String := "order's tokenS decimals invalid"

/-- The message of the sell-amount check of `generatePrice`. -/
def errInvalidAmountS : String := "order's amountS invalid"

/-- The message of the buy-amount check of `generatePrice`. -/
def errInvalidAmountB : String := "order's amountB invalid"

/-- Go `new(big.Rat).SetFrac(a, b)` for `b ≠ 0`: the exact quotient. -/
def SetFrac (a b : Int) : ℚ := (a : ℚ) / (b : ℚ)

/-- Go `x == nil || x.Cmp(big.NewInt(0)) < 1`: the pointer is nil or the value is at most 0. -/
def nilOrNotPositive (x : Option Int) : Bool :=
  match x with
  | none => true
  | some v => decide (v ≤ 0)

/-- Embedding of `generatePrice`: the order after the call and the error returned. -/
def generatePrice (reg : Registry) (order : Order) : Order × Option String :=
  match reg.AddressToToken order.TokenS with
  | .error e => (order, some e)
  | .ok tokenS =>
    match tokenS.Decimals with
    | none => (order, some errInvalidDecimals)
    | some dS =>
      if dS ≤ 0 then (order, some errInvalidDecimals) else
      match reg.AddressToToken order.TokenB with
      | .error e => (order, some e)
      | .ok tokenB =>
        match tokenB.Decimals with
        | none => (order, some errInvalidDecimals)
        | some dB =>
          if dB ≤ 0 then (order, some errInvalidDecimals) else
          match order.AmountS with
          | none => (order, some errInvalidAmountS)
          | some aS =>
            if aS ≤ 0 then (order, some errInvalidAmountS) else
            match order.AmountB with
            | none => (order, some errInvalidAmountB)
            | some aB =>
              if aB ≤ 0 then (order, some errInvalidAmountB) else
              ({ order with Price := some (SetFrac aS aB * SetFrac dB dS) }, none)

/-! ## Collaborators and configuration -/

/-- Go `types.OrderState`, the fields the gateway and the order manager read or write. -/
structure OrderState where
  RawOrder : Order
  UpdatedBlock : Option Int
  DealtAmountS : Option Int
  DealtAmountB : Option Int
  SplitAmountS : Option Int
  SplitAmountB : Option Int
  CancelledAmountS : Option Int
  CancelledAmountB : Option Int
  Status : Nat
  BroadcastTime : Int
deriving DecidableEq

/-- Go `state = &types.OrderState{}; state.RawOrder = *order`: every other field is zero. -/
def OrderState.ofOrder (order : Order) : OrderState :=
  ⟨order, none, none, none, none, none, none, none, 0, 0⟩

/-- What the gateway calls outside its own package. -/
structure Env where
  reg : Registry
  /-- `types.Order.GenerateHash` -/
  GenerateHash : Order → Hash
  /-- `types.Hash.Hex` -/
  hashHex : Hash → String
  /-- `common.Address.Hex` -/
  addrHex : Address → String
  /-- `gateway.om.GetOrderByHash`: the state pointer (nil is `none`) and the error -/
  GetOrderByHash : Hash → Option OrderState × Option String
  /-- `manager.UpdateBroadcastTimeByHash`: the error it returns -/
  UpdateBroadcastTimeByHash : Hash → Int → Option String
  /-- `loopringaccessor.IsRelateProtocol` -/
  IsRelateProtocol : Address → Address → Bool
  /-- `o.AuthPrivateKey.Address()` -/
  privateKeyAddress : Nat → Address
  /-- `accountmanager.GetBalanceWithSymbolResult`: a map from symbol to balance, or an error -/
  GetBalanceWithSymbolResult : Address → Except String (List (String × Int))
  /-- `time.Now().Unix()` -/
  now : Int
  /-- `float64(p)/100.0` for a margin split percentage `p`, as the rational the double denotes -/
  splitFraction : Nat → ℚ
  /-- `types.Order.SignerAddress` -/
  SignerAddress : Order → Except String Address
  /-- `om.IsOrderCutoff(protocol, owner, tokenS, tokenB, validSince)` -/
  IsOrderCutoff : Address → Address → Address → Address → Option Int → Bool
  /-- `sha256.New(); Write(input); Sum(nil)`: the digest of a byte string -/
  sha256 : List Nat → List Nat
  /-- `types.HexToBigint` -/
  HexToBigint : String → Int
  /-- `big.NewInt(0).SetString(v, 10)`: the parsed value, `none` when parsing fails -/
  SetString10 : String → Option Int

/-- Go `PowFilter`. -/
structure PowFilter where
  Difficulty : Int

/-- Go `BaseFilter`; the two float64 percentages are the rationals they denote. -/
structure BaseFilter where
  MinLrcFee : Int
  MinLrcHold : Int
  MinSplitPercentage : ℚ
  MaxSplitPercentage : ℚ
  MaxPrice : Int
  MinTokeSAmount : List (String × Int)
  MinTokenSUsdAmount : ℚ
  MaxValidSinceInterval : Int

/-- What a call `v.filter(o)` leaves behind: the order after the call, the verdict and the error. -/
structure FilterRes where
  order : Order
  valid : Bool
  err : Option String

/-- The implementers of the Go interface `Filter`: the five of this package, and any other. -/
inductive Filter where
  | powFilter (f : PowFilter)
  | baseFilter (f : BaseFilter)
  | signFilter
  | tokenFilter
  | cutoffFilter
  | other (run : Order → Option FilterRes)

/-- Go `Gateway`, the fields `HandleInputOrder` reads. -/
structure GatewayState where
  filters : List Filter
  isBroadcast : Bool
  maxBroadcastTime : Int

/-- Go `GatewayFiltersOptions`. -/
structure GatewayFiltersOptions where
  MinLrcFee : Int
  MinLrcHold : Int
  MaxPrice : Int
  MinSplitPercentage : ℚ
  MaxSplitPercentage : ℚ
  MinTokeSAmount : List (String × String)
  MinTokenSUsdAmount : ℚ
  MaxValidSinceInterval : Int
  Difficulty : String

/-- Go `GateWayOptions`, the two fields copied into the gateway. -/
structure GateWayOptions where
  IsBroadcast : Bool
  MaxBroadcastTime : Int

/-! ## Proof-of-work stage -/

/-- Embedding of `Uint64ToByteArray`: `binary.LittleEndian.PutUint64` puts byte `i` of `src`
at index `i`. -/
def Uint64ToByteArray (src : Nat) : List Nat :=
  (List.range 8).map (fun i => (src / 256 ^ i) % 256)

/-- Go `big.Int.SetBytes`: the bytes read as a big-endian unsigned integer. -/
def SetBytes (bs : List Nat) : Nat :=
  bs.foldl (fun acc b => acc * 256 + b) 0

/-- The byte string `GetPow` hashes: `v`, then `r`, then `s`, then the nonce bytes. -/
def powInput (v : Nat) (r s : Bytes32) (powNonce : Nat) : List Nat :=
  (([] ++ [v]) ++ r.Bytes ++ s.Bytes) ++ Uint64ToByteArray powNonce

/-- Embedding of `GetPow`. -/
def GetPow (env : Env) (v : Nat) (r s : Bytes32) (powNonce : Nat) : Int :=
  (SetBytes (env.sha256 (powInput v r s powNonce)) : Int)

/-- Embedding of `PowFilter.filter`; `PowNonce` is a `uint64`, so `<= 0` is `= 0`. -/
def PowFilter.filter (env : Env) (f : PowFilter) (o : Order) : Bool × Option String :=
  if o.PowNonce ≤ 0 then (false, some "invalid pow nonce")
  else if GetPow env o.V o.R o.S o.PowNonce < f.Difficulty then (false, some "invalid pow")
  else (true, none)

/-! ## Base eligibility stage -/

/-- Go `x.Int64()` and `int64` arithmetic: the value reduced to the signed 64-bit range. -/
def wrapInt64 (x : Int) : Int := (x + 2 ^ 63) % 2 ^ 64 - 2 ^ 63

/-- The reason of the three branches of the minimum-holding check. -/
def errLrcHold (f : BaseFilter) : String :=
  "gateway,base filter,owner holds lrc less than " ++ toString f.MinLrcHold ++ " "

/-- A rejection: `return false, fmt.Errorf(msg)`. -/
def reject (msg : String) : Option (Bool × Option String) := some (false, some msg)

/-- The checks of `BaseFilter.filter` that follow the minimum-holding block. -/
def BaseFilter.filterRest (env : Env) (f : BaseFilter) (o : Order) :
    Option (Bool × Option String) :=
  if o.Hash.len ≠ 32 then
    reject ("gateway,base filter,order " ++ env.hashHex o.Hash ++ " length error")
  else if o.TokenB.len ≠ 20 then
    reject ("gateway,base filter,order " ++ env.hashHex o.Hash ++ " tokenB "
      ++ env.addrHex o.TokenB ++ " address length error")
  else if o.TokenS.len ≠ 20 then
    reject ("gateway,base filter,order " ++ env.hashHex o.Hash ++ " tokenS "
      ++ env.addrHex o.TokenS ++ " address length error")
  else if o.TokenB = o.TokenS then
    reject ("gateway,base filter,order " ++ env.hashHex o.Hash ++ " tokenB == tokenS")
  else if o.Owner.len ≠ 20 then
    reject ("gateway,base filter,order " ++ env.hashHex o.Hash ++ " owner "
      ++ env.addrHex o.Owner ++ " address length error")
  else if o.Protocol.len ≠ 20 then
    reject ("gateway,base filter,order " ++ env.hashHex o.Hash ++ " protocol "
      ++ env.addrHex o.Owner ++ " address length error")
  else
  match o.Price with
  | none => none
  | some price =>
    if price > SetFrac f.MaxPrice 1 then reject "dao order convert down,price out of range"
    else if f.MaxPrice = 0 then none
    else if price < SetFrac 1 f.MaxPrice then reject "dao order convert down,price out of range"
    else
    match o.ValidSince with
    | none => none
    | some validSince =>
      if wrapInt64 (wrapInt64 validSince - f.MaxValidSinceInterval) > env.now then
        reject ("valid since is too small, order must be valid before "
          ++ toString (wrapInt64 (env.now - f.MaxValidSinceInterval)) ++ " second timestamp")
      else
      match o.ValidUntil with
      | none => none
      | some validUntil =>
        if wrapInt64 validUntil < env.now then reject "order expired, please check validUntil"
        else if env.splitFraction o.MarginSplitPercentage < f.MinSplitPercentage
            ∨ env.splitFraction o.MarginSplitPercentage > f.MaxSplitPercentage then
          reject "margin split percentage out of range"
        else
        match env.reg.AddressToToken o.TokenS with
        | .error _ => reject "tokenS is not support now"
        | .ok tokenS =>
          match f.MinTokeSAmount.lookup tokenS.Symbol with
          | none => some (true, none)
          | some minAmount =>
            match o.AmountS with
            | none => none
            | some amountS =>
              if amountS < minAmount then reject "tokenS amount is too small"
              else some (true, none)

/-- Embedding of `BaseFilter.filter`; `none` is a nil dereference or a division by zero. -/
def BaseFilter.filter (env : Env) (f : BaseFilter) (o : Order) : Option (Bool × Option String) :=
  if !env.IsRelateProtocol o.Protocol o.DelegateAddress then
    reject "protocol and Delegate are not matched"
  else if o.OrderType = ORDER_TYPE_MARKET ∧ env.privateKeyAddress o.AuthPrivateKey ≠ o.AuthAddr then
    reject "market order auth private key not correct"
  else if o.TokenB ≠ env.reg.AliasToAddress "LRC" then
    match env.GetBalanceWithSymbolResult o.Owner with
    | .error _ => reject (errLrcHold f)
    | .ok balances =>
      match balances.lookup "LRC" with
      | some b =>
        match (env.reg.tokenOf "LRC").Decimals with
        | none => none
        | some decimals =>
          if b ≤ f.MinLrcHold * decimals then reject (errLrcHold f)
          else BaseFilter.filterRest env f o
      | none => reject (errLrcHold f)
  else BaseFilter.filterRest env f o

/-! ## Signature, token-support and cutoff stages -/

/-- Embedding of `SignFilter.filter`: it writes the recomputed hash into the order first. -/
def SignFilter.filter (env : Env) (o : Order) : FilterRes :=
  let o1 : Order := { o with Hash := env.GenerateHash o }
  match env.SignerAddress o1 with
  | .error e => ⟨o1, false, some e⟩
  | .ok addr =>
    if addr ≠ o1.Owner then
      ⟨o1, false, some ("gateway,sign filter,o.Owner " ++ env.addrHex o1.Owner
        ++ " and signeraddress " ++ env.addrHex addr ++ " are not match")⟩
    else ⟨o1, true, none⟩

/-- The loop of `TokenFilter.filter` over `util.AllTokens`: the two support flags. -/
def TokenFilter.support (reg : Registry) (o : Order) : Bool × Bool :=
  reg.AllTokens.foldl
    (fun acc e =>
      (if e.2.Protocol = o.TokenS ∧ e.2.Deny = false then true else acc.1,
       if e.2.Protocol = o.TokenB ∧ e.2.Deny = false then true else acc.2))
    (false, false)

/-- Embedding of `TokenFilter.filter`. -/
def TokenFilter.filter (env : Env) (o : Order) : Bool × Option String :=
  if (TokenFilter.support env.reg o).1 = false then
    (false, some ("gateway,token filter,tokenS:" ++ env.addrHex o.TokenS ++ " do not supported"))
  else if (TokenFilter.support env.reg o).2 = false then
    (false, some ("gateway,token filter,tokenB:" ++ env.addrHex o.TokenB ++ " do not supported"))
  else (true, none)

/-- Embedding of `CutoffFilter.filter`. -/
def CutoffFilter.filter (env : Env) (o : Order) : Bool × Option String :=
  if env.IsOrderCutoff o.Protocol o.Owner o.TokenS o.TokenB o.ValidSince then
    (false, some ("gateway,cutoff filter order:" ++ env.addrHex o.Owner ++ " should be cutoff"))
  else (true, none)

/-- The dispatch `v.filter(order)` of the interface `Filter`. -/
def Filter.filter (env : Env) (v : Filter) (o : Order) : Option FilterRes :=
  match v with
  | .powFilter f => some ⟨o, (PowFilter.filter env f o).1, (PowFilter.filter env f o).2⟩
  | .baseFilter f => (BaseFilter.filter env f o).map (fun r => ⟨o, r.1, r.2⟩)
  | .signFilter => some (SignFilter.filter env o)
  | .tokenFilter => some ⟨o, (TokenFilter.filter env o).1, (TokenFilter.filter env o).2⟩
  | .cutoffFilter => some ⟨o, (CutoffFilter.filter env o).1, (CutoffFilter.filter env o).2⟩
  | .other run => run o

/-! ## Initialization and the admission entry point -/

/-- Embedding of `Initialize`: the gateway it builds (the broadcast set-up is outside the model). -/
def Initialize (env : Env) (filterOptions : GatewayFiltersOptions) (options : GateWayOptions) :
    GatewayState :=
  let powFilter : PowFilter := ⟨env.HexToBigint filterOptions.Difficulty⟩
  let baseFilter : BaseFilter :=
    { MinLrcFee := filterOptions.MinLrcFee
      MinLrcHold := filterOptions.MinLrcHold
      MaxPrice := filterOptions.MaxPrice
      MinSplitPercentage := filterOptions.MinSplitPercentage
      MaxSplitPercentage := filterOptions.MaxSplitPercentage
      MinTokeSAmount := filterOptions.MinTokeSAmount.filterMap
        (fun kv => (env.SetString10 kv.2).map (fun amount => (kv.1, amount)))
      MinTokenSUsdAmount := filterOptions.MinTokenSUsdAmount
      MaxValidSinceInterval := filterOptions.MaxValidSinceInterval }
  { filters := (((([] ++ [Filter.powFilter powFilter]) ++ [Filter.baseFilter baseFilter])
      ++ [Filter.signFilter]) ++ [Filter.tokenFilter]) ++ [Filter.cutoffFilter]
    isBroadcast := options.IsBroadcast
    maxBroadcastTime := options.MaxBroadcastTime }

/-- What `HandleInputOrder` does besides returning, in the order it does it. -/
inductive Effect where
  /-- `eventemitter.Emit(eventemitter.NewOrderForBroadcast, ·)` -/
  | emitNewOrderForBroadcast (o : Order)
  /-- `eventemitter.Emit(eventemitter.NewOrder, ·)` -/
  | emitNewOrder (s : OrderState)
  /-- the call `generatePrice(order)` -/
  | generatePriceCall
  /-- the call `v.filter(order)` on the stage at index `idx`, with what it returned -/
  | filterCall (idx : Nat) (res : Option (Bool × Option String))
  /-- the call `manager.UpdateBroadcastTimeByHash(hash, n)` -/
  | updateBroadcastTimeByHash (hash : Hash) (n : Int)
  /-- `log.Errorf(·)` -/
  | logErrorf (msg : String)
  /-- `log.Infof(·)` -/
  | logInfof (msg : String)

/-- How the loop over `gateway.filters` ends. -/
inductive LoopOut where
  /-- every stage accepted; the order as the stages left it -/
  | passed (o : Order)
  /-- a stage rejected with this error: `return orderHash, err` -/
  | rejected (o : Order) (err : String)
  /-- a stage did not return, or `err.Error()` was called on a nil error -/
  | panicked (o : Order)

/-- The loop `for _, v := range gateway.filters` of `HandleInputOrder`, from index `idx` on. -/
def filterLoop (env : Env) : List Filter → Nat → Order → List Effect × LoopOut
  | [], _, o => ([], LoopOut.passed o)
  | v :: vs, idx, o =>
    match Filter.filter env v o with
    | none => ([Effect.filterCall idx none], LoopOut.panicked o)
    | some r =>
      if r.valid = false then
        match r.err with
        | none => ([Effect.filterCall idx (some (r.valid, r.err))], LoopOut.panicked r.order)
        | some e =>
          ([Effect.filterCall idx (some (r.valid, r.err)), Effect.logErrorf e],
            LoopOut.rejected r.order e)
      else
        (Effect.filterCall idx (some (r.valid, r.err)) :: (filterLoop env vs (idx + 1) r.order).1,
          (filterLoop env vs (idx + 1) r.order).2)

/-- The message of the duplicate-submission error. -/
def errOrderExisted : String := "order existed, please not submit again"

/-- One call of `HandleInputOrder`: its effects in order, what it returns (`none` when it
panics) and the order object as the call leaves it. -/
structure Run where
  effects : List Effect
  ret : Option (String × Option String)
  order : Order

/-- Embedding of `HandleInputOrder`. -/
def HandleInputOrder (env : Env) (gateway : GatewayState) (input : Order) : Run :=
  let order : Order := { input with Hash := env.GenerateHash input }
  let orderHash := env.hashHex order.Hash
  match env.reg.WrapMarketByAddress (env.addrHex order.TokenB) (env.addrHex order.TokenS) with
  | .error e => ⟨[], some (orderHash, some e), order⟩
  | .ok market =>
    let order : Order := { order with
      Market := market
      Side := env.reg.GetSide (env.addrHex order.TokenS) (env.addrHex order.TokenB) }
    if (env.GetOrderByHash order.Hash).2 = some "record not found" then
      match (generatePrice env.reg order).2 with
      | some e =>
        ⟨[Effect.emitNewOrderForBroadcast order, Effect.generatePriceCall],
          some (orderHash, some e), (generatePrice env.reg order).1⟩
      | none =>
        match filterLoop env gateway.filters 0 (generatePrice env.reg order).1 with
        | (es, LoopOut.panicked o) =>
          ⟨[Effect.emitNewOrderForBroadcast order, Effect.generatePriceCall] ++ es, none, o⟩
        | (es, LoopOut.rejected o e) =>
          ⟨[Effect.emitNewOrderForBroadcast order, Effect.generatePriceCall] ++ es,
            some (orderHash, some e), o⟩
        | (es, LoopOut.passed o) =>
          ⟨[Effect.emitNewOrderForBroadcast order, Effect.generatePriceCall] ++ es
              ++ [Effect.emitNewOrder (OrderState.ofOrder o)],
            some (orderHash, none), o⟩
    else
      match (env.GetOrderByHash order.Hash).1 with
      | none => ⟨[], none, order⟩
      | some state =>
        let broadcastTime := state.BroadcastTime + 1
        if gateway.isBroadcast = true ∧ broadcastTime < gateway.maxBroadcastTime then
          match env.UpdateBroadcastTimeByHash state.RawOrder.Hash (broadcastTime + 1) with
          | some e =>
            ⟨[Effect.emitNewOrderForBroadcast state.RawOrder,
                Effect.updateBroadcastTimeByHash state.RawOrder.Hash (broadcastTime + 1)],
              some (orderHash, some e), order⟩
          | none =>
            ⟨[Effect.emitNewOrderForBroadcast state.RawOrder,
                Effect.updateBroadcastTimeByHash state.RawOrder.Hash (broadcastTime + 1),
                Effect.logInfof ("gateway,order " ++ env.hashHex order.Hash
                  ++ " exist,will not insert again")],
              some (orderHash, some errOrderExisted), order⟩
        else
          ⟨[Effect.logInfof ("gateway,order " ++ env.hashHex order.Hash
              ++ " exist,will not insert again")],
            some (orderHash, some errOrderExisted), order⟩

/-! ## Sample inputs -/

/-- A sample order: sells token 1 for token 2, 1000 units for 10. -/
def sampleOrder : Order where
  Protocol := ⟨100⟩
  DelegateAddress := ⟨101⟩
  AuthAddr := ⟨7⟩
  AuthPrivateKey := 7
  Owner := ⟨50⟩
  TokenS := ⟨1⟩
  TokenB := ⟨2⟩
  AmountS := some 1000
  AmountB := some 10
  ValidSince := some 1000
  ValidUntil := some 2000
  MarginSplitPercentage := 50
  BuyNoMoreThanAmountB := false
  OrderType := "p2p_order"
  V := 27
  R := Bytes32.zero
  S := Bytes32.zero
  PowNonce := 1
  Hash := ⟨0⟩
  Price := none
  Market := ""
  Side := ""

/-- Token X of the sample registry: address 1, 18 decimals. -/
def tokenX : Token := ⟨⟨1⟩, "X", some (10 ^ 18), false⟩

/-- Token Y of the sample registry: address 2, 6 decimals. -/
def tokenY : Token := ⟨⟨2⟩, "Y", some (10 ^ 6), false⟩

/-- Token LRC of the sample registry: address 3, 18 decimals. -/
def tokenLRC : Token := ⟨⟨3⟩, "LRC", some (10 ^ 18), false⟩

/-- A sample registry holding X, Y and LRC, with the market X-Y. -/
def sampleRegistry : Registry where
  AddressToToken := fun a =>
    if a = ⟨1⟩ then .ok tokenX
    else if a = ⟨2⟩ then .ok tokenY
    else if a = ⟨3⟩ then .ok tokenLRC
    else .error "unsupported token"
  AllTokens := [("X", tokenX), ("Y", tokenY), ("LRC", tokenLRC)]
  AliasToAddress := fun s => if s = "LRC" then ⟨3⟩ else ⟨0⟩
  WrapMarketByAddress := fun _ _ => .ok "X-Y"
  GetSide := fun _ _ => "sell"

/-- A sample environment: nothing stored yet, every collaborator answers favourably. -/
def sampleEnv : Env where
  reg := sampleRegistry
  GenerateHash := fun o => ⟨o.PowNonce + 1⟩
  hashHex := fun _ => "0xhash"
  addrHex := fun _ => "0xaddr"
  GetOrderByHash := fun _ => (none, some "record not found")
  UpdateBroadcastTimeByHash := fun _ _ => none
  IsRelateProtocol := fun _ _ => true
  privateKeyAddress := fun k => ⟨k⟩
  GetBalanceWithSymbolResult := fun _ => .ok [("LRC", 10 ^ 21)]
  now := 1500
  splitFraction := fun p => (p : ℚ) / 100
  SignerAddress := fun o => .ok o.Owner
  IsOrderCutoff := fun _ _ _ _ _ => false
  sha256 := fun bs => bs.take 32
  HexToBigint := fun _ => 0
  SetString10 := fun s => s.toInt?

/-! ## Reading a trace -/

/-- The stage call an effect records, if it is one: the index and what the stage returned. -/
def Effect.stageCall? : Effect → Option (Nat × Option (Bool × Option String))
  | Effect.filterCall idx res => some (idx, res)
  | _ => none

/-- The stage calls of a trace, in the order they were made. -/
def stageCalls (es : List Effect) : List (Nat × Option (Bool × Option String)) :=
  es.filterMap Effect.stageCall?

/-- A stage call returned with `valid = true`. -/
def verdictAccepts (r : Option (Bool × Option String)) : Bool :=
  match r with
  | some (true, _) => true
  | _ => false

/-- A stage call returned with `valid = false`. -/
def verdictRejects (r : Option (Bool × Option String)) : Bool :=
  match r with
  | some (false, _) => true
  | _ => false

/-- The stage calls `calls` made on a list of `n` stages are a prefix of the list taken in
order, starting at index `start`: the indices called are `start, start+1, ...`, every call
but the last one accepted (so a rejecting call is the last), and when every call accepted
all `n` stages were called. -/
def StagesFrom (start n : Nat) (calls : List (Nat × Option (Bool × Option String))) : Prop :=
  calls.map Prod.fst = List.range' start calls.length
  ∧ calls.length ≤ n
  ∧ (∀ c ∈ calls.dropLast, verdictAccepts c.2 = true)
  ∧ (∀ c ∈ calls, verdictRejects c.2 = true → calls.getLast? = some c)
  ∧ ((∀ c ∈ calls, verdictAccepts c.2 = true) → calls.length = n)

/-- The stages evaluated are exactly the prefix of the `n` stages up to and including the
first rejecting one, the whole list when none rejects. -/
def StagesExact (n : Nat) (calls : List (Nat × Option (Bool × Option String))) : Prop :=
  StagesFrom 0 n calls

/-- A stage that accepts every order. -/
def acceptAll : Filter := Filter.other (fun o => some ⟨o, true, none⟩)

/-- A stage that rejects every order with the given reason. -/
def rejectAll (msg : String) : Filter := Filter.other (fun o => some ⟨o, false, some msg⟩)

/-- A gateway holding the given stages, not in broadcast mode. -/
def gatewayOf (filters : List Filter) : GatewayState := ⟨filters, false, 0⟩

/-- The sample order without a sell amount: price generation fails on it. -/
def orderNoAmount : Order := { sampleOrder with AmountS := none }

/-- Sample filter options: difficulty from a hex string, no per-token minimum. -/
def sampleFilterOptions : GatewayFiltersOptions where
  MinLrcFee := 0
  MinLrcHold := 100
  MaxPrice := 1000000000000000
  MinSplitPercentage := 0
  MaxSplitPercentage := 1
  MinTokeSAmount := []
  MinTokenSUsdAmount := 0
  MaxValidSinceInterval := 100
  Difficulty := "0x0"

/-- Sample gateway options: not in broadcast mode. -/
def sampleGateWayOptions : GateWayOptions := ⟨false, 0⟩

/-- The sample order with a zero proof-of-work nonce: the proof-of-work check fails on it. -/
def orderNoPow : Order := { sampleOrder with PowNonce := 0 }

/-- The sample environment with a signature recovery that fails on every order. -/
def failSignEnv : Env :=
  { sampleEnv with SignerAddress := fun _ => .error "invalid signature" }

/-- The environment `failSignEnv` with a store that already holds every order. -/
def storedEnv : Env :=
  { failSignEnv with GetOrderByHash := fun _ => (some (OrderState.ofOrder sampleOrder), none) }

/-- The value of a byte string read as a little-endian unsigned integer: byte `i` weighs
`256 ^ i`. -/
def littleEndianValue : List Nat → Nat
  | [] => 0
  | b :: bs => b + 256 * littleEndianValue bs

/-- The value of a byte string read as a big-endian unsigned integer: the first byte weighs
most. -/
def bigEndianValue : List Nat → Nat
  | [] => 0
  | b :: bs => b * 256 ^ bs.length + bigEndianValue bs

/-- A byte string standing in for a digest in the samples. -/
def sampleDigest : List Nat := [0, 0, 1, 2]

/-- The sample environment with a hash function that returns `sampleDigest`, of value 258. -/
def digestEnv : Env := { sampleEnv with sha256 := fun _ => sampleDigest }

/-! ## The checks of the base stage, one by one -/

/-- What one check of the base stage yields on an order: it passes, it fails with a reason,
or it cannot be evaluated (a value it reads is missing). -/
inductive CheckOutcome where
  | passes
  | fails (reason : String)
  | aborts
deriving DecidableEq

/-- The result of checks evaluated in order: the first one that does not pass decides. -/
def firstOutcome : List CheckOutcome → Option (Bool × Option String)
  | [] => some (true, none)
  | CheckOutcome.passes :: cs => firstOutcome cs
  | CheckOutcome.fails r :: _ => some (false, some r)
  | CheckOutcome.aborts :: _ => none

/-- Check 1: the protocol and the delegate are a registered pair. -/
def checkProtocolDelegate (env : Env) (o : Order) : CheckOutcome :=
  if env.IsRelateProtocol o.Protocol o.DelegateAddress = true then CheckOutcome.passes
  else CheckOutcome.fails "protocol and Delegate are not matched"

/-- Check 2: on a market order the auth private key yields the auth address. -/
def checkAuthKey (env : Env) (o : Order) : CheckOutcome :=
  if o.OrderType = ORDER_TYPE_MARKET ∧ env.privateKeyAddress o.AuthPrivateKey ≠ o.AuthAddr then
    CheckOutcome.fails "market order auth private key not correct"
  else CheckOutcome.passes

/-- Check 3: unless the buy token is LRC, the owner holds enough LRC. -/
def checkLrcHold (env : Env) (f : BaseFilter) (o : Order) : CheckOutcome :=
  if o.TokenB = env.reg.AliasToAddress "LRC" then CheckOutcome.passes
  else
    match env.GetBalanceWithSymbolResult o.Owner with
    | .error _ => CheckOutcome.fails (errLrcHold f)
    | .ok balances =>
      match balances.lookup "LRC", (env.reg.tokenOf "LRC").Decimals with
      | none, _ => CheckOutcome.fails (errLrcHold f)
      | some _, none => CheckOutcome.aborts
      | some b, some decimals =>
        if b ≤ f.MinLrcHold * decimals then CheckOutcome.fails (errLrcHold f)
        else CheckOutcome.passes

/-- Check 4: the hash is 32 bytes long. -/
def checkHashLength (env : Env) (o : Order) : CheckOutcome :=
  if o.Hash.len = 32 then CheckOutcome.passes
  else CheckOutcome.fails ("gateway,base filter,order " ++ env.hashHex o.Hash ++ " length error")

/-- Check 5: the buy token address is 20 bytes long. -/
def checkTokenBLength (env : Env) (o : Order) : CheckOutcome :=
  if o.TokenB.len = 20 then CheckOutcome.passes
  else CheckOutcome.fails ("gateway,base filter,order " ++ env.hashHex o.Hash ++ " tokenB "
    ++ env.addrHex o.TokenB ++ " address length error")

/-- Check 6: the sell token address is 20 bytes long. -/
def checkTokenSLength (env : Env) (o : Order) : CheckOutcome :=
  if o.TokenS.len = 20 then CheckOutcome.passes
  else CheckOutcome.fails ("gateway,base filter,order " ++ env.hashHex o.Hash ++ " tokenS "
    ++ env.addrHex o.TokenS ++ " address length error")

/-- Check 7: the buy token differs from the sell token. -/
def checkTokensDiffer (env : Env) (o : Order) : CheckOutcome :=
  if o.TokenB = o.TokenS then
    CheckOutcome.fails ("gateway,base filter,order " ++ env.hashHex o.Hash ++ " tokenB == tokenS")
  else CheckOutcome.passes

/-- Check 8: the owner address is 20 bytes long. -/
def checkOwnerLength (env : Env) (o : Order) : CheckOutcome :=
  if o.Owner.len = 20 then CheckOutcome.passes
  else CheckOutcome.fails ("gateway,base filter,order " ++ env.hashHex o.Hash ++ " owner "
    ++ env.addrHex o.Owner ++ " address length error")

/-- Check 9: the protocol address is 20 bytes long. -/
def checkProtocolLength (env : Env) (o : Order) : CheckOutcome :=
  if o.Protocol.len = 20 then CheckOutcome.passes
  else CheckOutcome.fails ("gateway,base filter,order " ++ env.hashHex o.Hash ++ " protocol "
    ++ env.addrHex o.Owner ++ " address length error")

/-- Check 10: the price is neither above `MaxPrice` nor below `1/MaxPrice`. -/
def checkPriceRange (f : BaseFilter) (o : Order) : CheckOutcome :=
  match o.Price with
  | none => CheckOutcome.aborts
  | some price =>
    if price > (f.MaxPrice : ℚ) then CheckOutcome.fails "dao order convert down,price out of range"
    else if f.MaxPrice = 0 then CheckOutcome.aborts
    else if price < 1 / (f.MaxPrice : ℚ) then
      CheckOutcome.fails "dao order convert down,price out of range"
    else CheckOutcome.passes

/-- Check 11: `validSince` less the tolerated interval is not after now. -/
def checkValidSince (env : Env) (f : BaseFilter) (o : Order) : CheckOutcome :=
  match o.ValidSince with
  | none => CheckOutcome.aborts
  | some validSince =>
    if wrapInt64 (wrapInt64 validSince - f.MaxValidSinceInterval) > env.now then
      CheckOutcome.fails ("valid since is too small, order must be valid before "
        ++ toString (wrapInt64 (env.now - f.MaxValidSinceInterval)) ++ " second timestamp")
    else CheckOutcome.passes

/-- Check 12: `validUntil` is not before now. -/
def checkValidUntil (env : Env) (o : Order) : CheckOutcome :=
  match o.ValidUntil with
  | none => CheckOutcome.aborts
  | some validUntil =>
    if wrapInt64 validUntil < env.now then
      CheckOutcome.fails "order expired, please check validUntil"
    else CheckOutcome.passes

/-- Check 13: the margin split fraction lies between the two configured bounds. -/
def checkMarginSplit (env : Env) (f : BaseFilter) (o : Order) : CheckOutcome :=
  if env.splitFraction o.MarginSplitPercentage < f.MinSplitPercentage
      ∨ env.splitFraction o.MarginSplitPercentage > f.MaxSplitPercentage then
    CheckOutcome.fails "margin split percentage out of range"
  else CheckOutcome.passes

/-- Check 14: the sell token resolves in the registry. -/
def checkTokenSResolves (env : Env) (o : Order) : CheckOutcome :=
  match env.reg.AddressToToken o.TokenS with
  | .error _ => CheckOutcome.fails "tokenS is not support now"
  | .ok _ => CheckOutcome.passes

/-- Check 15: where a minimum is configured for the sell token's symbol, the sell amount
reaches it. -/
def checkMinTokenSAmount (env : Env) (f : BaseFilter) (o : Order) : CheckOutcome :=
  match env.reg.AddressToToken o.TokenS with
  | .error _ => CheckOutcome.passes
  | .ok tokenS =>
    match f.MinTokeSAmount.lookup tokenS.Symbol, o.AmountS with
    | none, _ => CheckOutcome.passes
    | some _, none => CheckOutcome.aborts
    | some minAmount, some amountS =>
      if amountS < minAmount then CheckOutcome.fails "tokenS amount is too small"
      else CheckOutcome.passes

/-- The checks of the base stage that follow the minimum-holding check, in the stated order. -/
def restChecks (env : Env) (f : BaseFilter) (o : Order) : List CheckOutcome :=
  [checkHashLength env o, checkTokenBLength env o, checkTokenSLength env o,
    checkTokensDiffer env o, checkOwnerLength env o, checkProtocolLength env o,
    checkPriceRange f o, checkValidSince env f o, checkValidUntil env o,
    checkMarginSplit env f o, checkTokenSResolves env o, checkMinTokenSAmount env f o]

/-- The checks of the base stage in the stated order: protocol/delegate, auth key, minimum
LRC holding, then the lengths, the token difference, the price range, the two validity
times, the margin split, the sell token and its minimum amount. -/
def baseChecks (env : Env) (f : BaseFilter) (o : Order) : List CheckOutcome :=
  checkProtocolDelegate env o :: checkAuthKey env o :: checkLrcHold env f o
    :: restChecks env f o

/-- A sample base filter: at least 100 LRC to hold, prices up to 10^15. -/
def sampleBaseFilter : BaseFilter where
  MinLrcFee := 0
  MinLrcHold := 100
  MinSplitPercentage := 0
  MaxSplitPercentage := 1
  MaxPrice := 1000000000000000
  MinTokeSAmount := []
  MinTokenSUsdAmount := 0
  MaxValidSinceInterval := 100

/-- The sample order once priced: 1000 X for 10 Y at price 1/10^10. -/
def pricedOrder : Order := { sampleOrder with Price := some (1 / 10000000000) }

/-- The sample environment with an owner who holds the given amount of LRC base units. -/
def holdEnv (balance : Int) : Env :=
  { sampleEnv with GetBalanceWithSymbolResult := fun _ => .ok [("LRC", balance)] }

/-- The priced sample order turned into one that buys LRC. -/
def lrcBuyOrder : Order := { pricedOrder with TokenB := ⟨3⟩ }

/-- The sample environment with a failing balance lookup. -/
def lookupFailsEnv : Env :=
  { sampleEnv with GetBalanceWithSymbolResult := fun _ => .error "account service down" }

/-- The sample environment with a balance map that has no LRC entry. -/
def noLrcEntryEnv : Env :=
  { sampleEnv with GetBalanceWithSymbolResult := fun _ => .ok [("X", 5)] }

/-! ## Order book: available amounts (`gateway/wallet_service.go`) -/

/-- What the order-book code of the wallet service calls outside its own package. -/
structure WalletEnv where
  reg : Registry
  /-- `types.Hash.Hex` -/
  hashHex : Hash → String
  /-- `accountmanager.GetBalanceAndAllowance(owner, token, spender)`: balance and allowance -/
  GetBalanceAndAllowance : Address → Address → Address → Except String (Int × Int)
  /-- `types.OrderState.RemainedAmount`: the remaining sell and buy amounts in base units,
  `none` when the call does not return -/
  RemainedAmount : OrderState → Option (ℚ × ℚ)
  /-- `big.Rat.Float64`: the nearest double, as the rational it denotes -/
  Float64 : ℚ → ℚ
  /-- `fmt.Sprintf("%0.8f", f)` -/
  Sprintf8 : ℚ → String
  /-- `strconv.ParseFloat(s, 64)`, the error discarded -/
  ParseFloat : String → ℚ
  /-- `big.Rat.FloatString(10)` -/
  FloatString10 : ℚ → String

/-- Embedding of `fmtFloat`: the double nearest `src`, printed with 8 decimals and parsed
back. -/
def fmtFloat (wenv : WalletEnv) (src : ℚ) : ℚ :=
  wenv.ParseFloat (wenv.Sprintf8 (wenv.Float64 src))

/-- Go `new(big.Rat).SetFloat64(1e-8)`: the exact value of the double nearest to `10^-8`,
which is `3022314549036573 / 2^78`. -/
def dustThreshold : ℚ := 3022314549036573 / 302231454903657293676544

/-- Embedding of `getAvailableMinAmount`: the pair `(amount, err)` it returns, `none` when
`decimal` is nil or zero (`SetFrac` does not return). -/
def getAvailableMinAmount (wenv : WalletEnv) (depthAmount : ℚ) (owner token spender : Address)
    (decimal : Option Int) : Option (Option ℚ × Option String) :=
  match wenv.GetBalanceAndAllowance owner token spender with
  | .error e => some (some depthAmount, some e)
  | .ok (balance, allowance) =>
    match decimal with
    | none => none
    | some d =>
      if d = 0 then none else
      let balanceRat := SetFrac balance d
      let allowanceRat := SetFrac allowance d
      let amount := if depthAmount > balanceRat then balanceRat else depthAmount
      let amount := if amount > allowanceRat then allowanceRat else amount
      if amount < dustThreshold then some (none, some "amount is zero, skipped")
      else some (some amount, none)

/-- Embedding of `calculateOrderBookAmount`: `(amountS, amountB)` or the error; `none` when
the call does not return (a nil or zero decimal, a nil or zero order amount). -/
def calculateOrderBookAmount (wenv : WalletEnv) (state : OrderState) (_isAsk : Bool)
    (tokenSDecimal tokenBDecimal : Option Int) : Option (Except String (ℚ × ℚ)) :=
  match wenv.RemainedAmount state with
  | none => none
  | some (remainedS, remainedB) =>
    match tokenSDecimal, tokenBDecimal with
    | some dS, some dB =>
      if dS = 0 then none else
      if dB = 0 then none else
      let amountS := remainedS / SetFrac dS 1
      let amountB := remainedB / SetFrac dB 1
      if amountS = 0 then some (.error "amount s is zero")
      else if amountB = 0 then some (.error "amount b is zero")
      else
        match getAvailableMinAmount wenv amountS state.RawOrder.Owner state.RawOrder.TokenS
            state.RawOrder.DelegateAddress tokenSDecimal with
        | none => none
        | some (_, some e) => some (.error e)
        | some (none, none) => none
        | some (some minAmountS, none) =>
          match state.RawOrder.AmountS, state.RawOrder.AmountB with
          | some orderAmountS, some orderAmountB =>
            if orderAmountB = 0 then none else
            if orderAmountS = 0 then none else
            let sellPrice := SetFrac orderAmountS orderAmountB
            let buyPrice := SetFrac orderAmountB orderAmountS
            if state.RawOrder.BuyNoMoreThanAmountB = true then
              let limitedAmountS := amountB * sellPrice
              let minAmountS := if limitedAmountS < minAmountS then limitedAmountS else minAmountS
              some (.ok (minAmountS, minAmountS * buyPrice))
            else
              let limitedAmountB := minAmountS * buyPrice
              let minAmountB := if limitedAmountB < amountB then limitedAmountB else amountB
              some (.ok (minAmountB * sellPrice, minAmountB))
          | _, _ => none
    | _, _ => none

/-! ## Order book: the loops over the order states -/

/-- Go `DepthElement`. -/
structure DepthElement where
  Price : String
  Size : ℚ
  Amount : ℚ
deriving DecidableEq

/-- Go `depthMap[key] = v` on a `map[string]DepthElement` held as its list of entries: the
entry under `key` is replaced, or a new entry is added. -/
def depthMapSet (m : List (String × DepthElement)) (key : String) (v : DepthElement) :
    List (String × DepthElement) :=
  if (m.lookup key).isSome then m.map (fun e => if e.1 = key then (key, v) else e)
  else m ++ [(key, v)]

/-- One turn of the loop of `calculateDepth` over `states`: the map after the turn, `none`
when the turn does not return (nil price, inverse of a zero price, or the amount
computation does not return). An order whose amount computation fails is skipped. -/
def depthStep (wenv : WalletEnv) (isAsk : Bool) (tokenSDecimal tokenBDecimal : Option Int)
    (depthMap : List (String × DepthElement)) (s : OrderState) :
    Option (List (String × DepthElement)) :=
  match s.RawOrder.Price with
  | none => none
  | some price =>
    match calculateOrderBookAmount wenv s isAsk tokenSDecimal tokenBDecimal with
    | none => none
    | some (.error _) => some depthMap
    | some (.ok (minAmountS, minAmountB)) =>
      if isAsk = true then
        if price = 0 then none else
        let priceFloatStr := wenv.FloatString10 price⁻¹
        match depthMap.lookup priceFloatStr with
        | some v =>
          some (depthMapSet depthMap priceFloatStr
            { Price := v.Price, Amount := v.Amount + minAmountS, Size := v.Size + minAmountB })
        | none =>
          some (depthMapSet depthMap priceFloatStr
            { Price := priceFloatStr, Amount := minAmountS, Size := minAmountB })
      else
        let priceFloatStr := wenv.FloatString10 price
        match depthMap.lookup priceFloatStr with
        | some v =>
          some (depthMapSet depthMap priceFloatStr
            { Price := v.Price, Amount := v.Amount + minAmountB, Size := v.Size + minAmountS })
        | none =>
          some (depthMapSet depthMap priceFloatStr
            { Price := priceFloatStr, Amount := minAmountB, Size := minAmountS })

/-- The loop `for _, s := range states` of `calculateDepth`, started on `depthMap`. -/
def depthLoop (wenv : WalletEnv) (isAsk : Bool) (tokenSDecimal tokenBDecimal : Option Int) :
    List OrderState → List (String × DepthElement) → Option (List (String × DepthElement))
  | [], depthMap => some depthMap
  | s :: rest, depthMap =>
    match depthStep wenv isAsk tokenSDecimal tokenBDecimal depthMap s with
    | none => none
    | some depthMap' => depthLoop wenv isAsk tokenSDecimal tokenBDecimal rest depthMap'

/-- Go `OrderBookElement`; a `float64` is the rational it denotes. -/
structure OrderBookElement where
  Price : ℚ
  Size : ℚ
  Amount : ℚ
  OrderHash : String
  LrcFee : ℚ
  SplitS : ℚ
  SplitB : ℚ
  ValidUntil : Int
deriving DecidableEq

/-- Go `new(big.Rat).SetFrac(a, b)` on two pointers: `none` when one is nil or `b` is zero. -/
def SetFrac? (a b : Option Int) : Option ℚ :=
  match a, b with
  | some x, some y => if y = 0 then none else some (SetFrac x y)
  | _, _ => none

/-- The part of one turn of the loop of `generateOrderBook` that precedes the amount
computation: the element with hash, split amounts, fee and expiry filled in, and the
price read; `none` when a value read is nil or a decimal is zero. -/
def bookHeader (wenv : WalletEnv) (tokenSDecimal tokenBDecimal : Option Int) (s : OrderState) :
    Option (OrderBookElement × ℚ) :=
  match SetFrac? s.SplitAmountS tokenSDecimal, SetFrac? s.SplitAmountB tokenBDecimal,
      SetFrac? s.RawOrder.LrcFee (wenv.reg.tokenOf "LRC").Decimals, s.RawOrder.ValidUntil,
      s.RawOrder.Price with
  | some splitS, some splitB, some lrcFee, some validUntil, some price =>
    some ({ Price := 0, Size := 0, Amount := 0
            OrderHash := wenv.hashHex s.RawOrder.Hash
            LrcFee := fmtFloat wenv lrcFee
            SplitS := fmtFloat wenv splitS
            SplitB := fmtFloat wenv splitB
            ValidUntil := wrapInt64 validUntil }, price)
  | _, _, _, _, _ => none

/-- One turn of the loop of `generateOrderBook`: the elements after the turn, `none` when
the turn does not return. An order whose amount computation fails is skipped. -/
def bookStep (wenv : WalletEnv) (isAsk : Bool) (tokenSDecimal tokenBDecimal : Option Int)
    (elements : List OrderBookElement) (s : OrderState) : Option (List OrderBookElement) :=
  match bookHeader wenv tokenSDecimal tokenBDecimal s with
  | none => none
  | some (o, price) =>
    match calculateOrderBookAmount wenv s isAsk tokenSDecimal tokenBDecimal with
    | none => none
    | some (.error _) => some elements
    | some (.ok (amountS, amountB)) =>
      if isAsk = true then
        if price = 0 then none else
        some (elements ++ [{ o with
          Price := fmtFloat wenv price⁻¹
          Amount := fmtFloat wenv amountS
          Size := fmtFloat wenv amountB }])
      else
        some (elements ++ [{ o with
          Price := fmtFloat wenv price
          Amount := fmtFloat wenv amountB
          Size := fmtFloat wenv amountS }])

/-- The loop `for _, s := range states` of `generateOrderBook`, started on `elements`. -/
def bookLoop (wenv : WalletEnv) (isAsk : Bool) (tokenSDecimal tokenBDecimal : Option Int) :
    List OrderState → List OrderBookElement → Option (List OrderBookElement)
  | [], elements => some elements
  | s :: rest, elements =>
    match bookStep wenv isAsk tokenSDecimal tokenBDecimal elements s with
    | none => none
    | some elements' => bookLoop wenv isAsk tokenSDecimal tokenBDecimal rest elements'

/-! ## Sample inputs: order book -/

/-- A sample of printing with `k` decimals: the count `z` of units of `10^-k`, not
negative, written as a decimal with `k` places. -/
def renderFixed (k : Nat) (z : Int) : String :=
  let n := z.toNat
  let frac := toString (n % 10 ^ k)
  toString (n / 10 ^ k) ++ "." ++ String.mk (List.replicate (k - frac.length) '0') ++ frac

/-- The digits of a decimal read as one number, the point left out. -/
def decimalDigits (s : String) : Nat :=
  (s.data.filter Char.isDigit).foldl (fun acc c => acc * 10 + (c.toNat - 48)) 0

/-- The number of places after the point of a decimal. -/
def decimalPlaces (s : String) : Nat :=
  (s.data.dropWhile (fun c => c != '.')).length - 1

/-- A sample of `strconv.ParseFloat` on decimals that are not negative: the number
written. -/
def parseDecimal (s : String) : ℚ :=
  (decimalDigits s : ℚ) / 10 ^ decimalPlaces s

/-- A sample wallet environment: balance 50 and allowance 40 units of an 18-decimal token,
nothing dealt yet; doubles are exact, and a number is printed rounded to the last place. -/
def sampleWalletEnv : WalletEnv where
  reg := sampleRegistry
  hashHex := fun _ => "0xhash"
  GetBalanceAndAllowance := fun _ _ _ => .ok (50 * 10 ^ 18, 40 * 10 ^ 18)
  RemainedAmount := fun st =>
    match st.RawOrder.AmountS, st.RawOrder.AmountB with
    | some a, some b => some ((a : ℚ), (b : ℚ))
    | _, _ => none
  Float64 := fun q => q
  Sprintf8 := fun q => renderFixed 8 ⌊q * 100000000 + 1 / 2⌋
  ParseFloat := parseDecimal
  FloatString10 := fun q => renderFixed 10 ⌊q * 10000000000 + 1 / 2⌋

/-- An order state selling 100 units of X (18 decimals) for 200 units of Y (6 decimals). -/
def sampleState : OrderState :=
  { OrderState.ofOrder { pricedOrder with
      AmountS := some (100 * 10 ^ 18), AmountB := some (200 * 10 ^ 6), LrcFee := some 0 } with
    SplitAmountS := some 0, SplitAmountB := some 0 }

/-- The sample wallet environment with an owner whose balance, 5 base units of an
18-decimal token, is far below the dust threshold. -/
def dustWalletEnv : WalletEnv :=
  { sampleWalletEnv with GetBalanceAndAllowance := fun _ _ _ => .ok (5, 40 * 10 ^ 18) }

/-! ## Sample inputs: price and validity checks -/

/-- The reason of the price check of the base stage. -/
def errPriceRange : String := "dao order convert down,price out of range"

/-- The reason of the validSince check of the base stage. -/
def errValidSince (env : Env) (f : BaseFilter) : String :=
  "valid since is too small, order must be valid before "
    ++ toString (wrapInt64 (env.now - f.MaxValidSinceInterval)) ++ " second timestamp"

/-- The priced sample order with its price set to the given value. -/
def orderAtPrice (price : ℚ) : Order := { pricedOrder with Price := some price }

/-- The priced sample order with `validSince` set to the given value. -/
def orderValidSince (validSince : Int) : Order :=
  { pricedOrder with ValidSince := some validSince }

/-! ## Sample inputs: token support -/

/-- The registry holds an entry for the address that is not denied. -/
def tokenSupported (reg : Registry) (a : Address) : Prop :=
  ∃ e ∈ reg.AllTokens, e.2.Protocol = a ∧ e.2.Deny = false

/-- The sample order selling an unknown token (address 9) for another unknown token
(address 8). -/
def unknownTokensOrder : Order := { sampleOrder with TokenS := ⟨9⟩, TokenB := ⟨8⟩ }

/-! ## Reading a trace: events -/

/-- The orders carried by the `NewOrderForBroadcast` events of a trace, in order. -/
def broadcastEvents (es : List Effect) : List Order :=
  es.filterMap (fun e => match e with
    | Effect.emitNewOrderForBroadcast o => some o
    | _ => none)

/-- The order states carried by the `NewOrder` events of a trace, in order. -/
def newOrderEvents (es : List Effect) : List OrderState :=
  es.filterMap (fun e => match e with
    | Effect.emitNewOrder st => some st
    | _ => none)

/-- The values passed to `UpdateBroadcastTimeByHash` in a trace, in order. -/
def broadcastTimeWrites (es : List Effect) : List (Hash × Int) :=
  es.filterMap (fun e => match e with
    | Effect.updateBroadcastTimeByHash h n => some (h, n)
    | _ => none)

/-- The order as `HandleInputOrder` holds it once hash, market and side are written. -/
def resolvedOrder (env : Env) (input : Order) (market : String) : Order :=
  { input with
    Hash := env.GenerateHash input
    Market := market
    Side := env.reg.GetSide (env.addrHex input.TokenS) (env.addrHex input.TokenB) }

/-- A stage that leaves the order it is given as it is. -/
def Filter.keepsOrder (env : Env) (v : Filter) : Prop :=
  ∀ o r, Filter.filter env v o = some r → r.order = o

/-- The call returned with a nil error. -/
def Run.succeeded (r : Run) : Prop := ∃ h, r.ret = some (h, none)

/-- The order reaches the stages: its market resolves, the store reports "record not
found" and price generation succeeds. -/
def reachesStages (env : Env) (input : Order) : Prop :=
  (∃ market, env.reg.WrapMarketByAddress (env.addrHex input.TokenB) (env.addrHex input.TokenS)
      = .ok market)
  ∧ (env.GetOrderByHash (env.GenerateHash input)).2 = some "record not found"
  ∧ (generatePrice env.reg input).2 = none

/-! ## Sample inputs: stored orders -/

/-- A stored state of the sample order with the given broadcast counter. -/
def storedState (broadcastTime : Int) : OrderState :=
  { OrderState.ofOrder sampleOrder with BroadcastTime := broadcastTime }

/-- The sample environment with a store that holds every order, broadcast counter 0. -/
def holdsEnv : Env :=
  { sampleEnv with GetOrderByHash := fun _ => (some (storedState 0), none) }

/-- The environment `holdsEnv` with a failing write of the broadcast counter. -/
def updateFailsEnv : Env :=
  { holdsEnv with UpdateBroadcastTimeByHash := fun _ _ => some "db down" }

/-- The environment `holdsEnv` with a registry in which no market resolves. -/
def noMarketEnv : Env :=
  { holdsEnv with
    reg := { sampleRegistry with WrapMarketByAddress := fun _ _ => .error "unsupported market" } }

/-- The sample environment with a store lookup that times out and returns no state. -/
def timeoutEnv : Env :=
  { sampleEnv with GetOrderByHash := fun _ => (none, some "timeout") }

/-- The sample environment with a store lookup that times out beside a state. -/
def timeoutStateEnv : Env :=
  { sampleEnv with GetOrderByHash := fun _ => (some (storedState 0), some "timeout") }

/-- A gateway in broadcast mode with a budget of 5 broadcasts and one rejecting stage. -/
def broadcastGateway : GatewayState := ⟨[rejectAll "no"], true, 5⟩

/-! ## Order manager (`ordermanager/manager/common.go`) -/

/-- Modelled from the spec: the status NEW, Go constant `types.ORDER_NEW`, declared
outside the sources at hand. -/
def ORDER_NEW : Nat := 1

/-- Modelled from the spec: the status PARTIAL, Go constant `types.ORDER_PARTIAL`, declared
outside the sources at hand. -/
def ORDER_PARTIAL : Nat := 2

/-- Modelled from the spec: the status FINISHED, Go constant `types.ORDER_FINISHED`,
declared outside the sources at hand. -/
def ORDER_FINISHED : Nat := 3

/-- Modelled from the spec: the status CANCEL, Go constant `types.ORDER_CANCEL`, declared
outside the sources at hand. -/
def ORDER_CANCEL : Nat := 4

/-- What the order manager calls outside its own package. -/
structure ManagerEnv where
  /-- `loopringaccessor.GetCancelled(protocol, orderhash, "latest")` -/
  GetCancelled : Address → Hash → Except String Int
  /-- `loopringaccessor.GetCancelledOrFilled(protocol, orderhash, "latest")` -/
  GetCancelledOrFilled : Address → Hash → Except String Int
  /-- `marketCapProvider.IsOrderValueDust` -/
  IsOrderValueDust : OrderState → Bool
  /-- `types.Hash.Hex` -/
  hashHex : Hash → String

/-- Embedding of `SettleOrderAmountOnChain`: the state after the call and the error. -/
def SettleOrderAmountOnChain (menv : ManagerEnv) (state : OrderState) :
    OrderState × Option String :=
  let protocol := state.RawOrder.DelegateAddress
  let orderhash := state.RawOrder.Hash
  match menv.GetCancelled protocol orderhash with
  | .error e =>
    (state, some ("order manager,handle gateway order,order " ++ menv.hashHex orderhash
      ++ " getCancelled error:" ++ e))
  | .ok cancelled =>
    match menv.GetCancelledOrFilled protocol orderhash with
    | .error e =>
      (state, some ("order manager,handle gateway order,order " ++ menv.hashHex orderhash
        ++ " getCancelledOrFilled error:" ++ e))
    | .ok cancelOrFilled =>
      if cancelOrFilled < cancelled then
        (state, some ("order manager,handle gateway order,order " ++ menv.hashHex orderhash
          ++ " cancelOrFilledAmount:" ++ toString cancelOrFilled ++ " < cancelledAmount:"
          ++ toString cancelled))
      else
        let dealt := cancelOrFilled - cancelled
        if state.RawOrder.BuyNoMoreThanAmountB = true then
          ({ state with DealtAmountB := some dealt, CancelledAmountB := some cancelled }, none)
        else
          ({ state with DealtAmountS := some dealt, CancelledAmountS := some cancelled }, none)

/-- Embedding of `SettleOrderStatus`: the state after the call, `none` when one of the six
amounts is nil (`Add` does not return). -/
def SettleOrderStatus (menv : ManagerEnv) (state : OrderState) (isCancel : Bool) :
    Option OrderState :=
  match state.CancelledAmountS, state.DealtAmountS, state.SplitAmountS,
      state.CancelledAmountB, state.DealtAmountB, state.SplitAmountB with
  | some cancelledS, some dealtS, some splitS, some cancelledB, some dealtB, some splitB =>
    let finishAmountS := cancelledS + dealtS
    let totalAmountS := finishAmountS + splitS
    let finishAmountB := cancelledB + dealtB
    let totalAmountB := finishAmountB + splitB
    let totalAmount := totalAmountS + totalAmountB
    if totalAmount ≤ 0 then some { state with Status := ORDER_NEW }
    else if menv.IsOrderValueDust state = false then some { state with Status := ORDER_PARTIAL }
    else if isCancel = true then some { state with Status := ORDER_CANCEL }
    else some { state with Status := ORDER_FINISHED }
  | _, _, _, _, _, _ => none

/-- Embedding of `NewOrderEntity`: the state as the call leaves it (the conversion to the
stored row, `ConvertDown`, is outside the model); the error of
`SettleOrderAmountOnChain` is discarded, as in the source. -/
def NewOrderEntity (menv : ManagerEnv) (state : OrderState) (blockNumber : Option Int) :
    Option OrderState :=
  let state : OrderState := { state with
    DealtAmountS := some 0
    DealtAmountB := some 0
    SplitAmountS := some 0
    SplitAmountB := some 0
    CancelledAmountB := some 0
    CancelledAmountS := some 0 }
  let state : OrderState :=
    match blockNumber with
    | none => { state with UpdatedBlock := some 0 }
    | some n => { state with UpdatedBlock := some n }
  let state := (SettleOrderAmountOnChain menv state).1
  SettleOrderStatus menv state false

/-! ## Paging through an owner's orders (`gateway/wallet_service.go`) -/

/-- The loop `for i := 2; i < (pageRst.Total/200)+1; i++` of `getAllOrdersByOwner`, with
the page requests made so far; the bound is read from the page fetched last. `none` when
the fuel runs out. -/
def pagesLoop (GetOrders : Int → Except String (List OrderState × Int)) :
    Nat → Int → Int → List OrderState → List Int →
      Option (List Int × Except String (List OrderState))
  | 0, _, _, _, _ => none
  | fuel + 1, i, total, allOrders, pages =>
    if i < Int.tdiv total 200 + 1 then
      match GetOrders i with
      | .error e => some (pages ++ [i], .error e)
      | .ok (data, total') =>
        pagesLoop GetOrders fuel (i + 1) total' (allOrders ++ data) (pages ++ [i])
    else some (pages, .ok allOrders)

/-- Embedding of `getAllOrdersByOwner`; `GetOrders i` is `w.orderViewer.GetOrders` on the
query for page `i` of size 200, returning the page data and the total count. The result
is the list of pages requested, in order, and the orders or the error. -/
def getAllOrdersByOwner (GetOrders : Int → Except String (List OrderState × Int))
    (fuel : Nat) : Option (List Int × Except String (List OrderState)) :=
  match GetOrders 1 with
  | .error e => some ([1], .error e)
  | .ok (data, total) =>
    if total > 200 then pagesLoop GetOrders fuel 2 total ([] ++ data) [1]
    else some ([1], .ok ([] ++ data))

/-! ## Sample inputs: order manager and paging -/

/-- A chain that reports the given cancelled and cancelled-or-filled amounts; no order
value is dust. -/
def chainEnv (cancelled cancelOrFilled : Int) : ManagerEnv where
  GetCancelled := fun _ _ => .ok cancelled
  GetCancelledOrFilled := fun _ _ => .ok cancelOrFilled
  IsOrderValueDust := fun _ => false
  hashHex := fun _ => "0xhash"

/-- The chain environment in which every order value counts as dust. -/
def dustChainEnv (cancelled cancelOrFilled : Int) : ManagerEnv :=
  { chainEnv cancelled cancelOrFilled with IsOrderValueDust := fun _ => true }

/-- A store that reports a total of 250 open orders: 200 on page 1, 50 on page 2. -/
def store250 : Int → Except String (List OrderState × Int) := fun i =>
  if i = 1 then .ok (List.replicate 200 (storedState 0), 250)
  else if i = 2 then .ok (List.replicate 50 (storedState 0), 250)
  else .ok ([], 250)

/-! ## Order book: depth rows, sorting and truncation -/

/-- What `calculateDepth` takes from the Go runtime and standard library. -/
structure DepthRuntime where
  /-- `big.Rat.Float64`: the nearest double, as the rational it denotes -/
  Float64 : ℚ → ℚ
  /-- `strconv.FormatFloat(x, 'f', 10, 64)` -/
  FormatFloat10 : ℚ → String
  /-- `strconv.ParseFloat(s, 64)`, the error discarded -/
  ParseFloat : String → ℚ
  /-- the order in which `for k, v := range depthMap` visits the entries of the map -/
  rangeMap : List (String × DepthElement) → List (String × DepthElement)

/-- Model of `sort.Slice(depth, less)` of the Go standard library: the slice sorted by
`less`, here by insertion, a row going before another unless the other is less. The
library does not fix the order of rows neither of which is less than the other. -/
def sortSlice (less : List String → List String → Bool) (rows : List (List String)) :
    List (List String) :=
  rows.insertionSort (fun a b => less b a = false)

/-- The rows appended in the loop `for k, v := range depthMap` of `calculateDepth`. -/
def depthRows (rt : DepthRuntime) (depthMap : List (String × DepthElement)) :
    List (List String) :=
  (rt.rangeMap depthMap).map (fun kv =>
    [kv.1, rt.FormatFloat10 (rt.Float64 kv.2.Amount), rt.FormatFloat10 (rt.Float64 kv.2.Size)])

/-- The parsed price of a row, `strconv.ParseFloat(depth[i][0], 64)`. -/
def rowPrice (rt : DepthRuntime) (row : List String) : ℚ := rt.ParseFloat (row.headD "")

/-- The `less` function handed to `sort.Slice` in `calculateDepth`: `cmpA > cmpB`. -/
def priceLess (rt : DepthRuntime) (a b : List String) : Bool :=
  decide (rowPrice rt a > rowPrice rt b)

/-- The truncation at the end of `calculateDepth` and of `generateOrderBook`: for asks
`rows[len(rows)-length-1:]`, for bids `rows[:length]`, when there are more than `length`
rows; `none` when a slice bound is out of range. -/
def truncateRows {α : Type} (isAsk : Bool) (length : Int) (rows : List α) : Option (List α) :=
  if (rows.length : Int) > length then
    if isAsk = true then
      if (rows.length : Int) - length - 1 < 0 ∨ (rows.length : Int) - length - 1 > rows.length
      then none
      else some (rows.drop ((rows.length : Int) - length - 1).toNat)
    else
      if length < 0 then none else some (rows.take length.toNat)
  else some rows

/-- Embedding of `calculateDepth`. -/
def calculateDepth (wenv : WalletEnv) (rt : DepthRuntime) (states : List OrderState)
    (length : Int) (isAsk : Bool) (tokenSDecimal tokenBDecimal : Option Int) :
    Option (List (List String)) :=
  if states.length = 0 then some []
  else
    match depthLoop wenv isAsk tokenSDecimal tokenBDecimal states [] with
    | none => none
    | some depthMap =>
      truncateRows isAsk length (sortSlice (priceLess rt) (depthRows rt depthMap))

/-- Embedding of `generateOrderBook`. -/
def generateOrderBook (wenv : WalletEnv) (states : List OrderState) (isAsk : Bool)
    (tokenSDecimal tokenBDecimal : Option Int) (length : Int) :
    Option (Except String (List OrderBookElement)) :=
  if states.length = 0 then some (.error "orders can't be nil")
  else
    match bookLoop wenv isAsk tokenSDecimal tokenBDecimal states [] with
    | none => none
    | some elements => (truncateRows isAsk length elements).map (fun rows => .ok rows)

/-! ## Order book: what one order contributes -/

/-- The level an order goes to and what it adds there, when it is not skipped: the rendered
price (of `1/Price` for asks, of `Price` for bids), the capped sell amount and the capped
buy amount. -/
def orderLevel (wenv : WalletEnv) (isAsk : Bool) (tokenSDecimal tokenBDecimal : Option Int)
    (s : OrderState) : Option (String × ℚ × ℚ) :=
  match s.RawOrder.Price, calculateOrderBookAmount wenv s isAsk tokenSDecimal tokenBDecimal with
  | some price, some (.ok (minAmountS, minAmountB)) =>
    some (wenv.FloatString10 (if isAsk = true then price⁻¹ else price), minAmountS, minAmountB)
  | _, _ => none

/-- The turn of the depth loop on the order returns: the price is present (and not zero on
the ask side, where it is inverted) and the amount computation returns. -/
def stepDefined (wenv : WalletEnv) (isAsk : Bool) (tokenSDecimal tokenBDecimal : Option Int)
    (s : OrderState) : Prop :=
  (∃ price, s.RawOrder.Price = some price ∧ (isAsk = true → price ≠ 0))
  ∧ calculateOrderBookAmount wenv s isAsk tokenSDecimal tokenBDecimal ≠ none

/-- The update of the depth map for one contribution: asks add the sell amount to `Amount`
and the buy amount to `Size`, bids the other way round. -/
def addLevel (isAsk : Bool) (depthMap : List (String × DepthElement)) (c : String × ℚ × ℚ) :
    List (String × DepthElement) :=
  match depthMap.lookup c.1 with
  | some v =>
    depthMapSet depthMap c.1
      { Price := v.Price
        Amount := v.Amount + (if isAsk = true then c.2.1 else c.2.2)
        Size := v.Size + (if isAsk = true then c.2.2 else c.2.1) }
  | none =>
    depthMapSet depthMap c.1
      { Price := c.1
        Amount := (if isAsk = true then c.2.1 else c.2.2)
        Size := (if isAsk = true then c.2.2 else c.2.1) }

/-- The sum of the capped sell amounts of the contributions that go to the level `key`. -/
def levelSell (levels : List (String × ℚ × ℚ)) (key : String) : ℚ :=
  ((levels.filter (fun c => c.1 = key)).map (fun c => c.2.1)).sum

/-- The sum of the capped buy amounts of the contributions that go to the level `key`. -/
def levelBuy (levels : List (String × ℚ × ℚ)) (key : String) : ℚ :=
  ((levels.filter (fun c => c.1 = key)).map (fun c => c.2.2)).sum

/-- The row `generateOrderBook` emits for an order that is not skipped. -/
def bookRow (wenv : WalletEnv) (isAsk : Bool) (tokenSDecimal tokenBDecimal : Option Int)
    (s : OrderState) : Option OrderBookElement :=
  match bookHeader wenv tokenSDecimal tokenBDecimal s,
      calculateOrderBookAmount wenv s isAsk tokenSDecimal tokenBDecimal with
  | some (o, price), some (.ok (amountS, amountB)) =>
    if isAsk = true then
      some { o with
        Price := fmtFloat wenv price⁻¹
        Amount := fmtFloat wenv amountS
        Size := fmtFloat wenv amountB }
    else
      some { o with
        Price := fmtFloat wenv price
        Amount := fmtFloat wenv amountB
        Size := fmtFloat wenv amountS }
  | _, _ => none

/-- The turn of the order-book loop on the order returns: the values read before the
amount computation are present (the price not zero on the ask side) and the amount
computation returns. -/
def bookStepDefined (wenv : WalletEnv) (isAsk : Bool) (tokenSDecimal tokenBDecimal : Option Int)
    (s : OrderState) : Prop :=
  (∃ o price, bookHeader wenv tokenSDecimal tokenBDecimal s = some (o, price)
    ∧ (isAsk = true → price ≠ 0))
  ∧ calculateOrderBookAmount wenv s isAsk tokenSDecimal tokenBDecimal ≠ none

/-- The depth map holds the levels of the contributions `levels`: no key twice, a key for
exactly the rendered prices of the contributions, and under each key an element that
carries the key and the two sums over the contributions with that key (asks: `Amount` the
sell amounts and `Size` the buy amounts; bids the other way round). -/
def holdsLevels (isAsk : Bool) (depthMap : List (String × DepthElement))
    (levels : List (String × ℚ × ℚ)) : Prop :=
  (depthMap.map Prod.fst).Nodup
  ∧ (∀ key, key ∈ depthMap.map Prod.fst ↔ ∃ c ∈ levels, c.1 = key)
  ∧ ∀ key v, depthMap.lookup key = some v →
      v.Price = key
      ∧ v.Amount = (if isAsk = true then levelSell levels key else levelBuy levels key)
      ∧ v.Size = (if isAsk = true then levelBuy levels key else levelSell levels key)

/-- The rows of `calculateDepth` after `sort.Slice` and before the truncation: none for an
empty list of states, where the function returns at once. -/
def depthLevels (wenv : WalletEnv) (rt : DepthRuntime) (states : List OrderState)
    (isAsk : Bool) (tokenSDecimal tokenBDecimal : Option Int) : Option (List (List String)) :=
  if states.length = 0 then some []
  else
    (depthLoop wenv isAsk tokenSDecimal tokenBDecimal states []).map
      (fun depthMap => sortSlice (priceLess rt) (depthRows rt depthMap))

/-! ## Sample inputs: depth and order book -/

/-- A sample runtime: doubles are exact, a number is printed rounded to ten decimals and
parsed back, and the map is visited in insertion order. -/
def sampleRuntime : DepthRuntime where
  Float64 := fun q => q
  FormatFloat10 := fun q => renderFixed 10 ⌊q * 10000000000 + 1 / 2⌋
  ParseFloat := parseDecimal
  rangeMap := fun m => m

/-- The sample state at the price its amounts give: 100 X for 200 Y, price 1/2. -/
def bookStateLow : OrderState :=
  { sampleState with RawOrder := { sampleState.RawOrder with Price := some (1 / 2) } }

/-- An order state selling 100 X for 100 Y, price 1. -/
def bookStateHigh : OrderState :=
  { sampleState with
    RawOrder := { sampleState.RawOrder with AmountB := some (100 * 10 ^ 6), Price := some 1 } }

/-- The sample wallet environment with an owner whose balance and allowance both cover the
100 units the sample state sells. -/
def fullWalletEnv : WalletEnv :=
  { sampleWalletEnv with
    GetBalanceAndAllowance := fun _ _ _ => .ok (100 * 10 ^ 18, 100 * 10 ^ 18) }

/-- An order state selling 5 base units for 10 base units, nothing dealt. -/
def dustState : OrderState :=
  { sampleState with
    RawOrder := { sampleState.RawOrder with AmountS := some 5, AmountB := some 10 } }

/-! ## Theorems: pricing primitive -/

/-- With both tokens resolved, positive decimals and positive amounts, `generatePrice`
writes the price and nothing else, and returns no error. -/
theorem generatePrice_ok (reg : Registry) (o : Order) (tS tB : Token) (dS dB aS aB : Int)
    (hS : reg.AddressToToken o.TokenS = .ok tS) (hB : reg.AddressToToken o.TokenB = .ok tB)
    (hdS : tS.Decimals = some dS) (hdB : tB.Decimals = some dB)
    (haS : o.AmountS = some aS) (haB : o.AmountB = some aB)
    (pdS : 0 < dS) (pdB : 0 < dB) (paS : 0 < aS) (paB : 0 < aB) :
    generatePrice reg o = ({ o with Price := some (SetFrac aS aB * SetFrac dB dS) }, none) := by
  simp only [generatePrice, hS, hB, hdS, hdB, haS, haB, not_le.mpr pdS, not_le.mpr pdB,
    not_le.mpr paS, not_le.mpr paB, if_false]

/-- C1: for an order whose two tokens resolve with positive decimals and whose amounts are
positive, `generatePrice` succeeds and sets the price to exactly
`(AmountS/AmountB) * (decimalsB/decimalsS)`, which is the same rational however the
products and quotients are grouped; for 1000, 10, 10^18 and 10^6 it is `1/10^10`. -/
theorem C1_generatePrice_exact (reg : Registry) (o : Order) (tS tB : Token)
    (dS dB aS aB : Int)
    (hS : reg.AddressToToken o.TokenS = .ok tS) (hB : reg.AddressToToken o.TokenB = .ok tB)
    (hdS : tS.Decimals = some dS) (hdB : tB.Decimals = some dB)
    (haS : o.AmountS = some aS) (haB : o.AmountB = some aB)
    (pdS : 0 < dS) (pdB : 0 < dB) (paS : 0 < aS) (paB : 0 < aB) :
    (generatePrice reg o).2 = none
    ∧ (generatePrice reg o).1.Price = some (((aS : ℚ) / (aB : ℚ)) * ((dB : ℚ) / (dS : ℚ)))
    ∧ (generatePrice reg o).1.Price = some (((aS : ℚ) * (dB : ℚ)) / ((aB : ℚ) * (dS : ℚ)))
    ∧ (generatePrice reg o).1.Price = some (((dB : ℚ) / (dS : ℚ)) * ((aS : ℚ) / (aB : ℚ)))
    ∧ (generatePrice reg o).1.Price = some ((aS : ℚ) * (dB : ℚ) / (dS : ℚ) / (aB : ℚ))
    ∧ (aS = 1000 → aB = 10 → dS = 10 ^ 18 → dB = 10 ^ 6 →
        (generatePrice reg o).1.Price = some ((1000 / 10 : ℚ) * (10 ^ 6 / 10 ^ 18))
        ∧ (generatePrice reg o).1.Price = some (1 / 10 ^ 10)) := by
  have hq : (aB : ℚ) ≠ 0 := by exact_mod_cast paB.ne'
  have hd : (dS : ℚ) ≠ 0 := by exact_mod_cast pdS.ne'
  rw [generatePrice_ok reg o tS tB dS dB aS aB hS hB hdS hdB haS haB pdS pdB paS paB]
  refine ⟨rfl, rfl, ?_, ?_, ?_, ?_⟩
  · simp only [SetFrac, Option.some.injEq]
    exact div_mul_div_comm _ _ _ _
  · simp only [SetFrac, Option.some.injEq]
    exact mul_comm _ _
  · simp only [SetFrac, Option.some.injEq]
    field_simp
    ring
  · intro h1 h2 h3 h4
    subst h1 h2 h3 h4
    simp only [SetFrac, Option.some.injEq]
    constructor <;> norm_num

/-- C1 at the sample order: 1000 units of X (18 decimals) for 10 units of Y (6 decimals). -/
theorem C1_generatePrice_exact_witness :
    (generatePrice sampleRegistry sampleOrder).2 = none
    ∧ (generatePrice sampleRegistry sampleOrder).1.Price = some (1 / 10 ^ 10) := by
  have h := C1_generatePrice_exact sampleRegistry sampleOrder tokenX tokenY
    (10 ^ 18) (10 ^ 6) 1000 10 rfl rfl rfl rfl rfl rfl (by norm_num) (by norm_num)
    (by norm_num) (by norm_num)
  exact ⟨h.1, (h.2.2.2.2.2 rfl rfl rfl rfl).2⟩

/-- C2: scaling both amounts by the same positive factor leaves the price that
`generatePrice` computes unchanged (and both computations succeed). -/
theorem C2_generatePrice_scale_invariant (reg : Registry) (o : Order) (tS tB : Token)
    (dS dB aS aB k : Int)
    (hS : reg.AddressToToken o.TokenS = .ok tS) (hB : reg.AddressToToken o.TokenB = .ok tB)
    (hdS : tS.Decimals = some dS) (hdB : tB.Decimals = some dB)
    (pdS : 0 < dS) (pdB : 0 < dB) (paS : 0 < aS) (paB : 0 < aB) (pk : 0 < k) :
    (generatePrice reg { o with AmountS := some (k * aS), AmountB := some (k * aB) }).2 = none
    ∧ (generatePrice reg { o with AmountS := some aS, AmountB := some aB }).2 = none
    ∧ (generatePrice reg { o with AmountS := some (k * aS), AmountB := some (k * aB) }).1.Price
      = (generatePrice reg { o with AmountS := some aS, AmountB := some aB }).1.Price
    ∧ (generatePrice reg { o with AmountS := some aS, AmountB := some aB }).1.Price
      = some (((aS : ℚ) / (aB : ℚ)) * ((dB : ℚ) / (dS : ℚ))) := by
  have hk : (k : ℚ) ≠ 0 := by exact_mod_cast pk.ne'
  have hq : (aB : ℚ) ≠ 0 := by exact_mod_cast paB.ne'
  rw [generatePrice_ok reg { o with AmountS := some (k * aS), AmountB := some (k * aB) }
      tS tB dS dB (k * aS) (k * aB) hS hB hdS hdB rfl rfl pdS pdB (mul_pos pk paS)
      (mul_pos pk paB),
    generatePrice_ok reg { o with AmountS := some aS, AmountB := some aB }
      tS tB dS dB aS aB hS hB hdS hdB rfl rfl pdS pdB paS paB]
  refine ⟨rfl, rfl, ?_, rfl⟩
  simp only [SetFrac]
  congr 2
  push_cast
  field_simp
  ring

/-- C2 at the sample order: 3000 for 30 is priced as 1000 for 10. -/
theorem C2_generatePrice_scale_invariant_witness :
    (generatePrice sampleRegistry
        { sampleOrder with AmountS := some (3 * 1000), AmountB := some (3 * 10) }).1.Price
      = (generatePrice sampleRegistry
        { sampleOrder with AmountS := some 1000, AmountB := some 10 }).1.Price :=
  (C2_generatePrice_scale_invariant sampleRegistry sampleOrder tokenX tokenY
    (10 ^ 18) (10 ^ 6) 1000 10 3 rfl rfl rfl rfl (by norm_num) (by norm_num)
    (by norm_num) (by norm_num) (by norm_num)).2.2.1

/-- C3: with both tokens resolved, `generatePrice` returns an error exactly when a
decimals value or an amount is missing or not positive; the error is the invalid-decimals
one whenever a decimals value is invalid, an invalid-amount one only when both decimals
are valid; and on every error the order, its price included, is left as it was. -/
theorem C3_generatePrice_errors (reg : Registry) (o : Order) (tS tB : Token)
    (hS : reg.AddressToToken o.TokenS = .ok tS) (hB : reg.AddressToToken o.TokenB = .ok tB) :
    ((generatePrice reg o).2 ≠ none ↔
        (nilOrNotPositive tS.Decimals = true ∨ nilOrNotPositive tB.Decimals = true
          ∨ nilOrNotPositive o.AmountS = true ∨ nilOrNotPositive o.AmountB = true))
    ∧ ((nilOrNotPositive tS.Decimals = true ∨ nilOrNotPositive tB.Decimals = true) →
        (generatePrice reg o).2 = some errInvalidDecimals)
    ∧ (((generatePrice reg o).2 = some errInvalidAmountS
          ∨ (generatePrice reg o).2 = some errInvalidAmountB) →
        nilOrNotPositive tS.Decimals = false ∧ nilOrNotPositive tB.Decimals = false)
    ∧ (nilOrNotPositive tS.Decimals = false → nilOrNotPositive tB.Decimals = false →
        (nilOrNotPositive o.AmountS = true ∨ nilOrNotPositive o.AmountB = true) →
        ((generatePrice reg o).2 = some errInvalidAmountS
          ∨ (generatePrice reg o).2 = some errInvalidAmountB))
    ∧ ((generatePrice reg o).2 ≠ none →
        (generatePrice reg o).1 = o ∧ (generatePrice reg o).1.Price = o.Price) := by
  rcases hdS : tS.Decimals with _ | dS
  · simp [generatePrice, hS, hdS, nilOrNotPositive, errInvalidDecimals, errInvalidAmountS,
      errInvalidAmountB]
  by_cases pdS : dS ≤ 0
  · simp [generatePrice, hS, hdS, pdS, nilOrNotPositive, errInvalidDecimals,
      errInvalidAmountS, errInvalidAmountB]
  rcases hdB : tB.Decimals with _ | dB
  · simp [generatePrice, hS, hB, hdS, hdB, pdS, nilOrNotPositive, errInvalidDecimals,
      errInvalidAmountS, errInvalidAmountB]
  by_cases pdB : dB ≤ 0
  · simp [generatePrice, hS, hB, hdS, hdB, pdS, pdB, nilOrNotPositive, errInvalidDecimals,
      errInvalidAmountS, errInvalidAmountB]
  rcases haS : o.AmountS with _ | aS
  · simp [generatePrice, hS, hB, hdS, hdB, haS, pdS, pdB, nilOrNotPositive]
  by_cases paS : aS ≤ 0
  · simp [generatePrice, hS, hB, hdS, hdB, haS, pdS, pdB, paS, nilOrNotPositive]
  rcases haB : o.AmountB with _ | aB
  · simp [generatePrice, hS, hB, hdS, hdB, haS, haB, pdS, pdB, paS, nilOrNotPositive]
  by_cases paB : aB ≤ 0
  · simp [generatePrice, hS, hB, hdS, hdB, haS, haB, pdS, pdB, paS, paB, nilOrNotPositive]
  · simp [generatePrice, hS, hB, hdS, hdB, haS, haB, pdS, pdB, paS, paB, nilOrNotPositive]

/-- C3 at a sample order with no sell amount: the error is the invalid-amount one and the
price stays unset. -/
theorem C3_generatePrice_errors_witness :
    (generatePrice sampleRegistry { sampleOrder with AmountS := none }).2
        = some errInvalidAmountS
    ∧ (generatePrice sampleRegistry { sampleOrder with AmountS := none }).1.Price = none := by
  have h := C3_generatePrice_errors sampleRegistry { sampleOrder with AmountS := none }
    tokenX tokenY rfl rfl
  have hne : (generatePrice sampleRegistry { sampleOrder with AmountS := none }).2 ≠ none :=
    h.1.mpr (Or.inr (Or.inr (Or.inl rfl)))
  refine ⟨?_, (h.2.2.2.2 hne).2⟩
  rcases h.2.2.2.1 (by decide) (by decide) (Or.inl rfl) with h1 | h1
  · exact h1
  · exact absurd h1 (by decide)

/-! ## Theorems: the filter loop -/

/-- The error of `generatePrice` depends only on the two tokens and the two amounts. -/
theorem generatePrice_err_congr (reg : Registry) (o o' : Order)
    (h1 : o.TokenS = o'.TokenS) (h2 : o.TokenB = o'.TokenB)
    (h3 : o.AmountS = o'.AmountS) (h4 : o.AmountB = o'.AmountB) :
    (generatePrice reg o).2 = (generatePrice reg o').2 := by
  unfold generatePrice
  rw [h1, h2, h3, h4]
  repeat' split
  all_goals rfl

/-- One accepted call in front of a prefix starting one index later is a prefix again. -/
theorem StagesFrom_cons (idx n : Nat) (v : Option (Bool × Option String))
    (calls : List (Nat × Option (Bool × Option String)))
    (hv : verdictAccepts v = true) (h : StagesFrom (idx + 1) n calls) :
    StagesFrom idx (n + 1) ((idx, v) :: calls) := by
  obtain ⟨h1, h2, h3, h4, h5⟩ := h
  have hnr : verdictRejects v = false := by
    rcases v with _ | ⟨b, e⟩
    · rfl
    · cases b <;> simp_all [verdictAccepts, verdictRejects]
  refine ⟨?_, ?_, ?_, ?_, ?_⟩
  · simp [List.range'_succ, h1]
  · simpa using h2
  · intro c hc
    cases calls with
    | nil => simp at hc
    | cons a l =>
      rw [List.dropLast_cons₂] at hc
      rcases List.mem_cons.mp hc with rfl | hc
      · exact hv
      · exact h3 c hc
  · intro c hc hrej
    rcases List.mem_cons.mp hc with rfl | hc
    · simp [hnr] at hrej
    · have := h4 c hc hrej
      cases calls with
      | nil => simp at hc
      | cons a l => simpa [List.getLast?_cons_cons] using this
  · intro hall
    have := h5 (fun c hc => hall c (List.mem_cons_of_mem _ hc))
    simp [this]

/-- A single call that did not accept is a prefix of any non-empty stage list. -/
theorem StagesFrom_single (idx n : Nat) (v : Option (Bool × Option String))
    (hv : verdictAccepts v = false) : StagesFrom idx (n + 1) [(idx, v)] := by
  refine ⟨by simp, by simp, by simp, ?_, ?_⟩
  · intro c hc _
    simp at hc
    simp [hc]
  · intro hall
    have := hall (idx, v) (by simp)
    simp [hv] at this

/-- The stage calls of the loop started at index `idx` form a prefix of the stages. -/
theorem filterLoop_stages (env : Env) (fs : List Filter) :
    ∀ (idx : Nat) (o : Order),
      StagesFrom idx fs.length (stageCalls (filterLoop env fs idx o).1) := by
  induction fs with
  | nil =>
    intro idx o
    simp [filterLoop, stageCalls, StagesFrom]
  | cons v vs ih =>
    intro idx o
    unfold filterLoop
    rcases hv : Filter.filter env v o with _ | r
    · exact StagesFrom_single idx vs.length none rfl
    · by_cases hval : r.valid = false
      · rcases he : r.err with _ | e
        · simpa [hval, he, stageCalls, Effect.stageCall?] using
            StagesFrom_single idx vs.length (some (false, none)) rfl
        · simpa [hval, he, stageCalls, Effect.stageCall?] using
            StagesFrom_single idx vs.length (some (false, some e)) rfl
      · have hval' : r.valid = true := by simpa using hval
        have := StagesFrom_cons idx vs.length (some (true, r.err)) _ rfl (ih (idx + 1) r.order)
        simpa [hval', stageCalls, Effect.stageCall?] using this

/-- The order as `HandleInputOrder` holds it when it consults the store: hash, market and
side written. -/
theorem HandleInputOrder_notFound (env : Env) (gateway : GatewayState) (input : Order)
    (market : String)
    (hm : env.reg.WrapMarketByAddress (env.addrHex input.TokenB) (env.addrHex input.TokenS)
      = .ok market)
    (hnf : (env.GetOrderByHash (env.GenerateHash input)).2 = some "record not found")
    (hp : (generatePrice env.reg input).2 = none) :
    ∃ order : Order,
      order = { input with
        Hash := env.GenerateHash input
        Market := market
        Side := env.reg.GetSide (env.addrHex input.TokenS) (env.addrHex input.TokenB) }
      ∧ (generatePrice env.reg order).2 = none
      ∧ HandleInputOrder env gateway input =
        (match filterLoop env gateway.filters 0 (generatePrice env.reg order).1 with
        | (es, LoopOut.panicked o) =>
          ⟨[Effect.emitNewOrderForBroadcast order, Effect.generatePriceCall] ++ es, none, o⟩
        | (es, LoopOut.rejected o e) =>
          ⟨[Effect.emitNewOrderForBroadcast order, Effect.generatePriceCall] ++ es,
            some (env.hashHex (env.GenerateHash input), some e), o⟩
        | (es, LoopOut.passed o) =>
          ⟨[Effect.emitNewOrderForBroadcast order, Effect.generatePriceCall] ++ es
              ++ [Effect.emitNewOrder (OrderState.ofOrder o)],
            some (env.hashHex (env.GenerateHash input), none), o⟩) := by
  refine ⟨_, rfl, ?_, ?_⟩
  · rw [← hp]
    exact generatePrice_err_congr _ _ _ rfl rfl rfl rfl
  · have hp' : (generatePrice env.reg { input with
        Hash := env.GenerateHash input
        Market := market
        Side := env.reg.GetSide (env.addrHex input.TokenS) (env.addrHex input.TokenB) }).2
        = none := by
      rw [← hp]
      exact generatePrice_err_congr _ _ _ rfl rfl rfl rfl
    simp only [HandleInputOrder, hm, hnf, if_true]
    rw [hp']

/-- C4, as stated, fails: the sample order without a sell amount is not in the store, the
single stage installed accepts every order, and yet no stage is evaluated, because price
generation fails before the loop; the stages evaluated are not the whole list. -/
theorem C4_counterexample :
    (sampleEnv.GetOrderByHash (sampleEnv.GenerateHash orderNoAmount)).2
        = some "record not found"
    ∧ (gatewayOf [acceptAll]).filters.length = 1
    ∧ stageCalls (HandleInputOrder sampleEnv (gatewayOf [acceptAll]) orderNoAmount).effects = []
    ∧ (HandleInputOrder sampleEnv (gatewayOf [acceptAll]) orderNoAmount).ret
        = some ("0xhash", some errInvalidAmountS)
    ∧ ¬ StagesExact (gatewayOf [acceptAll]).filters.length
        (stageCalls (HandleInputOrder sampleEnv (gatewayOf [acceptAll]) orderNoAmount).effects) := by
  have h : stageCalls
      (HandleInputOrder sampleEnv (gatewayOf [acceptAll]) orderNoAmount).effects = [] := by
    decide
  refine ⟨rfl, rfl, h, by decide, ?_⟩
  rw [h]
  intro hs
  have := hs.2.2.2.2 (by simp)
  simp [gatewayOf] at this

/-- C4, amended: for every list of stages and every order that is not yet in the store,
whose market resolves and whose price generation succeeds, `HandleInputOrder` evaluates the
stages in list order and stops at the first one that does not accept: the stages evaluated
are exactly the prefix up to and including the first rejecting stage, the whole list when
every stage accepts. -/
theorem C4_stages_evaluated (env : Env) (gateway : GatewayState) (input : Order)
    (market : String)
    (hm : env.reg.WrapMarketByAddress (env.addrHex input.TokenB) (env.addrHex input.TokenS)
      = .ok market)
    (hnf : (env.GetOrderByHash (env.GenerateHash input)).2 = some "record not found")
    (hp : (generatePrice env.reg input).2 = none) :
    StagesExact gateway.filters.length
      (stageCalls (HandleInputOrder env gateway input).effects)
    ∧ ((∀ c ∈ stageCalls (HandleInputOrder env gateway input).effects,
          c.2 ≠ none ∧ verdictRejects c.2 = false) →
        (stageCalls (HandleInputOrder env gateway input).effects).map Prod.fst
          = List.range gateway.filters.length) := by
  obtain ⟨order, _, _, hrun⟩ := HandleInputOrder_notFound env gateway input market hm hnf hp
  have hs := filterLoop_stages env gateway.filters 0 (generatePrice env.reg order).1
  have hexact : StagesExact gateway.filters.length
      (stageCalls (HandleInputOrder env gateway input).effects) := by
    rw [hrun]
    rcases hl : filterLoop env gateway.filters 0 (generatePrice env.reg order).1 with ⟨es, out⟩
    rw [hl] at hs
    cases out <;> simpa [StagesExact, stageCalls, Effect.stageCall?] using hs
  refine ⟨hexact, ?_⟩
  intro hall
  have hlen := hexact.2.2.2.2 (fun c hc => by
    obtain ⟨h1, h2⟩ := hall c hc
    rcases hv : c.2 with _ | ⟨b, e⟩
    · exact absurd hv h1
    · cases b
      · simp [hv, verdictRejects] at h2
      · rfl)
  rw [hexact.1, hlen, List.range_eq_range']

/-- C4 amended, at the sample order with the stages accept, reject, accept: exactly the
first two are evaluated. -/
theorem C4_stages_evaluated_witness :
    StagesExact 3
      (stageCalls (HandleInputOrder sampleEnv
        (gatewayOf [acceptAll, rejectAll "no", acceptAll]) sampleOrder).effects)
    ∧ stageCalls (HandleInputOrder sampleEnv
        (gatewayOf [acceptAll, rejectAll "no", acceptAll]) sampleOrder).effects
      = [(0, some (true, none)), (1, some (false, some "no"))] :=
  ⟨(C4_stages_evaluated sampleEnv (gatewayOf [acceptAll, rejectAll "no", acceptAll])
    sampleOrder "X-Y" rfl rfl (by decide)).1, by decide⟩

/-- A stage call in the trace of the loop that rejected with an error: the loop ended with
that error, and stage `k - idx` of the list returned it. -/
theorem filterLoop_rejecting_call (env : Env) (fs : List Filter) :
    ∀ (idx : Nat) (o : Order) (k : Nat) (e : String),
      (k, some (false, some e)) ∈ stageCalls (filterLoop env fs idx o).1 →
      (∃ o', (filterLoop env fs idx o).2 = LoopOut.rejected o' e)
      ∧ idx ≤ k
      ∧ ∃ v oin r, fs.get? (k - idx) = some v ∧ Filter.filter env v oin = some r
          ∧ r.valid = false ∧ r.err = some e := by
  induction fs with
  | nil =>
    intro idx o k e h
    simp [filterLoop, stageCalls] at h
  | cons v vs ih =>
    intro idx o k e h
    unfold filterLoop at h ⊢
    rcases hv : Filter.filter env v o with _ | r
    · simp [hv, stageCalls, Effect.stageCall?] at h
    · by_cases hval : r.valid = false
      · rcases he : r.err with _ | e'
        · simp [hv, hval, he, stageCalls, Effect.stageCall?] at h
        · simp only [hv, hval, he, if_true, stageCalls, List.filterMap_cons,
            Effect.stageCall?, List.filterMap_nil, List.mem_singleton, Prod.mk.injEq,
            Option.some.injEq, true_and] at h
          obtain ⟨hk, he'⟩ := h
          subst hk he'
          refine ⟨⟨r.order, by simp [hval, he]⟩, le_refl _, v, o, r, by simp, hv, hval, he⟩
      · have hval' : r.valid = true := by simpa using hval
        simp only [hv, hval', stageCalls, List.filterMap_cons, Effect.stageCall?,
          List.mem_cons, Prod.mk.injEq, Option.some.injEq, Bool.false_eq_true, false_and,
          and_false, false_or, Bool.true_eq_false, if_false] at h
        obtain ⟨h1, h2, w, oin, r', h3, h4, h5, h6⟩ := ih (idx + 1) r.order k e h
        refine ⟨by simpa [hval'] using h1, by omega, w, oin, r', ?_, h4, h5, h6⟩
        have hk : k - idx = (k - (idx + 1)) + 1 := by omega
        rw [hk]
        simpa using h3

/-- A stage call appears in the trace of `HandleInputOrder` only when the market resolved,
the store reported "record not found" and price generation succeeded. -/
theorem HandleInputOrder_stageCall (env : Env) (gateway : GatewayState) (input : Order)
    (c : Nat × Option (Bool × Option String))
    (hc : c ∈ stageCalls (HandleInputOrder env gateway input).effects) :
    (∃ market, env.reg.WrapMarketByAddress (env.addrHex input.TokenB)
        (env.addrHex input.TokenS) = .ok market)
    ∧ (env.GetOrderByHash (env.GenerateHash input)).2 = some "record not found"
    ∧ (generatePrice env.reg input).2 = none := by
  unfold HandleInputOrder at hc
  rcases hm : env.reg.WrapMarketByAddress (env.addrHex input.TokenB)
      (env.addrHex input.TokenS) with e | market
  · simp [hm, stageCalls] at hc
  · simp only [hm] at hc
    by_cases hnf : (env.GetOrderByHash (env.GenerateHash input)).2 = some "record not found"
    · refine ⟨⟨market, rfl⟩, hnf, ?_⟩
      simp only [hnf, if_true] at hc
      have hp1 := generatePrice_err_congr env.reg input { input with
        Hash := env.GenerateHash input
        Market := market
        Side := env.reg.GetSide (env.addrHex input.TokenS) (env.addrHex input.TokenB) }
        rfl rfl rfl rfl
      rcases hg2 : (generatePrice env.reg input).2 with _ | e
      · rfl
      · rw [hg2] at hp1
        rw [← hp1] at hc
        simp [stageCalls, Effect.stageCall?] at hc
    · simp only [hnf, if_false] at hc
      exfalso
      revert hc
      split
      · simp [stageCalls]
      · split
        · split <;> simp [stageCalls, Effect.stageCall?]
        · simp [stageCalls, Effect.stageCall?]

/-- C5: when, during a call of `HandleInputOrder`, a stage rejects with an error value,
that stage is the first rejecting one in list order (every stage evaluated before it
accepted, and it is the last one evaluated), and the call returns exactly that error
value together with the order's hash string; such a call is one on an order that the
store did not hold and whose price generation succeeded. -/
theorem C5_first_rejection_returned (env : Env) (gateway : GatewayState) (input : Order)
    (k : Nat) (e : String)
    (hrej : (k, some (false, some e))
      ∈ stageCalls (HandleInputOrder env gateway input).effects) :
    (HandleInputOrder env gateway input).ret
        = some (env.hashHex (env.GenerateHash input), some e)
    ∧ (stageCalls (HandleInputOrder env gateway input).effects).getLast?
        = some (k, some (false, some e))
    ∧ (∀ c ∈ (stageCalls (HandleInputOrder env gateway input).effects).dropLast,
        verdictAccepts c.2 = true)
    ∧ (∃ v oin r, gateway.filters.get? k = some v ∧ Filter.filter env v oin = some r
        ∧ r.valid = false ∧ r.err = some e)
    ∧ (env.GetOrderByHash (env.GenerateHash input)).2 = some "record not found"
    ∧ (generatePrice env.reg input).2 = none := by
  obtain ⟨⟨market, hm⟩, hnf, hp⟩ := HandleInputOrder_stageCall env gateway input _ hrej
  obtain ⟨order, _, _, hrun⟩ := HandleInputOrder_notFound env gateway input market hm hnf hp
  have hs := filterLoop_stages env gateway.filters 0 (generatePrice env.reg order).1
  have hr := filterLoop_rejecting_call env gateway.filters 0 (generatePrice env.reg order).1 k e
  rw [hrun] at hrej ⊢
  rcases hl : filterLoop env gateway.filters 0 (generatePrice env.reg order).1 with ⟨es, out⟩
  rw [hl] at hs hr hrej
  have hmem : (k, some (false, some e)) ∈ stageCalls es := by
    cases out <;> simpa [stageCalls, Effect.stageCall?] using hrej
  obtain ⟨⟨o', hout⟩, _, hstage⟩ := hr hmem
  simp only at hout
  subst hout
  have hcalls : stageCalls ([Effect.emitNewOrderForBroadcast order, Effect.generatePriceCall]
      ++ es) = stageCalls es := by
    simp [stageCalls, Effect.stageCall?]
  simp only [hcalls]
  exact ⟨trivial, hs.2.2.2.1 _ hmem rfl, hs.2.2.1, by simpa using hstage, hnf, hp⟩

/-- C5 at the sample order with the stages accept, reject "no", reject "later": the call
returns the hash string with the error "no". -/
theorem C5_first_rejection_returned_witness :
    (HandleInputOrder sampleEnv
        (gatewayOf [acceptAll, rejectAll "no", rejectAll "later"]) sampleOrder).ret
      = some ("0xhash", some "no") :=
  (C5_first_rejection_returned sampleEnv
    (gatewayOf [acceptAll, rejectAll "no", rejectAll "later"]) sampleOrder 1 "no"
    (by decide)).1

/-! ## Theorems: stage order -/

/-- The call `generatePrice` writes no field of the order but the price. -/
theorem generatePrice_frame (reg : Registry) (o : Order) :
    (generatePrice reg o).1 = { o with Price := (generatePrice reg o).1.Price } := by
  unfold generatePrice
  repeat' split
  all_goals rfl

/-- A rejection by `PowFilter.filter` carries one of its two reasons. -/
theorem PowFilter_reject_reason (env : Env) (f : PowFilter) (o : Order)
    (h : (PowFilter.filter env f o).1 = false) :
    PowFilter.filter env f o = (false, some "invalid pow nonce")
    ∨ PowFilter.filter env f o = (false, some "invalid pow") := by
  unfold PowFilter.filter at h ⊢
  split_ifs at h ⊢ <;> simp_all

/-- C6, as stated, fails: the sample order with a zero nonce fails the proof-of-work check
and, in an environment whose signature recovery fails, the signature check; the store
already holds it, and `HandleInputOrder` on the initialized gateway returns the
duplicate-submission error, not the proof-of-work reason. -/
theorem C6_counterexample :
    (PowFilter.filter storedEnv ⟨storedEnv.HexToBigint sampleFilterOptions.Difficulty⟩
        orderNoPow) = (false, some "invalid pow nonce")
    ∧ (SignFilter.filter storedEnv orderNoPow).valid = false
    ∧ (HandleInputOrder storedEnv
        (Initialize storedEnv sampleFilterOptions sampleGateWayOptions) orderNoPow).ret
        = some ("0xhash", some errOrderExisted)
    ∧ (HandleInputOrder storedEnv
        (Initialize storedEnv sampleFilterOptions sampleGateWayOptions) orderNoPow).ret
        ≠ some ("0xhash", some "invalid pow nonce") := by
  refine ⟨by decide, by decide, by decide, by decide⟩

/-- C6, amended: `Initialize` installs exactly five stages, in the order proof-of-work,
base, signature, token-support, cutoff; consequently every order that reaches the stages
(its market resolves, the store reports "record not found", price generation succeeds) and
fails the proof-of-work check is rejected by `HandleInputOrder` with the proof-of-work
reason, whether or not it also fails the signature check: the proof-of-work stage is the
only stage evaluated. -/
theorem C6_stage_order (env : Env) (filterOptions : GatewayFiltersOptions)
    (options : GateWayOptions) (input : Order) (market : String)
    (hm : env.reg.WrapMarketByAddress (env.addrHex input.TokenB) (env.addrHex input.TokenS)
      = .ok market)
    (hnf : (env.GetOrderByHash (env.GenerateHash input)).2 = some "record not found")
    (hp : (generatePrice env.reg input).2 = none)
    (hpow : (PowFilter.filter env ⟨env.HexToBigint filterOptions.Difficulty⟩ input).1 = false) :
    (∃ baseFilter : BaseFilter,
      (Initialize env filterOptions options).filters
        = [Filter.powFilter ⟨env.HexToBigint filterOptions.Difficulty⟩,
            Filter.baseFilter baseFilter, Filter.signFilter, Filter.tokenFilter,
            Filter.cutoffFilter])
    ∧ (Initialize env filterOptions options).filters.length = 5
    ∧ ((PowFilter.filter env ⟨env.HexToBigint filterOptions.Difficulty⟩ input).2
          = some "invalid pow nonce"
        ∨ (PowFilter.filter env ⟨env.HexToBigint filterOptions.Difficulty⟩ input).2
          = some "invalid pow")
    ∧ (HandleInputOrder env (Initialize env filterOptions options) input).ret
        = some (env.hashHex (env.GenerateHash input),
            (PowFilter.filter env ⟨env.HexToBigint filterOptions.Difficulty⟩ input).2)
    ∧ stageCalls (HandleInputOrder env (Initialize env filterOptions options) input).effects
        = [(0, some (false,
            (PowFilter.filter env ⟨env.HexToBigint filterOptions.Difficulty⟩ input).2))] := by
  obtain ⟨order, horder, _, hrun⟩ :=
    HandleInputOrder_notFound env (Initialize env filterOptions options) input market hm hnf hp
  have hpw : PowFilter.filter env ⟨env.HexToBigint filterOptions.Difficulty⟩
      (generatePrice env.reg order).1
      = PowFilter.filter env ⟨env.HexToBigint filterOptions.Difficulty⟩ input := by
    rw [generatePrice_frame, horder]
    rfl
  have hreason := PowFilter_reject_reason env _ input hpow
  refine ⟨⟨_, rfl⟩, rfl, ?_, ?_, ?_⟩
  · rcases hreason with h | h <;> simp [h]
  · rw [hrun]
    rcases hreason with h | h <;>
      simp [Initialize, filterLoop, Filter.filter, hpw, h]
  · rw [hrun]
    rcases hreason with h | h <;>
      simp [Initialize, filterLoop, Filter.filter, hpw, h, stageCalls, Effect.stageCall?]

/-- C6 amended, at the sample order with a zero nonce in an environment whose signature
recovery fails: the order fails both checks and is rejected with "invalid pow nonce". -/
theorem C6_stage_order_witness :
    (SignFilter.filter failSignEnv orderNoPow).valid = false
    ∧ (HandleInputOrder failSignEnv
        (Initialize failSignEnv sampleFilterOptions sampleGateWayOptions) orderNoPow).ret
        = some ("0xhash", some "invalid pow nonce") := by
  have h := C6_stage_order failSignEnv sampleFilterOptions sampleGateWayOptions orderNoPow
    "X-Y" rfl rfl (by decide) (by decide)
  refine ⟨by decide, ?_⟩
  rw [h.2.2.2.1]
  decide

/-! ## Theorems: proof-of-work stage -/

/-- The fold of `SetBytes` started at `acc` shifts `acc` past the bytes read. -/
theorem SetBytes_foldl (bs : List Nat) :
    ∀ acc : Nat, bs.foldl (fun acc b => acc * 256 + b) acc
      = acc * 256 ^ bs.length + bigEndianValue bs := by
  induction bs with
  | nil => intro acc; simp [bigEndianValue]
  | cons b bs ih =>
    intro acc
    simp only [List.foldl_cons, ih, bigEndianValue, List.length_cons, pow_succ]
    ring

/-- The value `SetBytes` computes is the big-endian value of the bytes. -/
theorem SetBytes_eq_bigEndianValue (bs : List Nat) : SetBytes bs = bigEndianValue bs := by
  simp [SetBytes, SetBytes_foldl]

/-- The eight bytes of `Uint64ToByteArray`, written out. -/
theorem Uint64ToByteArray_bytes (n : Nat) :
    Uint64ToByteArray n = [n % 256, n / 256 % 256, n / 256 ^ 2 % 256, n / 256 ^ 3 % 256,
      n / 256 ^ 4 % 256, n / 256 ^ 5 % 256, n / 256 ^ 6 % 256, n / 256 ^ 7 % 256] := by
  simp [Uint64ToByteArray, List.range, List.range.loop]

/-- The eight bytes of `Uint64ToByteArray` spell a 64-bit value back, least significant
byte first. -/
theorem Uint64ToByteArray_value (n : Nat) (hn : n < 2 ^ 64) :
    littleEndianValue (Uint64ToByteArray n) = n := by
  rw [Uint64ToByteArray_bytes]
  simp only [littleEndianValue]
  norm_num at hn ⊢
  omega

/-- C7: `PowFilter.filter` rejects exactly when the nonce is 0 or `N < Difficulty`, where
`N` is the digest, read big-endian, of the 73 bytes `V`, `R`, `S` and the 8 bytes of the
nonce, least significant byte first; an order with a non-zero nonce and `N = Difficulty`
is accepted. -/
theorem C7_pow_filter (env : Env) (f : PowFilter) (o : Order) (hn : o.PowNonce < 2 ^ 64) :
    ∃ nonceBytes : List Nat,
      nonceBytes = Uint64ToByteArray o.PowNonce
      ∧ nonceBytes.length = 8
      ∧ (∀ b ∈ nonceBytes, b < 256)
      ∧ littleEndianValue nonceBytes = o.PowNonce
      ∧ (o.V :: (o.R.bytes ++ o.S.bytes ++ nonceBytes)).length = 73
      ∧ GetPow env o.V o.R o.S o.PowNonce
          = (bigEndianValue (env.sha256 (o.V :: (o.R.bytes ++ o.S.bytes ++ nonceBytes))) : Int)
      ∧ ((PowFilter.filter env f o).1 = false ↔
          (o.PowNonce = 0 ∨ GetPow env o.V o.R o.S o.PowNonce < f.Difficulty))
      ∧ ((PowFilter.filter env f o).1 = false → (PowFilter.filter env f o).2 ≠ none)
      ∧ (o.PowNonce ≠ 0 → GetPow env o.V o.R o.S o.PowNonce = f.Difficulty →
          PowFilter.filter env f o = (true, none)) := by
  refine ⟨_, rfl, ?_, ?_, Uint64ToByteArray_value _ hn, ?_, ?_, ?_, ?_, ?_⟩
  · simp [Uint64ToByteArray]
  · intro b hb
    simp only [Uint64ToByteArray, List.mem_map] at hb
    obtain ⟨i, _, rfl⟩ := hb
    exact Nat.mod_lt _ (by norm_num)
  · simp [Uint64ToByteArray, o.R.len_eq, o.S.len_eq]
  · simp [GetPow, powInput, Bytes32.Bytes, SetBytes_eq_bigEndianValue]
  · unfold PowFilter.filter
    by_cases h0 : o.PowNonce = 0
    · simp [h0]
    · have : ¬ o.PowNonce ≤ 0 := by omega
      by_cases hlt : GetPow env o.V o.R o.S o.PowNonce < f.Difficulty <;> simp [h0, this, hlt]
  · unfold PowFilter.filter
    split_ifs <;> simp
  · intro h0 heq
    have : ¬ o.PowNonce ≤ 0 := by omega
    simp [PowFilter.filter, this, heq]

/-- C7 at the sample order with nonce 1 and a digest of value 258: difficulty 258 is met,
difficulty 259 is not. -/
theorem C7_pow_filter_witness :
    (sampleOrder.PowNonce < 2 ^ 64)
    ∧ PowFilter.filter digestEnv ⟨258⟩ sampleOrder = (true, none)
    ∧ (PowFilter.filter digestEnv ⟨259⟩ sampleOrder).1 = false := by
  obtain ⟨_, _, _, _, _, _, _, h1, _, h2⟩ :=
    C7_pow_filter digestEnv ⟨258⟩ sampleOrder (by decide)
  obtain ⟨_, _, _, _, _, _, _, h3, _, _⟩ :=
    C7_pow_filter digestEnv ⟨259⟩ sampleOrder (by decide)
  exact ⟨by decide, h2 (by decide) (by decide), h3.mpr (Or.inr (by decide))⟩

/-! ## Theorems: base eligibility stage -/

/-- Checks evaluated in order accept exactly when every check passes. -/
theorem firstOutcome_accepts (cs : List CheckOutcome) :
    firstOutcome cs = some (true, none) ↔ ∀ c ∈ cs, c = CheckOutcome.passes := by
  induction cs with
  | nil => simp [firstOutcome]
  | cons c cs ih =>
    cases c <;> simp [firstOutcome, ih]

/-- Checks evaluated in order reject with the reason of the earliest failing check, the
checks before it passing. -/
theorem firstOutcome_earliest (pre post : List CheckOutcome) (r : String)
    (hpre : ∀ c ∈ pre, c = CheckOutcome.passes) :
    firstOutcome (pre ++ CheckOutcome.fails r :: post) = some (false, some r) := by
  induction pre with
  | nil => simp [firstOutcome]
  | cons c cs ih =>
    have hc : c = CheckOutcome.passes := hpre c (by simp)
    subst hc
    simpa [firstOutcome] using ih (fun c hc => hpre c (List.mem_cons_of_mem _ hc))

/-- The checks after the minimum-holding block are evaluated in the stated order. -/
theorem filterRest_eq (env : Env) (f : BaseFilter) (o : Order) :
    BaseFilter.filterRest env f o = firstOutcome (restChecks env f o) := by
  simp only [BaseFilter.filterRest, restChecks, checkHashLength, checkTokenBLength,
    checkTokenSLength, checkOwnerLength, checkProtocolLength, Hash.len, Address.len, ne_eq,
    not_true_eq_false, if_false, if_true, firstOutcome]
  by_cases ht : o.TokenB = o.TokenS
  · simp [checkTokensDiffer, ht, firstOutcome, reject]
  simp only [checkTokensDiffer, ht, if_false, firstOutcome]
  rcases hp : o.Price with _ | price
  · simp [checkPriceRange, hp, firstOutcome]
  simp only [checkPriceRange, hp, SetFrac, Int.cast_one, div_one, one_div]
  by_cases h1 : price > (f.MaxPrice : ℚ)
  · simp [h1, firstOutcome, reject]
  simp only [h1, if_false]
  by_cases h2 : f.MaxPrice = 0
  · simp [h2, firstOutcome]
  simp only [h2, if_false]
  by_cases h3 : price < (f.MaxPrice : ℚ)⁻¹
  · simp [h3, firstOutcome, reject]
  simp only [h3, if_false, firstOutcome]
  rcases hvs : o.ValidSince with _ | validSince
  · simp [checkValidSince, hvs, firstOutcome]
  simp only [checkValidSince, hvs]
  by_cases h4 : wrapInt64 (wrapInt64 validSince - f.MaxValidSinceInterval) > env.now
  · simp [h4, firstOutcome, reject]
  simp only [h4, if_false, firstOutcome]
  rcases hvu : o.ValidUntil with _ | validUntil
  · simp [checkValidUntil, hvu, firstOutcome]
  simp only [checkValidUntil, hvu]
  by_cases h5 : wrapInt64 validUntil < env.now
  · simp [h5, firstOutcome, reject]
  simp only [h5, if_false, firstOutcome]
  by_cases h6 : env.splitFraction o.MarginSplitPercentage < f.MinSplitPercentage
      ∨ env.splitFraction o.MarginSplitPercentage > f.MaxSplitPercentage
  · simp [checkMarginSplit, h6, firstOutcome, reject]
  simp only [checkMarginSplit, h6, if_false, firstOutcome]
  rcases hts : env.reg.AddressToToken o.TokenS with e | tokenS
  · simp [checkTokenSResolves, hts, firstOutcome, reject]
  simp only [checkTokenSResolves, checkMinTokenSAmount, hts, firstOutcome]
  rcases hmin : f.MinTokeSAmount.lookup tokenS.Symbol with _ | minAmount
  · simp [firstOutcome]
  rcases ha : o.AmountS with _ | amountS
  · simp [firstOutcome]
  by_cases h7 : amountS < minAmount <;> simp [h7, firstOutcome, reject]

/-- One step of `firstOutcome`. -/
theorem firstOutcome_cons (c : CheckOutcome) (cs : List CheckOutcome) :
    firstOutcome (c :: cs) =
      (match c with
      | CheckOutcome.passes => firstOutcome cs
      | CheckOutcome.fails r => some (false, some r)
      | CheckOutcome.aborts => none) := by
  cases c <;> rfl

/-- The base stage evaluates its checks in the stated order. -/
theorem BaseFilter_filter_eq (env : Env) (f : BaseFilter) (o : Order) :
    BaseFilter.filter env f o = firstOutcome (baseChecks env f o) := by
  unfold BaseFilter.filter
  rw [baseChecks, firstOutcome_cons, firstOutcome_cons, firstOutcome_cons, ← filterRest_eq]
  generalize BaseFilter.filterRest env f o = rest
  simp only [checkProtocolDelegate, checkAuthKey, checkLrcHold, reject]
  by_cases h1 : env.IsRelateProtocol o.Protocol o.DelegateAddress = true
  swap
  · simp [h1]
  by_cases h2 : o.OrderType = ORDER_TYPE_MARKET
      ∧ env.privateKeyAddress o.AuthPrivateKey ≠ o.AuthAddr
  · simp [h1, if_pos h2]
  by_cases h3 : o.TokenB = env.reg.AliasToAddress "LRC"
  · simp [h1, if_neg h2, h3]
  rcases hb : env.GetBalanceWithSymbolResult o.Owner with e | balances
  · simp [h1, if_neg h2, h3]
  rcases hl : balances.lookup "LRC" with _ | b
  · simp [h1, if_neg h2, h3, hl]
  rcases hd : (env.reg.tokenOf "LRC").Decimals with _ | decimals
  · simp [h1, if_neg h2, h3, hl, hd]
  by_cases h4 : b ≤ f.MinLrcHold * decimals
  · simp [h1, if_neg h2, h3, hl, hd, h4]
  · simp [h1, if_neg h2, h3, hl, hd, h4]

/-- C8: `BaseFilter.filter` evaluates its fifteen checks in the stated order; it accepts
exactly when every check passes, and it rejects with the reason of the earliest failing
check. -/
theorem C8_base_filter_order (env : Env) (f : BaseFilter) (o : Order) :
    BaseFilter.filter env f o = firstOutcome (baseChecks env f o)
    ∧ (BaseFilter.filter env f o = some (true, none) ↔
        ∀ c ∈ baseChecks env f o, c = CheckOutcome.passes)
    ∧ (∀ (pre post : List CheckOutcome) (r : String),
        baseChecks env f o = pre ++ CheckOutcome.fails r :: post →
        (∀ c ∈ pre, c = CheckOutcome.passes) →
        BaseFilter.filter env f o = some (false, some r))
    ∧ (baseChecks env f o).length = 15 := by
  refine ⟨BaseFilter_filter_eq env f o, ?_, ?_, rfl⟩
  · rw [BaseFilter_filter_eq]
    exact firstOutcome_accepts _
  · intro pre post r hsplit hpre
    rw [BaseFilter_filter_eq, hsplit]
    exact firstOutcome_earliest pre post r hpre

/-- C8 at the priced sample order with a failing balance lookup: the first two checks pass,
the third fails, and its reason is the one returned. -/
theorem C8_base_filter_order_witness :
    BaseFilter.filter lookupFailsEnv sampleBaseFilter pricedOrder
      = some (false, some (errLrcHold sampleBaseFilter)) := by
  have h1 : checkProtocolDelegate lookupFailsEnv pricedOrder = CheckOutcome.passes := by decide
  have h2 : checkAuthKey lookupFailsEnv pricedOrder = CheckOutcome.passes := by decide
  have h3 : checkLrcHold lookupFailsEnv sampleBaseFilter pricedOrder
      = CheckOutcome.fails (errLrcHold sampleBaseFilter) := by decide
  exact (C8_base_filter_order lookupFailsEnv sampleBaseFilter pricedOrder).2.2.1
    [CheckOutcome.passes, CheckOutcome.passes]
    (restChecks lookupFailsEnv sampleBaseFilter pricedOrder) _
    (by rw [baseChecks, h1, h2, h3]; rfl)
    (by intro c hc; simp at hc; exact hc)

/-- C9, on the code: an owner who holds exactly `MinLrcHold` times the LRC decimals
(100 * 10^18 base units against a minimum of 100) fails the minimum-holding check and the
order is rejected with the "holds lrc less than" reason; one base unit more and the same
order is accepted. -/
theorem C9_exact_minimum_rejected :
    pricedOrder.TokenB ≠ sampleEnv.reg.AliasToAddress "LRC"
    ∧ (sampleEnv.reg.tokenOf "LRC").Decimals = some (10 ^ 18)
    ∧ checkLrcHold (holdEnv (100 * 10 ^ 18)) sampleBaseFilter pricedOrder
        = CheckOutcome.fails (errLrcHold sampleBaseFilter)
    ∧ BaseFilter.filter (holdEnv (100 * 10 ^ 18)) sampleBaseFilter pricedOrder
        = some (false, some "gateway,base filter,owner holds lrc less than 100 ")
    ∧ checkLrcHold (holdEnv (100 * 10 ^ 18 + 1)) sampleBaseFilter pricedOrder
        = CheckOutcome.passes
    ∧ BaseFilter.filter (holdEnv (100 * 10 ^ 18 + 1)) sampleBaseFilter pricedOrder
        = some (true, none) := by
  have hprice : checkPriceRange sampleBaseFilter pricedOrder = CheckOutcome.passes := by
    norm_num [checkPriceRange, pricedOrder, sampleBaseFilter]
  have hsplit : checkMarginSplit (holdEnv (100 * 10 ^ 18 + 1)) sampleBaseFilter pricedOrder
      = CheckOutcome.passes := by
    norm_num [checkMarginSplit, holdEnv, sampleEnv, sampleBaseFilter, pricedOrder, sampleOrder]
  refine ⟨by decide, by decide, by decide, ?_, by decide, ?_⟩
  · rw [BaseFilter_filter_eq]
    decide
  · rw [BaseFilter_filter_eq]
    simp only [baseChecks, restChecks, hprice, hsplit]
    decide

/-- C10: for an order whose buy token is not LRC and that passes the two checks before,
`BaseFilter.filter` returns one and the same rejection when the balance lookup fails, when
the balance map has no LRC entry and when the LRC balance is insufficient; for an order
whose buy token is LRC the result is the same whatever the balance lookup would return. -/
theorem C10_balance_fail_closed (env : Env) (f : BaseFilter) (o : Order) :
    (o.TokenB ≠ env.reg.AliasToAddress "LRC" →
      env.IsRelateProtocol o.Protocol o.DelegateAddress = true →
      ¬ (o.OrderType = ORDER_TYPE_MARKET
          ∧ env.privateKeyAddress o.AuthPrivateKey ≠ o.AuthAddr) →
      (∀ e, env.GetBalanceWithSymbolResult o.Owner = .error e →
          BaseFilter.filter env f o = some (false, some (errLrcHold f)))
      ∧ (∀ balances, env.GetBalanceWithSymbolResult o.Owner = .ok balances →
          balances.lookup "LRC" = none →
          BaseFilter.filter env f o = some (false, some (errLrcHold f)))
      ∧ (∀ balances b decimals, env.GetBalanceWithSymbolResult o.Owner = .ok balances →
          balances.lookup "LRC" = some b →
          (env.reg.tokenOf "LRC").Decimals = some decimals →
          b < f.MinLrcHold * decimals →
          BaseFilter.filter env f o = some (false, some (errLrcHold f))))
    ∧ (o.TokenB = env.reg.AliasToAddress "LRC" →
        ∀ g : Address → Except String (List (String × Int)),
          BaseFilter.filter { env with GetBalanceWithSymbolResult := g } f o
            = BaseFilter.filter env f o) := by
  constructor
  · intro h3 h1 h2
    refine ⟨?_, ?_, ?_⟩
    · intro e he
      simp [BaseFilter.filter, h1, if_neg h2, h3, he, reject]
    · intro balances hb hl
      simp [BaseFilter.filter, h1, if_neg h2, h3, hb, hl, reject]
    · intro balances b decimals hb hl hd hlt
      simp [BaseFilter.filter, h1, if_neg h2, h3, hb, hl, hd, le_of_lt hlt, reject]
  · intro h3 g
    have hrest : BaseFilter.filterRest { env with GetBalanceWithSymbolResult := g } f o
        = BaseFilter.filterRest env f o := rfl
    simp only [BaseFilter.filter, h3, ne_eq, not_true_eq_false, if_false, hrest]

/-- C10 at the priced sample order, whose buy token is not LRC: a failing lookup, a map
without LRC and a balance of 5 base units all give the same rejection. -/
theorem C10_balance_fail_closed_witness :
    BaseFilter.filter lookupFailsEnv sampleBaseFilter pricedOrder
        = some (false, some (errLrcHold sampleBaseFilter))
    ∧ BaseFilter.filter noLrcEntryEnv sampleBaseFilter pricedOrder
        = some (false, some (errLrcHold sampleBaseFilter))
    ∧ BaseFilter.filter (holdEnv 5) sampleBaseFilter pricedOrder
        = some (false, some (errLrcHold sampleBaseFilter))
    ∧ BaseFilter.filter
        { sampleEnv with GetBalanceWithSymbolResult := fun _ => .error "account service down" }
        sampleBaseFilter lrcBuyOrder
      = BaseFilter.filter sampleEnv sampleBaseFilter lrcBuyOrder :=
  ⟨((C10_balance_fail_closed lookupFailsEnv sampleBaseFilter pricedOrder).1
      (by decide) rfl (by decide)).1 "account service down" rfl,
    ((C10_balance_fail_closed noLrcEntryEnv sampleBaseFilter pricedOrder).1
      (by decide) rfl (by decide)).2.1 [("X", 5)] rfl (by decide),
    ((C10_balance_fail_closed (holdEnv 5) sampleBaseFilter pricedOrder).1
      (by decide) rfl (by decide)).2.2 [("LRC", 5)] 5 (10 ^ 18) rfl (by decide) (by decide)
      (by decide),
    (C10_balance_fail_closed sampleEnv sampleBaseFilter lrcBuyOrder).2 (by decide) _⟩

/-! ## Theorems: the price and validSince checks -/

/-- Passing checks in front do not change the result. -/
theorem firstOutcome_append_passes (pre rest : List CheckOutcome)
    (hpre : ∀ c ∈ pre, c = CheckOutcome.passes) :
    firstOutcome (pre ++ rest) = firstOutcome rest := by
  induction pre with
  | nil => rfl
  | cons c cs ih =>
    have hc : c = CheckOutcome.passes := hpre c (by simp)
    subst hc
    simpa [firstOutcome] using ih (fun c hc => hpre c (List.mem_cons_of_mem _ hc))

/-- Checks none of which can fail with a given reason do not reject with that reason. -/
theorem firstOutcome_ne_reason (cs : List CheckOutcome) (msg : String)
    (h : ∀ c ∈ cs, c ≠ CheckOutcome.fails msg) :
    firstOutcome cs ≠ some (false, some msg) := by
  induction cs with
  | nil => simp [firstOutcome]
  | cons c cs ih =>
    have hc := h c (by simp)
    have ih' := ih (fun c hc => h c (List.mem_cons_of_mem _ hc))
    cases c with
    | passes => simpa [firstOutcome] using ih'
    | fails r =>
      simp only [firstOutcome, ne_eq, Option.some.injEq, Prod.mk.injEq, true_and]
      intro hr
      exact hc (by rw [hr])
    | aborts => simp [firstOutcome]

/-- A value in the signed 64-bit range is left as it is by the reduction to that range. -/
theorem wrapInt64_of_fits (x : Int) (h1 : -2 ^ 63 ≤ x) (h2 : x < 2 ^ 63) : wrapInt64 x = x := by
  unfold wrapInt64
  norm_num at h1 h2 ⊢
  omega

/-- The result of the base stage when its first `n` checks pass: the remaining checks decide. -/
theorem BaseFilter_filter_drop (env : Env) (f : BaseFilter) (o : Order) (n : Nat)
    (hpre : ∀ c ∈ (baseChecks env f o).take n, c = CheckOutcome.passes) :
    BaseFilter.filter env f o = firstOutcome ((baseChecks env f o).drop n) := by
  rw [BaseFilter_filter_eq]
  conv_lhs => rw [← List.take_append_drop n (baseChecks env f o)]
  exact firstOutcome_append_passes _ _ hpre

/-- The price check, with a price present and `MaxPrice ≥ 1`, fails exactly outside
`[1/MaxPrice, MaxPrice]` and passes otherwise. -/
theorem checkPriceRange_eq (f : BaseFilter) (o : Order) (price : ℚ)
    (hmax : 1 ≤ f.MaxPrice) (hprice : o.Price = some price) :
    checkPriceRange f o =
      if price > (f.MaxPrice : ℚ) ∨ price < 1 / (f.MaxPrice : ℚ) then
        CheckOutcome.fails errPriceRange
      else CheckOutcome.passes := by
  have h0 : f.MaxPrice ≠ 0 := by omega
  unfold checkPriceRange
  simp only [hprice, h0, if_false, errPriceRange]
  by_cases h1 : price > (f.MaxPrice : ℚ)
  · simp [h1]
  · by_cases h2 : price < 1 / (f.MaxPrice : ℚ) <;> simp [h1, h2]

/-- None of the checks after the price check fails with the reason of the price check. -/
theorem after_price_reasons (env : Env) (f : BaseFilter) (o : Order) :
    ∀ c ∈ (baseChecks env f o).drop 10, c ≠ CheckOutcome.fails errPriceRange := by
  have hstr : ∀ x : String, "valid since is too small, order must be valid before " ++ x
      ++ " second timestamp" ≠ errPriceRange := by
    intro x h
    have := congrArg String.data h
    simp [errPriceRange] at this
  intro c hc
  simp only [baseChecks, restChecks, List.drop_succ_cons, List.drop_zero, List.mem_cons,
    List.mem_singleton, List.not_mem_nil, or_false] at hc
  rcases hc with rfl | rfl | rfl | rfl | rfl
  · unfold checkValidSince
    split
    · simp
    · split
      · simpa using hstr _
      · simp
  · unfold checkValidUntil
    split
    · simp
    · split <;> simp [errPriceRange]
  · unfold checkMarginSplit
    split <;> simp [errPriceRange]
  · unfold checkTokenSResolves
    split <;> simp [errPriceRange]
  · unfold checkMinTokenSAmount
    split
    · simp
    · split
      · simp
      · simp
      · split <;> simp [errPriceRange]

/-- C11: for `MaxPrice ≥ 1` and an order that passes the nine checks before it,
`BaseFilter.filter` rejects with the price reason exactly when the price is above
`MaxPrice` or below `1/MaxPrice` as exact rationals; a price equal to `MaxPrice` or to
`1/MaxPrice` passes the price check, and the later checks then decide. -/
theorem C11_price_range (env : Env) (f : BaseFilter) (o : Order) (price : ℚ)
    (hmax : 1 ≤ f.MaxPrice) (hprice : o.Price = some price)
    (hpre : ∀ c ∈ (baseChecks env f o).take 9, c = CheckOutcome.passes) :
    (BaseFilter.filter env f o = some (false, some errPriceRange) ↔
        (price > (f.MaxPrice : ℚ) ∨ price < 1 / (f.MaxPrice : ℚ)))
    ∧ (checkPriceRange f o = CheckOutcome.fails errPriceRange ↔
        (price > (f.MaxPrice : ℚ) ∨ price < 1 / (f.MaxPrice : ℚ)))
    ∧ (¬ (price > (f.MaxPrice : ℚ) ∨ price < 1 / (f.MaxPrice : ℚ)) →
        checkPriceRange f o = CheckOutcome.passes
        ∧ BaseFilter.filter env f o = firstOutcome ((baseChecks env f o).drop 10))
    ∧ (price = (f.MaxPrice : ℚ) → checkPriceRange f o = CheckOutcome.passes)
    ∧ (price = 1 / (f.MaxPrice : ℚ) → checkPriceRange f o = CheckOutcome.passes) := by
  have hcheck := checkPriceRange_eq f o price hmax hprice
  have hfilter : BaseFilter.filter env f o
      = firstOutcome (checkPriceRange f o :: (baseChecks env f o).drop 10) :=
    BaseFilter_filter_drop env f o 9 hpre
  have hM : (1 : ℚ) ≤ (f.MaxPrice : ℚ) := by exact_mod_cast hmax
  have hMpos : (0 : ℚ) < (f.MaxPrice : ℚ) := by linarith
  have hinv : 1 / (f.MaxPrice : ℚ) ≤ (f.MaxPrice : ℚ) := by
    rw [div_le_iff₀ hMpos]
    nlinarith
  refine ⟨?_, ?_, ?_, ?_, ?_⟩
  · rw [hfilter, firstOutcome_cons, hcheck]
    by_cases hc : price > (f.MaxPrice : ℚ) ∨ price < 1 / (f.MaxPrice : ℚ)
    · rw [if_pos hc]
      exact ⟨fun _ => hc, fun _ => rfl⟩
    · rw [if_neg hc]
      exact ⟨fun h => absurd h (firstOutcome_ne_reason _ _ (after_price_reasons env f o)),
        fun h => absurd h hc⟩
  · rw [hcheck]
    by_cases hc : price > (f.MaxPrice : ℚ) ∨ price < 1 / (f.MaxPrice : ℚ)
    · rw [if_pos hc]
      exact ⟨fun _ => hc, fun _ => rfl⟩
    · rw [if_neg hc]
      exact ⟨fun h => (by cases h), fun h => absurd h hc⟩
  · intro hc
    exact ⟨by rw [hcheck, if_neg hc], by rw [hfilter, firstOutcome_cons, hcheck, if_neg hc]⟩
  · intro heq
    rw [hcheck, if_neg]
    rintro (h | h)
    · rw [heq] at h
      exact lt_irrefl _ h
    · rw [heq] at h
      exact absurd hinv (not_le.mpr h)
  · intro heq
    rw [hcheck, if_neg]
    rintro (h | h)
    · rw [heq] at h
      exact absurd hinv (not_le.mpr h)
    · rw [heq] at h
      exact lt_irrefl _ h

/-- C11 at the priced sample order with `MaxPrice = 10^15`: a price of exactly `10^15`
and a price of exactly `1/10^15` both pass the price check. -/
theorem C11_price_range_witness :
    checkPriceRange sampleBaseFilter (orderAtPrice 1000000000000000) = CheckOutcome.passes
    ∧ checkPriceRange sampleBaseFilter (orderAtPrice (1 / 1000000000000000))
        = CheckOutcome.passes :=
  ⟨(C11_price_range sampleEnv sampleBaseFilter (orderAtPrice 1000000000000000)
      1000000000000000 (by decide) rfl (by decide)).2.2.2.1 (by norm_num [sampleBaseFilter]),
    (C11_price_range sampleEnv sampleBaseFilter (orderAtPrice (1 / 1000000000000000))
      (1 / 1000000000000000) (by decide) rfl (by decide)).2.2.2.2
      (by norm_num [sampleBaseFilter])⟩

/-- The validSince check, for a `validSince` and a difference that fit 64 bits, fails
exactly when `validSince - MaxValidSinceInterval > now`. -/
theorem checkValidSince_eq (env : Env) (f : BaseFilter) (o : Order) (validSince : Int)
    (hvs : o.ValidSince = some validSince)
    (hfit : -2 ^ 63 ≤ validSince ∧ validSince < 2 ^ 63)
    (hsub : -2 ^ 63 ≤ validSince - f.MaxValidSinceInterval
      ∧ validSince - f.MaxValidSinceInterval < 2 ^ 63) :
    checkValidSince env f o =
      if validSince - f.MaxValidSinceInterval > env.now then
        CheckOutcome.fails (errValidSince env f)
      else CheckOutcome.passes := by
  unfold checkValidSince
  simp only [hvs, wrapInt64_of_fits validSince hfit.1 hfit.2,
    wrapInt64_of_fits _ hsub.1 hsub.2, errValidSince]

/-- None of the checks after the validSince check fails with the reason of that check. -/
theorem after_validSince_reasons (env : Env) (f : BaseFilter) (o : Order) :
    ∀ c ∈ (baseChecks env f o).drop 11, c ≠ CheckOutcome.fails (errValidSince env f) := by
  have h1 : "order expired, please check validUntil" ≠ errValidSince env f := by
    intro h
    have := congrArg String.data h
    simp [errValidSince] at this
  have h2 : "margin split percentage out of range" ≠ errValidSince env f := by
    intro h
    have := congrArg String.data h
    simp [errValidSince] at this
  have h3 : "tokenS is not support now" ≠ errValidSince env f := by
    intro h
    have := congrArg String.data h
    simp [errValidSince] at this
  have h4 : "tokenS amount is too small" ≠ errValidSince env f := by
    intro h
    have := congrArg String.data h
    simp [errValidSince] at this
  intro c hc
  simp only [baseChecks, restChecks, List.drop_succ_cons, List.drop_zero, List.mem_cons,
    List.mem_singleton, List.not_mem_nil, or_false] at hc
  rcases hc with rfl | rfl | rfl | rfl
  · unfold checkValidUntil
    split
    · simp
    · split
      · simpa using h1
      · simp
  · unfold checkMarginSplit
    split
    · simpa using h2
    · simp
  · unfold checkTokenSResolves
    split
    · simpa using h3
    · simp
  · unfold checkMinTokenSAmount
    split
    · simp
    · split
      · simp
      · simp
      · split
        · simpa using h4
        · simp

/-- C12: for an order that passes the ten checks before it and whose `validSince` and
`validSince - MaxValidSinceInterval` fit a signed 64-bit integer, `BaseFilter.filter`
rejects with the validSince reason exactly when `validSince - MaxValidSinceInterval > now`;
with equality the check passes and the later checks decide. -/
theorem C12_valid_since (env : Env) (f : BaseFilter) (o : Order) (validSince : Int)
    (hvs : o.ValidSince = some validSince)
    (hfit : -2 ^ 63 ≤ validSince ∧ validSince < 2 ^ 63)
    (hsub : -2 ^ 63 ≤ validSince - f.MaxValidSinceInterval
      ∧ validSince - f.MaxValidSinceInterval < 2 ^ 63)
    (hpre : ∀ c ∈ (baseChecks env f o).take 10, c = CheckOutcome.passes) :
    (BaseFilter.filter env f o = some (false, some (errValidSince env f)) ↔
        validSince - f.MaxValidSinceInterval > env.now)
    ∧ (checkValidSince env f o = CheckOutcome.fails (errValidSince env f) ↔
        validSince - f.MaxValidSinceInterval > env.now)
    ∧ (validSince - f.MaxValidSinceInterval = env.now →
        checkValidSince env f o = CheckOutcome.passes
        ∧ BaseFilter.filter env f o = firstOutcome ((baseChecks env f o).drop 11)) := by
  have hcheck := checkValidSince_eq env f o validSince hvs hfit hsub
  have hfilter : BaseFilter.filter env f o
      = firstOutcome (checkValidSince env f o :: (baseChecks env f o).drop 11) :=
    BaseFilter_filter_drop env f o 10 hpre
  refine ⟨?_, ?_, ?_⟩
  · rw [hfilter, firstOutcome_cons, hcheck]
    by_cases hc : validSince - f.MaxValidSinceInterval > env.now
    · rw [if_pos hc]
      exact ⟨fun _ => hc, fun _ => rfl⟩
    · rw [if_neg hc]
      exact ⟨fun h => absurd h (firstOutcome_ne_reason _ _ (after_validSince_reasons env f o)),
        fun h => absurd h hc⟩
  · rw [hcheck]
    by_cases hc : validSince - f.MaxValidSinceInterval > env.now
    · rw [if_pos hc]
      exact ⟨fun _ => hc, fun _ => rfl⟩
    · rw [if_neg hc]
      exact ⟨fun h => (by cases h), fun h => absurd h hc⟩
  · intro heq
    have hc : ¬ validSince - f.MaxValidSinceInterval > env.now := by omega
    exact ⟨by rw [hcheck, if_neg hc], by rw [hfilter, firstOutcome_cons, hcheck, if_neg hc]⟩

/-- The first ten checks pass on the priced sample order, whatever its `validSince`. -/
theorem sample_first_ten (validSince : Int) :
    ∀ c ∈ (baseChecks sampleEnv sampleBaseFilter (orderValidSince validSince)).take 10,
      c = CheckOutcome.passes := by
  have hprice : checkPriceRange sampleBaseFilter (orderValidSince validSince)
      = CheckOutcome.passes := by
    norm_num [checkPriceRange, orderValidSince, pricedOrder, sampleBaseFilter]
  intro c hc
  simp only [baseChecks, restChecks, List.take_succ_cons, List.take_zero, List.mem_cons,
    List.not_mem_nil, or_false] at hc
  rcases hc with rfl | rfl | rfl | rfl | rfl | rfl | rfl | rfl | rfl | rfl
  all_goals first | exact hprice | rfl

/-- C12 at the priced sample order, with now = 1500 and an interval of 100: a `validSince`
of 1600 passes the check, one of 1601 is rejected. -/
theorem C12_valid_since_witness :
    checkValidSince sampleEnv sampleBaseFilter (orderValidSince 1600) = CheckOutcome.passes
    ∧ BaseFilter.filter sampleEnv sampleBaseFilter (orderValidSince 1601)
        = some (false, some (errValidSince sampleEnv sampleBaseFilter)) :=
  ⟨((C12_valid_since sampleEnv sampleBaseFilter (orderValidSince 1600) 1600 rfl
      (by decide) (by decide) (sample_first_ten 1600)).2.2 (by decide)).1,
    (C12_valid_since sampleEnv sampleBaseFilter (orderValidSince 1601) 1601 rfl
      (by decide) (by decide) (sample_first_ten 1601)).1.mpr (by decide)⟩

/-! ## Theorems: token-support stage -/

/-- The two flags of the loop over the registry, started from any pair of flags. -/
theorem support_foldl (o : Order) (l : List (String × Token)) :
    ∀ acc : Bool × Bool,
      ((l.foldl
          (fun acc e =>
            (if e.2.Protocol = o.TokenS ∧ e.2.Deny = false then true else acc.1,
             if e.2.Protocol = o.TokenB ∧ e.2.Deny = false then true else acc.2)) acc).1 = true
        ↔ acc.1 = true ∨ ∃ e ∈ l, e.2.Protocol = o.TokenS ∧ e.2.Deny = false)
      ∧ ((l.foldl
          (fun acc e =>
            (if e.2.Protocol = o.TokenS ∧ e.2.Deny = false then true else acc.1,
             if e.2.Protocol = o.TokenB ∧ e.2.Deny = false then true else acc.2)) acc).2 = true
        ↔ acc.2 = true ∨ ∃ e ∈ l, e.2.Protocol = o.TokenB ∧ e.2.Deny = false) := by
  induction l with
  | nil => intro acc; simp
  | cons e l ih =>
    intro acc
    simp only [List.foldl_cons, List.mem_cons, exists_eq_or_imp]
    obtain ⟨h1, h2⟩ := ih
      (if e.2.Protocol = o.TokenS ∧ e.2.Deny = false then true else acc.1,
       if e.2.Protocol = o.TokenB ∧ e.2.Deny = false then true else acc.2)
    refine ⟨?_, ?_⟩
    · rw [h1]
      by_cases hc : e.2.Protocol = o.TokenS ∧ e.2.Deny = false
      · simp [hc]
      · simp only [hc, if_false, false_or]
    · rw [h2]
      by_cases hc : e.2.Protocol = o.TokenB ∧ e.2.Deny = false
      · simp [hc]
      · simp only [hc, if_false, false_or]

/-- The flags of `TokenFilter.filter` say whether the registry supports each token. -/
theorem TokenFilter_support_iff (reg : Registry) (o : Order) :
    ((TokenFilter.support reg o).1 = true ↔ tokenSupported reg o.TokenS)
    ∧ ((TokenFilter.support reg o).2 = true ↔ tokenSupported reg o.TokenB) := by
  have h := support_foldl o reg.AllTokens (false, false)
  simp only [Bool.false_eq_true, false_or] at h
  exact h

/-- C13: `TokenFilter.filter` accepts exactly when the registry holds an entry for the sell
token that is not denied and one for the buy token that is not denied; when the sell token
is unsupported the reason names tokenS, whether or not the buy token is supported, and
when only the buy token is unsupported the reason names tokenB. -/
theorem C13_token_filter (env : Env) (o : Order) :
    ((TokenFilter.filter env o).1 = true ↔
        (tokenSupported env.reg o.TokenS ∧ tokenSupported env.reg o.TokenB))
    ∧ ((TokenFilter.filter env o).1 = true → TokenFilter.filter env o = (true, none))
    ∧ (¬ tokenSupported env.reg o.TokenS →
        TokenFilter.filter env o = (false, some ("gateway,token filter,tokenS:"
          ++ env.addrHex o.TokenS ++ " do not supported")))
    ∧ (tokenSupported env.reg o.TokenS → ¬ tokenSupported env.reg o.TokenB →
        TokenFilter.filter env o = (false, some ("gateway,token filter,tokenB:"
          ++ env.addrHex o.TokenB ++ " do not supported"))) := by
  obtain ⟨hS, hB⟩ := TokenFilter_support_iff env.reg o
  unfold TokenFilter.filter
  by_cases h1 : (TokenFilter.support env.reg o).1 = true
  · by_cases h2 : (TokenFilter.support env.reg o).2 = true
    · have s1 := hS.mp h1
      have s2 := hB.mp h2
      simp [h1, h2, s1, s2]
    · have s1 := hS.mp h1
      have s2 : ¬ tokenSupported env.reg o.TokenB := fun h => h2 (hB.mpr h)
      simp [h1, h2, s1, s2]
  · have s1 : ¬ tokenSupported env.reg o.TokenS := fun h => h1 (hS.mpr h)
    simp [h1, s1]

/-- C13 at the sample order with two unknown tokens: the reason names tokenS. -/
theorem C13_token_filter_witness :
    TokenFilter.filter sampleEnv unknownTokensOrder
      = (false, some "gateway,token filter,tokenS:0xaddr do not supported") := by
  have h := (C13_token_filter sampleEnv unknownTokensOrder).2.2.1 (by
    rintro ⟨e, he, hp, _⟩
    simp [sampleEnv, sampleRegistry, tokenX, tokenY, tokenLRC, unknownTokensOrder,
      sampleOrder] at he hp
    rcases he with rfl | rfl | rfl <;> simp at hp)
  rw [h]
  rfl

/-! ## Theorems: orders the store already holds -/

/-- The run of `HandleInputOrder` when the market resolves and the store answers with a
state and anything but "record not found". -/
theorem HandleInputOrder_held (env : Env) (gateway : GatewayState) (input : Order)
    (market : String) (st : OrderState)
    (hm : env.reg.WrapMarketByAddress (env.addrHex input.TokenB) (env.addrHex input.TokenS)
      = .ok market)
    (hne : (env.GetOrderByHash (env.GenerateHash input)).2 ≠ some "record not found")
    (hst : (env.GetOrderByHash (env.GenerateHash input)).1 = some st) :
    HandleInputOrder env gateway input =
      if gateway.isBroadcast = true ∧ st.BroadcastTime + 1 < gateway.maxBroadcastTime then
        match env.UpdateBroadcastTimeByHash st.RawOrder.Hash (st.BroadcastTime + 1 + 1) with
        | some e =>
          ⟨[Effect.emitNewOrderForBroadcast st.RawOrder,
              Effect.updateBroadcastTimeByHash st.RawOrder.Hash (st.BroadcastTime + 1 + 1)],
            some (env.hashHex (env.GenerateHash input), some e), resolvedOrder env input market⟩
        | none =>
          ⟨[Effect.emitNewOrderForBroadcast st.RawOrder,
              Effect.updateBroadcastTimeByHash st.RawOrder.Hash (st.BroadcastTime + 1 + 1),
              Effect.logInfof ("gateway,order " ++ env.hashHex (env.GenerateHash input)
                ++ " exist,will not insert again")],
            some (env.hashHex (env.GenerateHash input), some errOrderExisted),
            resolvedOrder env input market⟩
      else
        ⟨[Effect.logInfof ("gateway,order " ++ env.hashHex (env.GenerateHash input)
            ++ " exist,will not insert again")],
          some (env.hashHex (env.GenerateHash input), some errOrderExisted),
          resolvedOrder env input market⟩ := by
  simp only [HandleInputOrder, hm, hne, if_false, hst, resolvedOrder]

/-- C14, as stated, fails on two inputs, each an order the store holds without error.
In broadcast mode with budget left and a failing counter write, `HandleInputOrder` returns
the error of the write; and when the market of the order does not resolve it returns the
market error. Neither is the duplicate-submission error. -/
theorem C14_counterexample :
    updateFailsEnv.GetOrderByHash (updateFailsEnv.GenerateHash sampleOrder)
        = (some (storedState 0), none)
    ∧ (HandleInputOrder updateFailsEnv broadcastGateway sampleOrder).ret
        = some ("0xhash", some "db down")
    ∧ noMarketEnv.GetOrderByHash (noMarketEnv.GenerateHash sampleOrder)
        = (some (storedState 0), none)
    ∧ (HandleInputOrder noMarketEnv broadcastGateway sampleOrder).ret
        = some ("0xhash", some "unsupported market")
    ∧ (HandleInputOrder updateFailsEnv broadcastGateway sampleOrder).ret
        ≠ some ("0xhash", some errOrderExisted)
    ∧ (HandleInputOrder noMarketEnv broadcastGateway sampleOrder).ret
        ≠ some ("0xhash", some errOrderExisted) := by
  refine ⟨rfl, by decide, rfl, by decide, by decide, by decide⟩

/-- C14, amended: for every order whose market resolves and whose hash the store holds
(a state and no error), `HandleInputOrder` evaluates no stage and no price generation,
whatever the stages would answer, and returns the duplicate-submission error, except when
the gateway is in broadcast mode with budget left and the write of the broadcast counter
fails: then it returns the error of that write. -/
theorem C14_duplicate (env : Env) (gateway : GatewayState) (input : Order)
    (market : String) (st : OrderState)
    (hm : env.reg.WrapMarketByAddress (env.addrHex input.TokenB) (env.addrHex input.TokenS)
      = .ok market)
    (hstore : env.GetOrderByHash (env.GenerateHash input) = (some st, none)) :
    stageCalls (HandleInputOrder env gateway input).effects = []
    ∧ (∀ e ∈ (HandleInputOrder env gateway input).effects, e ≠ Effect.generatePriceCall)
    ∧ ((¬ (gateway.isBroadcast = true ∧ st.BroadcastTime + 1 < gateway.maxBroadcastTime)
          ∨ env.UpdateBroadcastTimeByHash st.RawOrder.Hash (st.BroadcastTime + 1 + 1) = none) →
        (HandleInputOrder env gateway input).ret
          = some (env.hashHex (env.GenerateHash input), some errOrderExisted))
    ∧ (∀ e, gateway.isBroadcast = true → st.BroadcastTime + 1 < gateway.maxBroadcastTime →
        env.UpdateBroadcastTimeByHash st.RawOrder.Hash (st.BroadcastTime + 1 + 1) = some e →
        (HandleInputOrder env gateway input).ret
          = some (env.hashHex (env.GenerateHash input), some e)) := by
  have hrun := HandleInputOrder_held env gateway input market st hm
    (by rw [hstore]; simp) (by rw [hstore])
  rw [hrun]
  by_cases hb : gateway.isBroadcast = true ∧ st.BroadcastTime + 1 < gateway.maxBroadcastTime
  · rw [if_pos hb]
    rcases hu : env.UpdateBroadcastTimeByHash st.RawOrder.Hash (st.BroadcastTime + 1 + 1)
      with _ | e
    · simp [stageCalls, Effect.stageCall?]
    · simp [stageCalls, Effect.stageCall?, hb]
  · rw [if_neg hb]
    refine ⟨by simp [stageCalls, Effect.stageCall?], by simp, fun _ => rfl, ?_⟩
    intro e h1 h2
    exact absurd ⟨h1, h2⟩ hb

/-- C14 amended, at the sample order held by the store, with a gateway whose single stage
rejects every order: the duplicate-submission error is returned and no stage is called. -/
theorem C14_duplicate_witness :
    (HandleInputOrder holdsEnv (gatewayOf [rejectAll "no"]) sampleOrder).ret
        = some ("0xhash", some errOrderExisted)
    ∧ stageCalls (HandleInputOrder holdsEnv (gatewayOf [rejectAll "no"]) sampleOrder).effects
        = [] :=
  ⟨(C14_duplicate holdsEnv (gatewayOf [rejectAll "no"]) sampleOrder "X-Y" (storedState 0)
      rfl rfl).2.2.1 (Or.inl (by decide)),
    (C14_duplicate holdsEnv (gatewayOf [rejectAll "no"]) sampleOrder "X-Y" (storedState 0)
      rfl rfl).1⟩

/-- C15, on the code: a store lookup that fails with "timeout" takes the branch of an
order the store holds. With no state returned the call dereferences the missing state
and does not return; with a state returned beside the error it reports a duplicate. -/
theorem C15_timeout_taken_as_held :
    timeoutEnv.GetOrderByHash (timeoutEnv.GenerateHash sampleOrder) = (none, some "timeout")
    ∧ (HandleInputOrder timeoutEnv (gatewayOf [acceptAll]) sampleOrder).ret = none
    ∧ timeoutStateEnv.GetOrderByHash (timeoutStateEnv.GenerateHash sampleOrder)
        = (some (storedState 0), some "timeout")
    ∧ (HandleInputOrder timeoutStateEnv (gatewayOf [acceptAll]) sampleOrder).ret
        = some ("0xhash", some errOrderExisted) := by
  refine ⟨rfl, by decide, rfl, by decide⟩

/-- C16, on the code: for a stored order with broadcast counter 0, in broadcast mode with
a budget of 5, `HandleInputOrder` re-emits the stored order and writes the counter 2,
not 1. -/
theorem C16_counter_written_twice_up :
    holdsEnv.GetOrderByHash (holdsEnv.GenerateHash sampleOrder) = (some (storedState 0), none)
    ∧ (storedState 0).BroadcastTime = 0
    ∧ broadcastEvents (HandleInputOrder holdsEnv broadcastGateway sampleOrder).effects
        = [(storedState 0).RawOrder]
    ∧ broadcastTimeWrites (HandleInputOrder holdsEnv broadcastGateway sampleOrder).effects
        = [((storedState 0).RawOrder.Hash, 2)]
    ∧ (HandleInputOrder holdsEnv broadcastGateway sampleOrder).ret
        = some ("0xhash", some errOrderExisted) := by
  refine ⟨rfl, rfl, by decide, by decide, by decide⟩

/-! ## Theorems: events of an admission -/

/-- The loop over the stages records stage calls and error log lines only. -/
theorem filterLoop_effects_kind (env : Env) (fs : List Filter) :
    ∀ (idx : Nat) (o : Order), ∀ e ∈ (filterLoop env fs idx o).1,
      (∃ i r, e = Effect.filterCall i r) ∨ (∃ m, e = Effect.logErrorf m) := by
  induction fs with
  | nil => intro idx o e he; simp [filterLoop] at he
  | cons v vs ih =>
    intro idx o e he
    unfold filterLoop at he
    rcases hv : Filter.filter env v o with _ | r
    · simp only [hv, List.mem_singleton] at he
      exact Or.inl ⟨_, _, he⟩
    · by_cases hval : r.valid = false
      · rcases herr : r.err with _ | msg
        · simp only [hv, hval, herr, if_true, List.mem_singleton] at he
          exact Or.inl ⟨_, _, he⟩
        · simp only [hv, hval, herr, if_true, List.mem_cons, List.mem_singleton,
            List.not_mem_nil, or_false] at he
          rcases he with he | he
          · exact Or.inl ⟨_, _, he⟩
          · exact Or.inr ⟨_, he⟩
      · have hval' : r.valid = true := by simpa using hval
        simp only [hv, hval', Bool.true_eq_false, if_false, List.mem_cons] at he
        rcases he with he | he
        · exact Or.inl ⟨_, _, he⟩
        · exact ih _ _ e he

/-- The loop ends with every stage having accepted exactly when every call it made
accepted; it then made one call per stage and recorded nothing else. -/
theorem filterLoop_passed (env : Env) (fs : List Filter) :
    ∀ (idx : Nat) (o : Order),
      ((∃ o', (filterLoop env fs idx o).2 = LoopOut.passed o') ↔
        ∀ c ∈ stageCalls (filterLoop env fs idx o).1, verdictAccepts c.2 = true)
      ∧ (∀ o', (filterLoop env fs idx o).2 = LoopOut.passed o' →
          (filterLoop env fs idx o).1.length = fs.length
          ∧ (∀ e ∈ (filterLoop env fs idx o).1, ∃ i r, e = Effect.filterCall i r)
          ∧ ((∀ v ∈ fs, Filter.keepsOrder env v) → o' = o)) := by
  induction fs with
  | nil =>
    intro idx o
    simp [filterLoop, stageCalls]
  | cons v vs ih =>
    intro idx o
    unfold filterLoop
    rcases hv : Filter.filter env v o with _ | r
    · simp [stageCalls, Effect.stageCall?, verdictAccepts]
    · by_cases hval : r.valid = false
      · rcases herr : r.err with _ | msg
        · simp [hval, herr, stageCalls, Effect.stageCall?, verdictAccepts]
        · simp [hval, herr, stageCalls, Effect.stageCall?, verdictAccepts]
      · have hval' : r.valid = true := by simpa using hval
        obtain ⟨h1, h2⟩ := ih (idx + 1) r.order
        simp only [hval', Bool.true_eq_false, if_false]
        refine ⟨?_, ?_⟩
        · rw [h1]
          simp [stageCalls, Effect.stageCall?, verdictAccepts, hval']
        · intro o' ho'
          obtain ⟨h3, h4, h5⟩ := h2 o' ho'
          refine ⟨by simp [h3], ?_, ?_⟩
          · intro e he
            rcases List.mem_cons.mp he with he | he
            · exact ⟨_, _, he⟩
            · exact h4 e he
          · intro hk
            rw [h5 (fun w hw => hk w (List.mem_cons_of_mem _ hw))]
            exact hk v (by simp) o r hv

/-- The run of `HandleInputOrder` when the market resolves and the store reports "record
not found". -/
theorem HandleInputOrder_fresh (env : Env) (gateway : GatewayState) (input : Order)
    (market : String)
    (hm : env.reg.WrapMarketByAddress (env.addrHex input.TokenB) (env.addrHex input.TokenS)
      = .ok market)
    (hnf : (env.GetOrderByHash (env.GenerateHash input)).2 = some "record not found") :
    HandleInputOrder env gateway input =
      (match (generatePrice env.reg (resolvedOrder env input market)).2 with
      | some e =>
        ⟨[Effect.emitNewOrderForBroadcast (resolvedOrder env input market),
            Effect.generatePriceCall],
          some (env.hashHex (env.GenerateHash input), some e),
          (generatePrice env.reg (resolvedOrder env input market)).1⟩
      | none =>
        match filterLoop env gateway.filters 0
            (generatePrice env.reg (resolvedOrder env input market)).1 with
        | (es, LoopOut.panicked o) =>
          ⟨[Effect.emitNewOrderForBroadcast (resolvedOrder env input market),
              Effect.generatePriceCall] ++ es, none, o⟩
        | (es, LoopOut.rejected o e) =>
          ⟨[Effect.emitNewOrderForBroadcast (resolvedOrder env input market),
              Effect.generatePriceCall] ++ es,
            some (env.hashHex (env.GenerateHash input), some e), o⟩
        | (es, LoopOut.passed o) =>
          ⟨[Effect.emitNewOrderForBroadcast (resolvedOrder env input market),
              Effect.generatePriceCall] ++ es
              ++ [Effect.emitNewOrder (OrderState.ofOrder o)],
            some (env.hashHex (env.GenerateHash input), none), o⟩) := by
  simp only [HandleInputOrder, hm, hnf, if_true, resolvedOrder]

/-- A trace of stage calls and error log lines carries no event. -/
theorem no_events_of_kind (es : List Effect)
    (hes : ∀ e ∈ es, (∃ i r, e = Effect.filterCall i r) ∨ (∃ m, e = Effect.logErrorf m)) :
    broadcastEvents es = [] ∧ newOrderEvents es = [] := by
  induction es with
  | nil => exact ⟨rfl, rfl⟩
  | cons e es ih =>
    have he := hes e (by simp)
    obtain ⟨ih1, ih2⟩ := ih (fun x hx => hes x (List.mem_cons_of_mem _ hx))
    simp only [broadcastEvents, newOrderEvents] at ih1 ih2
    rcases he with ⟨i, r, rfl⟩ | ⟨m, rfl⟩ <;>
      simp [broadcastEvents, newOrderEvents, ih1, ih2]

/-- C17: for every order whose market resolves and that the store reports as "record not
found", `HandleInputOrder` emits exactly one `NewOrderForBroadcast` event, carrying the
order, as its very first effect: price generation and every stage call come after it,
whether price generation then fails or not and whatever the stages answer. -/
theorem C17_broadcast_first (env : Env) (gateway : GatewayState) (input : Order)
    (market : String)
    (hm : env.reg.WrapMarketByAddress (env.addrHex input.TokenB) (env.addrHex input.TokenS)
      = .ok market)
    (hnf : (env.GetOrderByHash (env.GenerateHash input)).2 = some "record not found") :
    ∃ rest : List Effect,
      (HandleInputOrder env gateway input).effects
        = Effect.emitNewOrderForBroadcast (resolvedOrder env input market)
          :: Effect.generatePriceCall :: rest
      ∧ broadcastEvents (HandleInputOrder env gateway input).effects
          = [resolvedOrder env input market]
      ∧ broadcastEvents rest = []
      ∧ stageCalls (HandleInputOrder env gateway input).effects = stageCalls rest
      ∧ ((generatePrice env.reg input).2 ≠ none → rest = []) := by
  have hkind := filterLoop_effects_kind env gateway.filters 0
    (generatePrice env.reg (resolvedOrder env input market)).1
  have hperr := generatePrice_err_congr env.reg input (resolvedOrder env input market)
    rfl rfl rfl rfl
  rw [HandleInputOrder_fresh env gateway input market hm hnf]
  rcases hp : (generatePrice env.reg (resolvedOrder env input market)).2 with _ | e
  · rcases hl : filterLoop env gateway.filters 0
        (generatePrice env.reg (resolvedOrder env input market)).1 with ⟨es, out⟩
    rw [hl] at hkind
    have hes := (no_events_of_kind es hkind).1
    have hp' : (generatePrice env.reg input).2 = none := by rw [hperr, hp]
    simp only [broadcastEvents] at hes
    cases out with
    | passed o' =>
      exact ⟨es ++ [Effect.emitNewOrder (OrderState.ofOrder o')], by simp,
        by simp [broadcastEvents, hes], by simp [broadcastEvents, hes],
        by simp [stageCalls, Effect.stageCall?], fun h => absurd hp' h⟩
    | rejected o' msg =>
      exact ⟨es, by simp, by simp [broadcastEvents, hes], by simp [broadcastEvents, hes],
        by simp [stageCalls, Effect.stageCall?], fun h => absurd hp' h⟩
    | panicked o' =>
      exact ⟨es, by simp, by simp [broadcastEvents, hes], by simp [broadcastEvents, hes],
        by simp [stageCalls, Effect.stageCall?], fun h => absurd hp' h⟩
  · exact ⟨[], by simp, by simp [broadcastEvents], rfl,
      by simp [stageCalls, Effect.stageCall?], fun _ => rfl⟩

/-- C17 at the sample order with one rejecting stage: one broadcast event, first. -/
theorem C17_broadcast_first_witness :
    broadcastEvents (HandleInputOrder sampleEnv (gatewayOf [rejectAll "no"]) sampleOrder).effects
      = [resolvedOrder sampleEnv sampleOrder "X-Y"] := by
  obtain ⟨_, _, h, _⟩ :=
    C17_broadcast_first sampleEnv (gatewayOf [rejectAll "no"]) sampleOrder "X-Y" rfl rfl
  exact h

/-- The price `generatePrice` leaves in the order depends only on the tokens, the amounts
and the price the order came with. -/
theorem generatePrice_price_congr (reg : Registry) (o o' : Order)
    (h1 : o.TokenS = o'.TokenS) (h2 : o.TokenB = o'.TokenB)
    (h3 : o.AmountS = o'.AmountS) (h4 : o.AmountB = o'.AmountB) (h5 : o.Price = o'.Price) :
    (generatePrice reg o).1.Price = (generatePrice reg o').1.Price := by
  unfold generatePrice
  rw [h1, h2, h3, h4]
  repeat' split
  all_goals first | rfl | exact h5

/-- An order that does not reach the stages is not admitted and raises no `NewOrder`
event. -/
theorem HandleInputOrder_unreached (env : Env) (gateway : GatewayState) (input : Order)
    (h : ¬ reachesStages env input) :
    ¬ (HandleInputOrder env gateway input).succeeded
    ∧ newOrderEvents (HandleInputOrder env gateway input).effects = [] := by
  rcases hm : env.reg.WrapMarketByAddress (env.addrHex input.TokenB)
      (env.addrHex input.TokenS) with e | market
  · have hrun : HandleInputOrder env gateway input
        = ⟨[], some (env.hashHex (env.GenerateHash input), some e),
            { input with Hash := env.GenerateHash input }⟩ := by
      simp only [HandleInputOrder, hm]
    rw [hrun]
    exact ⟨by rintro ⟨x, hx⟩; simp at hx, rfl⟩
  · by_cases hnf : (env.GetOrderByHash (env.GenerateHash input)).2 = some "record not found"
    · have hperr := generatePrice_err_congr env.reg input (resolvedOrder env input market)
        rfl rfl rfl rfl
      rw [HandleInputOrder_fresh env gateway input market hm hnf]
      rcases hp : (generatePrice env.reg (resolvedOrder env input market)).2 with _ | e
      · exact absurd ⟨⟨market, hm⟩, hnf, by rw [hperr, hp]⟩ h
      · exact ⟨by rintro ⟨x, hx⟩; simp at hx, rfl⟩
    · rcases hst : (env.GetOrderByHash (env.GenerateHash input)).1 with _ | st
      · have hrun : HandleInputOrder env gateway input
            = ⟨[], none, resolvedOrder env input market⟩ := by
          simp only [HandleInputOrder, hm, hnf, if_false, hst, resolvedOrder]
        rw [hrun]
        exact ⟨by rintro ⟨x, hx⟩; simp at hx, rfl⟩
      · rw [HandleInputOrder_held env gateway input market st hm hnf hst]
        split
        · split
          · exact ⟨by rintro ⟨x, hx⟩; simp at hx, rfl⟩
          · exact ⟨by rintro ⟨x, hx⟩; simp at hx, rfl⟩
        · exact ⟨by rintro ⟨x, hx⟩; simp at hx, rfl⟩

/-- C18: `HandleInputOrder` returns a nil error exactly when the order reaches the stages
(market resolved, store reports "record not found", price generated) and every stage of
the list is evaluated and accepts. In that case it returns the hash string, and its last
effect, after all stage calls, is the one `NewOrder` event, carrying a state whose
`RawOrder` is the order as the call leaves it: with stages that do not write to the order,
the input with hash, market, side and price set. In every other case there is no
`NewOrder` event. -/
theorem C18_admission (env : Env) (gateway : GatewayState) (input : Order) :
    ((HandleInputOrder env gateway input).succeeded ↔
        (reachesStages env input
          ∧ (stageCalls (HandleInputOrder env gateway input).effects).map Prod.fst
              = List.range gateway.filters.length
          ∧ ∀ c ∈ stageCalls (HandleInputOrder env gateway input).effects,
              verdictAccepts c.2 = true))
    ∧ ((HandleInputOrder env gateway input).succeeded →
        (HandleInputOrder env gateway input).ret
            = some (env.hashHex (env.GenerateHash input), none)
        ∧ newOrderEvents (HandleInputOrder env gateway input).effects
            = [OrderState.ofOrder (HandleInputOrder env gateway input).order]
        ∧ (∃ es, (HandleInputOrder env gateway input).effects
              = es ++ [Effect.emitNewOrder
                  (OrderState.ofOrder (HandleInputOrder env gateway input).order)]
            ∧ (stageCalls es).length = gateway.filters.length)
        ∧ ((∀ v ∈ gateway.filters, Filter.keepsOrder env v) →
            ∀ market, env.reg.WrapMarketByAddress (env.addrHex input.TokenB)
                (env.addrHex input.TokenS) = .ok market →
              (HandleInputOrder env gateway input).order
                = { resolvedOrder env input market with
                    Price := (generatePrice env.reg input).1.Price }))
    ∧ (¬ (HandleInputOrder env gateway input).succeeded →
        newOrderEvents (HandleInputOrder env gateway input).effects = []) := by
  by_cases hr : reachesStages env input
  swap
  · obtain ⟨h1, h2⟩ := HandleInputOrder_unreached env gateway input hr
    exact ⟨⟨fun h => absurd h h1, fun h => absurd h.1 hr⟩, fun h => absurd h h1, fun _ => h2⟩
  obtain ⟨⟨market, hm⟩, hnf, hp⟩ := hr
  have hperr := generatePrice_err_congr env.reg input (resolvedOrder env input market)
    rfl rfl rfl rfl
  have hp2 : (generatePrice env.reg (resolvedOrder env input market)).2 = none := by
    rw [← hperr, hp]
  have hpass := filterLoop_passed env gateway.filters 0
    (generatePrice env.reg (resolvedOrder env input market)).1
  have hstages := filterLoop_stages env gateway.filters 0
    (generatePrice env.reg (resolvedOrder env input market)).1
  have hkind := filterLoop_effects_kind env gateway.filters 0
    (generatePrice env.reg (resolvedOrder env input market)).1
  have hrun := HandleInputOrder_fresh env gateway input market hm hnf
  simp only [hp2] at hrun
  rcases hl : filterLoop env gateway.filters 0
      (generatePrice env.reg (resolvedOrder env input market)).1 with ⟨es, out⟩
  rw [hl] at hpass hstages hkind hrun
  have hcalls : stageCalls ([Effect.emitNewOrderForBroadcast (resolvedOrder env input market),
      Effect.generatePriceCall] ++ es) = stageCalls es := by
    simp [stageCalls, Effect.stageCall?]
  have hnoev := (no_events_of_kind es hkind).2
  simp only [newOrderEvents] at hnoev
  have hreach : reachesStages env input := ⟨⟨market, hm⟩, hnf, hp⟩
  cases out with
  | passed o' =>
    simp only at hrun
    have hall := hpass.1.mp ⟨o', rfl⟩
    obtain ⟨_, _, hkeep⟩ := hpass.2 o' rfl
    have hlen := hstages.2.2.2.2 hall
    have hsucc : (HandleInputOrder env gateway input).succeeded := by
      rw [hrun]
      exact ⟨_, rfl⟩
    have hcalls' : stageCalls ([Effect.emitNewOrderForBroadcast
        (resolvedOrder env input market), Effect.generatePriceCall] ++ es
        ++ [Effect.emitNewOrder (OrderState.ofOrder o')]) = stageCalls es := by
      simp [stageCalls, Effect.stageCall?]
    refine ⟨⟨fun _ => ⟨hreach, ?_, ?_⟩, fun _ => hsucc⟩, fun _ => ⟨?_, ?_, ?_, ?_⟩,
      fun h => absurd hsucc h⟩
    · rw [hrun]
      simp only [hcalls']
      rw [hstages.1, hlen, List.range_eq_range']
    · rw [hrun]
      simp only [hcalls']
      exact hall
    · rw [hrun]
    · rw [hrun]
      simp [newOrderEvents, hnoev]
    · rw [hrun]
      exact ⟨_, rfl, by rw [hcalls]; exact hlen⟩
    · intro hk market' hm'
      have hmk : market' = market := by
        rw [hm] at hm'
        injection hm' with h
        exact h.symm
      subst hmk
      rw [hrun]
      simp only
      rw [hkeep hk, generatePrice_frame env.reg (resolvedOrder env input market'),
        generatePrice_price_congr env.reg (resolvedOrder env input market') input
          rfl rfl rfl rfl rfl]
  | rejected o' msg =>
    simp only at hrun
    have hns : ¬ (HandleInputOrder env gateway input).succeeded := by
      rw [hrun]
      rintro ⟨x, hx⟩
      simp at hx
    refine ⟨⟨fun h => absurd h hns, fun h => ?_⟩, fun h => absurd h hns, fun _ => ?_⟩
    · obtain ⟨_, _, hall⟩ := h
      rw [hrun] at hall
      simp only [hcalls] at hall
      obtain ⟨x, hx⟩ := hpass.1.mpr hall
      simp at hx
    · rw [hrun]
      simp [newOrderEvents, hnoev]
  | panicked o' =>
    simp only at hrun
    have hns : ¬ (HandleInputOrder env gateway input).succeeded := by
      rw [hrun]
      rintro ⟨x, hx⟩
      simp at hx
    refine ⟨⟨fun h => absurd h hns, fun h => ?_⟩, fun h => absurd h hns, fun _ => ?_⟩
    · obtain ⟨_, _, hall⟩ := h
      rw [hrun] at hall
      simp only [hcalls] at hall
      obtain ⟨x, hx⟩ := hpass.1.mpr hall
      simp at hx
    · rw [hrun]
      simp [newOrderEvents, hnoev]

/-- C18 at the sample order with one accepting stage: admitted, with one `NewOrder` event
carrying the order with hash, market, side and price set. -/
theorem C18_admission_witness :
    (HandleInputOrder sampleEnv (gatewayOf [acceptAll]) sampleOrder).succeeded
    ∧ newOrderEvents (HandleInputOrder sampleEnv (gatewayOf [acceptAll]) sampleOrder).effects
        = [OrderState.ofOrder (HandleInputOrder sampleEnv (gatewayOf [acceptAll])
            sampleOrder).order]
    ∧ (HandleInputOrder sampleEnv (gatewayOf [acceptAll]) sampleOrder).order
        = { resolvedOrder sampleEnv sampleOrder "X-Y" with
            Price := (generatePrice sampleEnv.reg sampleOrder).1.Price } := by
  have hs : (HandleInputOrder sampleEnv (gatewayOf [acceptAll]) sampleOrder).succeeded :=
    ⟨"0xhash", by decide⟩
  obtain ⟨_, h2, _, h4⟩ :=
    (C18_admission sampleEnv (gatewayOf [acceptAll]) sampleOrder).2.1 hs
  refine ⟨hs, h2, h4 ?_ "X-Y" rfl⟩
  intro v hv o r hr
  simp only [gatewayOf, List.mem_singleton] at hv
  subst hv
  simp only [acceptAll, Filter.filter, Option.some.injEq] at hr
  rw [← hr]

/-! ## Theorems: available amounts -/

/-- The two caps applied in turn give the least of the three amounts. -/
theorem capped_eq_min (a x y : ℚ) :
    (if (if a > x then x else a) > y then y else (if a > x then x else a))
      = min a (min x y) := by
  simp only [min_def]
  split_ifs <;> linarith

/-- With a successful lookup and a positive decimal, `getAvailableMinAmount` caps the
amount by balance and allowance and compares the result with the dust threshold. -/
theorem getAvailableMinAmount_eq (wenv : WalletEnv) (a : ℚ) (owner token spender : Address)
    (d b l : Int) (hd : 0 < d)
    (hlook : wenv.GetBalanceAndAllowance owner token spender = .ok (b, l)) :
    getAvailableMinAmount wenv a owner token spender (some d) =
      if min a (min ((b : ℚ) / (d : ℚ)) ((l : ℚ) / (d : ℚ))) < dustThreshold then
        some (none, some "amount is zero, skipped")
      else some (some (min a (min ((b : ℚ) / (d : ℚ)) ((l : ℚ) / (d : ℚ)))), none) := by
  have hd0 : d ≠ 0 := hd.ne'
  simp only [getAvailableMinAmount, hlook, hd0, if_false, SetFrac, capped_eq_min]

/-- An order whose amount computation fails leaves the depth map and the book rows as
they were. -/
theorem failed_amount_skipped (wenv : WalletEnv) (state : OrderState) (isAsk : Bool)
    (dS dB : Option Int) (e : String)
    (herr : calculateOrderBookAmount wenv state isAsk dS dB = some (.error e)) :
    (∀ rest depthMap, state.RawOrder.Price ≠ none →
        depthLoop wenv isAsk dS dB (state :: rest) depthMap
          = depthLoop wenv isAsk dS dB rest depthMap)
    ∧ (∀ rest elements, bookHeader wenv dS dB state ≠ none →
        bookLoop wenv isAsk dS dB (state :: rest) elements
          = bookLoop wenv isAsk dS dB rest elements) := by
  constructor
  · intro rest depthMap hp
    rcases hprice : state.RawOrder.Price with _ | price
    · exact absurd hprice hp
    · simp only [depthLoop, depthStep, hprice, herr]
  · intro rest elements hh
    rcases hhead : bookHeader wenv dS dB state with _ | ⟨o, price⟩
    · exact absurd hhead hh
    · simp only [bookLoop, bookStep, hhead, herr]

/-- C19: with a successful lookup returning balance `b` and allowance `l` and a decimal
`d > 0`, `getAvailableMinAmount` on the amount `a` returns `m = min(a, b/d, l/d)` as an
exact rational when `m` is not below the dust threshold and an error when it is; in the
latter case, for an order state whose remaining sell amount in human units is `a`,
`calculateOrderBookAmount` fails and the loops of `calculateDepth` and
`generateOrderBook` skip the order. -/
theorem C19_dust_threshold (wenv : WalletEnv) (a : ℚ) (owner token spender : Address)
    (d b l : Int) (hd : 0 < d)
    (hlook : wenv.GetBalanceAndAllowance owner token spender = .ok (b, l)) :
    (dustThreshold ≤ min a (min ((b : ℚ) / (d : ℚ)) ((l : ℚ) / (d : ℚ))) →
        getAvailableMinAmount wenv a owner token spender (some d)
          = some (some (min a (min ((b : ℚ) / (d : ℚ)) ((l : ℚ) / (d : ℚ)))), none))
    ∧ (min a (min ((b : ℚ) / (d : ℚ)) ((l : ℚ) / (d : ℚ))) < dustThreshold →
        getAvailableMinAmount wenv a owner token spender (some d)
          = some (none, some "amount is zero, skipped"))
    ∧ (min a (min ((b : ℚ) / (d : ℚ)) ((l : ℚ) / (d : ℚ))) < dustThreshold →
        ∀ (state : OrderState) (isAsk : Bool) (dB : Int) (remainedS remainedB : ℚ),
          state.RawOrder.Owner = owner → state.RawOrder.TokenS = token →
          state.RawOrder.DelegateAddress = spender →
          wenv.RemainedAmount state = some (remainedS, remainedB) →
          remainedS / (d : ℚ) = a → dB ≠ 0 →
          (∃ e, calculateOrderBookAmount wenv state isAsk (some d) (some dB) = some (.error e))
          ∧ (∀ rest depthMap, state.RawOrder.Price ≠ none →
              depthLoop wenv isAsk (some d) (some dB) (state :: rest) depthMap
                = depthLoop wenv isAsk (some d) (some dB) rest depthMap)
          ∧ (∀ rest elements, bookHeader wenv (some d) (some dB) state ≠ none →
              bookLoop wenv isAsk (some d) (some dB) (state :: rest) elements
                = bookLoop wenv isAsk (some d) (some dB) rest elements))
    ∧ (0 < dustThreshold ∧ dustThreshold = 3022314549036573 / 2 ^ 78) := by
  have heq := getAvailableMinAmount_eq wenv a owner token spender d b l hd hlook
  refine ⟨?_, ?_, ?_, ?_⟩
  · intro h
    rw [heq, if_neg (not_lt.mpr h)]
  · intro h
    rw [heq, if_pos h]
  · intro h state isAsk dB remainedS remainedB ho ht hs hrem ha hdB
    have hd0 : d ≠ 0 := hd.ne'
    have herr : ∃ e, calculateOrderBookAmount wenv state isAsk (some d) (some dB)
        = some (.error e) := by
      unfold calculateOrderBookAmount
      simp only [hrem, hd0, hdB, if_false]
      by_cases h1 : remainedS / SetFrac d 1 = 0
      · exact ⟨_, by rw [if_pos h1]⟩
      · rw [if_neg h1]
        by_cases h2 : remainedB / SetFrac dB 1 = 0
        · exact ⟨_, by rw [if_pos h2]⟩
        · rw [if_neg h2]
          have ha' : remainedS / SetFrac d 1 = a := by
            rw [← ha]
            simp [SetFrac]
          rw [ha', ho, ht, hs, heq, if_pos h]
          exact ⟨_, rfl⟩
    obtain ⟨e, he⟩ := herr
    exact ⟨⟨e, he⟩, failed_amount_skipped wenv state isAsk (some d) (some dB) e he⟩
  · constructor
    · norm_num [dustThreshold]
    · norm_num [dustThreshold]

/-- C19 at the sample wallet: 100 units remaining, balance 50 and allowance 40 give 40;
with a balance of 5 base units the amount is dust and an error is returned. -/
theorem C19_dust_threshold_witness :
    getAvailableMinAmount sampleWalletEnv 100 ⟨50⟩ ⟨1⟩ ⟨101⟩ (some (10 ^ 18))
        = some (some 40, none)
    ∧ getAvailableMinAmount dustWalletEnv 100 ⟨50⟩ ⟨1⟩ ⟨101⟩ (some (10 ^ 18))
        = some (none, some "amount is zero, skipped") := by
  have h1 := (C19_dust_threshold sampleWalletEnv 100 ⟨50⟩ ⟨1⟩ ⟨101⟩ (10 ^ 18) (50 * 10 ^ 18)
    (40 * 10 ^ 18) (by norm_num) rfl).1
  have h2 := (C19_dust_threshold dustWalletEnv 100 ⟨50⟩ ⟨1⟩ ⟨101⟩ (10 ^ 18) 5
    (40 * 10 ^ 18) (by norm_num) rfl).2.1
  have e1 : min (100 : ℚ) (min (((50 * 10 ^ 18 : Int) : ℚ) / ((10 ^ 18 : Int) : ℚ))
      (((40 * 10 ^ 18 : Int) : ℚ) / ((10 ^ 18 : Int) : ℚ))) = 40 := by
    norm_num
  have e2 : min (100 : ℚ) (min (((5 : Int) : ℚ) / ((10 ^ 18 : Int) : ℚ))
      (((40 * 10 ^ 18 : Int) : ℚ) / ((10 ^ 18 : Int) : ℚ))) = 5 / 10 ^ 18 := by
    norm_num
  rw [e1] at h1
  rw [e2] at h2
  exact ⟨h1 (by norm_num [dustThreshold]), h2 (by norm_num [dustThreshold])⟩

/-- An amount `getAvailableMinAmount` returns without error is at least the dust
threshold, hence positive. -/
theorem getAvailableMinAmount_pos (wenv : WalletEnv) (a m : ℚ) (owner token spender : Address)
    (decimal : Option Int)
    (h : getAvailableMinAmount wenv a owner token spender decimal = some (some m, none)) :
    0 < m := by
  have hthr : (0 : ℚ) < dustThreshold := by norm_num [dustThreshold]
  unfold getAvailableMinAmount at h
  rcases hl : wenv.GetBalanceAndAllowance owner token spender with e | ⟨b, l⟩
  · simp [hl] at h
  · rcases decimal with _ | d
    · simp [hl] at h
    · by_cases hd : d = 0
      · simp [hl, hd] at h
      · simp only [hl, hd, if_false, capped_eq_min] at h
        by_cases hlt : min a (min (SetFrac b d) (SetFrac l d)) < dustThreshold
        · rw [if_pos hlt] at h
          simp at h
        · rw [if_neg hlt] at h
          simp only [Option.some.injEq, Prod.mk.injEq, and_true] at h
          rw [← h]
          linarith [not_lt.mp hlt]

/-- What `calculateOrderBookAmount` returns on success: an amount `m` on the capped side
and its image under the order's price on the other side. -/
theorem calculateOrderBookAmount_ok (wenv : WalletEnv) (state : OrderState) (isAsk : Bool)
    (dS dB : Option Int) (outS outB : ℚ)
    (hok : calculateOrderBookAmount wenv state isAsk dS dB = some (.ok (outS, outB))) :
    ∃ (orderAmountS orderAmountB : Int) (m : ℚ),
      state.RawOrder.AmountS = some orderAmountS ∧ state.RawOrder.AmountB = some orderAmountB
      ∧ orderAmountS ≠ 0 ∧ orderAmountB ≠ 0 ∧ m ≠ 0
      ∧ ((outS = m ∧ outB = m * SetFrac orderAmountB orderAmountS)
        ∨ (outB = m ∧ outS = m * SetFrac orderAmountS orderAmountB)) := by
  unfold calculateOrderBookAmount at hok
  rcases hrem : wenv.RemainedAmount state with _ | ⟨remainedS, remainedB⟩
  · simp [hrem] at hok
  rcases dS with _ | dS
  · simp [hrem] at hok
  rcases dB with _ | dB
  · simp [hrem] at hok
  by_cases h1 : dS = 0
  · simp [hrem, h1] at hok
  by_cases h2 : dB = 0
  · simp [hrem, h1, h2] at hok
  by_cases h3 : remainedS / SetFrac dS 1 = 0
  · simp [hrem, h1, h2, h3] at hok
  by_cases h4 : remainedB / SetFrac dB 1 = 0
  · simp [hrem, h1, h2, h3, h4] at hok
  simp only [hrem, h1, h2, h3, h4, if_false] at hok
  rcases hg : getAvailableMinAmount wenv (remainedS / SetFrac dS 1) state.RawOrder.Owner
      state.RawOrder.TokenS state.RawOrder.DelegateAddress (some dS) with _ | ⟨am, er⟩
  · simp [hg] at hok
  rcases er with _ | er
  swap
  · simp [hg] at hok
  rcases am with _ | minAmountS
  · simp [hg] at hok
  have hpos := getAvailableMinAmount_pos wenv _ minAmountS _ _ _ _ hg
  simp only [hg] at hok
  rcases haS : state.RawOrder.AmountS with _ | orderAmountS
  · simp [haS] at hok
  rcases haB : state.RawOrder.AmountB with _ | orderAmountB
  · simp [haS, haB] at hok
  by_cases h5 : orderAmountB = 0
  · simp [haS, haB, h5] at hok
  by_cases h6 : orderAmountS = 0
  · simp [haS, haB, h5, h6] at hok
  simp only [haS, haB, h5, h6, if_false] at hok
  have hqS : (orderAmountS : ℚ) ≠ 0 := by exact_mod_cast h6
  have hqB : (orderAmountB : ℚ) ≠ 0 := by exact_mod_cast h5
  have hsell : SetFrac orderAmountS orderAmountB ≠ 0 := div_ne_zero hqS hqB
  have hbuy : SetFrac orderAmountB orderAmountS ≠ 0 := div_ne_zero hqB hqS
  refine ⟨orderAmountS, orderAmountB, ?_⟩
  by_cases hbuyNoMore : state.RawOrder.BuyNoMoreThanAmountB = true
  · rw [if_pos hbuyNoMore] at hok
    simp only [Option.some.injEq, Except.ok.injEq, Prod.mk.injEq] at hok
    obtain ⟨hS, hB⟩ := hok
    refine ⟨outS, rfl, rfl, h6, h5, ?_, Or.inl ⟨rfl, by rw [← hB, hS]⟩⟩
    rw [← hS]
    split
    · exact mul_ne_zero h4 hsell
    · exact hpos.ne'
  · rw [if_neg hbuyNoMore] at hok
    simp only [Option.some.injEq, Except.ok.injEq, Prod.mk.injEq] at hok
    obtain ⟨hS, hB⟩ := hok
    refine ⟨outB, rfl, rfl, h6, h5, ?_, Or.inr ⟨rfl, by rw [← hS, hB]⟩⟩
    rw [← hB]
    split
    · exact mul_ne_zero hpos.ne' hbuy
    · exact h4

/-- C20: whenever `calculateOrderBookAmount` succeeds on an order state with positive
`AmountS` and `AmountB`, the two amounts returned are in the order's declared ratio:
`amountS_out * AmountB = amountB_out * AmountS`, and, `amountB_out` being non-zero,
`amountS_out / amountB_out = AmountS / AmountB`. -/
theorem C20_ratio_preserved (wenv : WalletEnv) (state : OrderState) (isAsk : Bool)
    (dS dB : Option Int) (orderAmountS orderAmountB : Int) (outS outB : ℚ)
    (haS : state.RawOrder.AmountS = some orderAmountS)
    (haB : state.RawOrder.AmountB = some orderAmountB)
    (pS : 0 < orderAmountS) (pB : 0 < orderAmountB)
    (hok : calculateOrderBookAmount wenv state isAsk dS dB = some (.ok (outS, outB))) :
    outS * (orderAmountB : ℚ) = outB * (orderAmountS : ℚ)
    ∧ outB ≠ 0
    ∧ outS / outB = (orderAmountS : ℚ) / (orderAmountB : ℚ) := by
  obtain ⟨aS', aB', m, hS', hB', _, _, hm, hcase⟩ :=
    calculateOrderBookAmount_ok wenv state isAsk dS dB outS outB hok
  rw [haS] at hS'
  rw [haB] at hB'
  injection hS' with hS'
  injection hB' with hB'
  subst hS' hB'
  have hqS : (orderAmountS : ℚ) ≠ 0 := by exact_mod_cast pS.ne'
  have hqB : (orderAmountB : ℚ) ≠ 0 := by exact_mod_cast pB.ne'
  rcases hcase with ⟨h1, h2⟩ | ⟨h1, h2⟩
  · have hB0 : outB ≠ 0 := by
      rw [h2]
      exact mul_ne_zero hm (div_ne_zero hqB hqS)
    refine ⟨?_, hB0, ?_⟩
    · rw [h1, h2, SetFrac]
      field_simp
    · rw [h1, h2, SetFrac]
      field_simp
      ring
  · have hB0 : outB ≠ 0 := by
      rw [h1]
      exact hm
    refine ⟨?_, hB0, ?_⟩
    · rw [h1, h2, SetFrac]
      field_simp
    · rw [h1, h2, SetFrac]
      field_simp
      ring

/-- The amounts computed for the sample state: 100 units remain, the allowance caps the
sell side at 40, and the buy side follows from the order's price. -/
theorem sampleState_amounts :
    calculateOrderBookAmount sampleWalletEnv sampleState false (some (10 ^ 18)) (some (10 ^ 6))
      = some (.ok (40, 8 / 100000000000)) := by
  simp only [calculateOrderBookAmount, getAvailableMinAmount, sampleWalletEnv, sampleState,
    OrderState.ofOrder, pricedOrder, sampleOrder, SetFrac]
  norm_num [dustThreshold]

/-- C20 at the sample state: 40 sold for 8/10^11 bought is the declared ratio of
100 * 10^18 to 200 * 10^6. -/
theorem C20_ratio_preserved_witness :
    (40 : ℚ) * ((200 * 10 ^ 6 : Int) : ℚ) = (8 / 100000000000) * ((100 * 10 ^ 18 : Int) : ℚ)
    ∧ (8 / 100000000000 : ℚ) ≠ 0 :=
  ⟨(C20_ratio_preserved sampleWalletEnv sampleState false (some (10 ^ 18)) (some (10 ^ 6))
      (100 * 10 ^ 18) (200 * 10 ^ 6) 40 (8 / 100000000000) rfl rfl (by norm_num)
      (by norm_num) sampleState_amounts).1,
    (C20_ratio_preserved sampleWalletEnv sampleState false (some (10 ^ 18)) (some (10 ^ 6))
      (100 * 10 ^ 18) (200 * 10 ^ 6) 40 (8 / 100000000000) rfl rfl (by norm_num)
      (by norm_num) sampleState_amounts).2.1⟩

/-! ## Theorems: capping of the order-book amounts -/

/-- The cap `if x < y then x else y` is the smaller of the two. -/
theorem cap_eq_min (x y : ℚ) : (if x < y then x else y) = min y x := by
  simp only [min_def]
  split_ifs <;> linarith

/-- With a successful lookup and a non-zero decimal, `getAvailableMinAmount` caps the
amount by balance and allowance and compares the result with the dust threshold. -/
theorem getAvailableMinAmount_eq_of_ne (wenv : WalletEnv) (a : ℚ)
    (owner token spender : Address) (d b l : Int) (hd : d ≠ 0)
    (hlook : wenv.GetBalanceAndAllowance owner token spender = .ok (b, l)) :
    getAvailableMinAmount wenv a owner token spender (some d) =
      if min a (min ((b : ℚ) / (d : ℚ)) ((l : ℚ) / (d : ℚ))) < dustThreshold then
        some (none, some "amount is zero, skipped")
      else some (some (min a (min ((b : ℚ) / (d : ℚ)) ((l : ℚ) / (d : ℚ)))), none) := by
  simp only [getAvailableMinAmount, hlook, hd, if_false, SetFrac, capped_eq_min]

/-- The result of `calculateOrderBookAmount` written out, for a state whose remaining
amounts, decimals, balance, allowance and order amounts are all present and non-zero
where the code divides by them. -/
theorem calculateOrderBookAmount_eq (wenv : WalletEnv) (state : OrderState) (isAsk : Bool)
    (d dB : Int) (remainedS remainedB : ℚ) (b l orderAmountS orderAmountB : Int)
    (hrem : wenv.RemainedAmount state = some (remainedS, remainedB))
    (hd : d ≠ 0) (hdB : dB ≠ 0)
    (hlook : wenv.GetBalanceAndAllowance state.RawOrder.Owner state.RawOrder.TokenS
      state.RawOrder.DelegateAddress = .ok (b, l))
    (haS : state.RawOrder.AmountS = some orderAmountS)
    (haB : state.RawOrder.AmountB = some orderAmountB)
    (nS : orderAmountS ≠ 0) (nB : orderAmountB ≠ 0) :
    calculateOrderBookAmount wenv state isAsk (some d) (some dB) =
      if remainedS / (d : ℚ) = 0 then some (.error "amount s is zero")
      else if remainedB / (dB : ℚ) = 0 then some (.error "amount b is zero")
      else if min (remainedS / (d : ℚ)) (min ((b : ℚ) / (d : ℚ)) ((l : ℚ) / (d : ℚ)))
          < dustThreshold then
        some (.error "amount is zero, skipped")
      else if state.RawOrder.BuyNoMoreThanAmountB = true then
        some (.ok
          (min (min (remainedS / (d : ℚ)) (min ((b : ℚ) / (d : ℚ)) ((l : ℚ) / (d : ℚ))))
              (remainedB / (dB : ℚ) * ((orderAmountS : ℚ) / (orderAmountB : ℚ))),
            min (min (remainedS / (d : ℚ)) (min ((b : ℚ) / (d : ℚ)) ((l : ℚ) / (d : ℚ))))
              (remainedB / (dB : ℚ) * ((orderAmountS : ℚ) / (orderAmountB : ℚ)))
              * ((orderAmountB : ℚ) / (orderAmountS : ℚ))))
      else
        some (.ok
          (min (remainedB / (dB : ℚ))
              (min (remainedS / (d : ℚ)) (min ((b : ℚ) / (d : ℚ)) ((l : ℚ) / (d : ℚ)))
                * ((orderAmountB : ℚ) / (orderAmountS : ℚ)))
              * ((orderAmountS : ℚ) / (orderAmountB : ℚ)),
            min (remainedB / (dB : ℚ))
              (min (remainedS / (d : ℚ)) (min ((b : ℚ) / (d : ℚ)) ((l : ℚ) / (d : ℚ)))
                * ((orderAmountB : ℚ) / (orderAmountS : ℚ))))) := by
  have hS1 : SetFrac d 1 = (d : ℚ) := by simp [SetFrac]
  have hB1 : SetFrac dB 1 = (dB : ℚ) := by simp [SetFrac]
  unfold calculateOrderBookAmount
  simp only [hrem, hd, hdB, if_false, hS1, hB1]
  by_cases h1 : remainedS / (d : ℚ) = 0
  · rw [if_pos h1, if_pos h1]
  rw [if_neg h1, if_neg h1]
  by_cases h2 : remainedB / (dB : ℚ) = 0
  · rw [if_pos h2, if_pos h2]
  rw [if_neg h2, if_neg h2]
  rw [getAvailableMinAmount_eq_of_ne wenv _ _ _ _ d b l hd hlook]
  by_cases h3 : min (remainedS / (d : ℚ)) (min ((b : ℚ) / (d : ℚ)) ((l : ℚ) / (d : ℚ)))
      < dustThreshold
  · rw [if_pos h3, if_pos h3]
  rw [if_neg h3, if_neg h3]
  simp only [haS, haB, nS, nB, if_false, SetFrac, cap_eq_min]

/-- C21: whenever `calculateOrderBookAmount` succeeds on an order state (order amounts
positive, as in the data model), the sell amount returned is at most
`min(remainingS, balance, allowance)` in human units of the sell token and the buy amount
returned is at most the remaining buy amount in human units, for both values of
`BuyNoMoreThanAmountB`; the buy amount is the sell amount times `AmountB/AmountS`; with
100 remaining and an allowance of 40 the sell amount is at most 40. -/
theorem C21_amounts_capped (wenv : WalletEnv) (state : OrderState) (isAsk : Bool)
    (d dB : Int) (remainedS remainedB : ℚ) (b l orderAmountS orderAmountB : Int)
    (outS outB : ℚ)
    (hrem : wenv.RemainedAmount state = some (remainedS, remainedB))
    (hlook : wenv.GetBalanceAndAllowance state.RawOrder.Owner state.RawOrder.TokenS
      state.RawOrder.DelegateAddress = .ok (b, l))
    (haS : state.RawOrder.AmountS = some orderAmountS)
    (haB : state.RawOrder.AmountB = some orderAmountB)
    (pS : 0 < orderAmountS) (pB : 0 < orderAmountB)
    (hok : calculateOrderBookAmount wenv state isAsk (some d) (some dB)
      = some (.ok (outS, outB))) :
    outS ≤ min (remainedS / (d : ℚ)) (min ((b : ℚ) / (d : ℚ)) ((l : ℚ) / (d : ℚ)))
    ∧ outB ≤ remainedB / (dB : ℚ)
    ∧ outB = outS * ((orderAmountB : ℚ) / (orderAmountS : ℚ))
    ∧ (remainedS / (d : ℚ) = 100 → (l : ℚ) / (d : ℚ) = 40 → outS ≤ 40) := by
  have hd : d ≠ 0 := by
    intro h0
    simp [calculateOrderBookAmount, hrem, h0] at hok
  have hdB : dB ≠ 0 := by
    intro h0
    simp [calculateOrderBookAmount, hrem, hd, h0] at hok
  have hqS : (0 : ℚ) < (orderAmountS : ℚ) := by exact_mod_cast pS
  have hqB : (0 : ℚ) < (orderAmountB : ℚ) := by exact_mod_cast pB
  have hbp : (0 : ℚ) < (orderAmountB : ℚ) / (orderAmountS : ℚ) := div_pos hqB hqS
  have hsp : (0 : ℚ) < (orderAmountS : ℚ) / (orderAmountB : ℚ) := div_pos hqS hqB
  have hone : (orderAmountS : ℚ) / (orderAmountB : ℚ)
      * ((orderAmountB : ℚ) / (orderAmountS : ℚ)) = 1 := by
    field_simp
  rw [calculateOrderBookAmount_eq wenv state isAsk d dB remainedS remainedB b l
    orderAmountS orderAmountB hrem hd hdB hlook haS haB pS.ne' pB.ne'] at hok
  have hbounds : outS ≤ min (remainedS / (d : ℚ)) (min ((b : ℚ) / (d : ℚ)) ((l : ℚ) / (d : ℚ)))
      ∧ outB ≤ remainedB / (dB : ℚ)
      ∧ outB = outS * ((orderAmountB : ℚ) / (orderAmountS : ℚ)) := by
    split at hok
    · simp at hok
    split at hok
    · simp at hok
    split at hok
    · simp at hok
    split at hok
    · simp only [Option.some.injEq, Except.ok.injEq, Prod.mk.injEq] at hok
      obtain ⟨hS, hB⟩ := hok
      refine ⟨?_, ?_, ?_⟩
      · rw [← hS]
        exact min_le_left _ _
      · rw [← hB]
        calc min (min (remainedS / (d : ℚ)) (min ((b : ℚ) / (d : ℚ)) ((l : ℚ) / (d : ℚ))))
              (remainedB / (dB : ℚ) * ((orderAmountS : ℚ) / (orderAmountB : ℚ)))
              * ((orderAmountB : ℚ) / (orderAmountS : ℚ))
            ≤ remainedB / (dB : ℚ) * ((orderAmountS : ℚ) / (orderAmountB : ℚ))
              * ((orderAmountB : ℚ) / (orderAmountS : ℚ)) :=
              mul_le_mul_of_nonneg_right (min_le_right _ _) hbp.le
          _ = remainedB / (dB : ℚ) := by rw [mul_assoc, hone, mul_one]
      · rw [← hB, ← hS]
    · simp only [Option.some.injEq, Except.ok.injEq, Prod.mk.injEq] at hok
      obtain ⟨hS, hB⟩ := hok
      have hone' : (orderAmountB : ℚ) / (orderAmountS : ℚ)
          * ((orderAmountS : ℚ) / (orderAmountB : ℚ)) = 1 := by
        rw [mul_comm]
        exact hone
      refine ⟨?_, ?_, ?_⟩
      · rw [← hS]
        calc min (remainedB / (dB : ℚ))
              (min (remainedS / (d : ℚ)) (min ((b : ℚ) / (d : ℚ)) ((l : ℚ) / (d : ℚ)))
                * ((orderAmountB : ℚ) / (orderAmountS : ℚ)))
              * ((orderAmountS : ℚ) / (orderAmountB : ℚ))
            ≤ min (remainedS / (d : ℚ)) (min ((b : ℚ) / (d : ℚ)) ((l : ℚ) / (d : ℚ)))
                * ((orderAmountB : ℚ) / (orderAmountS : ℚ))
              * ((orderAmountS : ℚ) / (orderAmountB : ℚ)) :=
              mul_le_mul_of_nonneg_right (min_le_right _ _) hsp.le
          _ = min (remainedS / (d : ℚ)) (min ((b : ℚ) / (d : ℚ)) ((l : ℚ) / (d : ℚ))) := by
              rw [mul_assoc, hone', mul_one]
      · rw [← hB]
        exact min_le_left _ _
      · rw [← hS, hB, mul_assoc, hone, mul_one]
  refine ⟨hbounds.1, hbounds.2.1, hbounds.2.2, ?_⟩
  intro h100 h40
  have := hbounds.1
  rw [h100, h40] at this
  exact le_trans this (le_trans (min_le_right _ _) (min_le_right _ _))

/-- C21 at the sample state: 100 units remain, the allowance is 40, and the amounts
computed are 40 sold and 8/10^11 bought, the sell amount times `AmountB/AmountS`. -/
theorem C21_amounts_capped_witness :
    (40 : ℚ) ≤ min ((100 * 10 ^ 18 : ℚ) / ((10 ^ 18 : Int) : ℚ))
      (min (((50 * 10 ^ 18 : Int) : ℚ) / ((10 ^ 18 : Int) : ℚ))
        (((40 * 10 ^ 18 : Int) : ℚ) / ((10 ^ 18 : Int) : ℚ)))
    ∧ (8 / 100000000000 : ℚ) = 40 * (((200 * 10 ^ 6 : Int) : ℚ) / ((100 * 10 ^ 18 : Int) : ℚ)) := by
  have h := C21_amounts_capped sampleWalletEnv sampleState false (10 ^ 18) (10 ^ 6)
    (100 * 10 ^ 18) (200 * 10 ^ 6) (50 * 10 ^ 18) (40 * 10 ^ 18) (100 * 10 ^ 18)
    (200 * 10 ^ 6) 40 (8 / 100000000000)
    (by norm_num [sampleWalletEnv, sampleState, OrderState.ofOrder, pricedOrder, sampleOrder])
    rfl rfl rfl (by norm_num) (by norm_num) sampleState_amounts
  exact ⟨h.1, h.2.2.1⟩

/-! ## Theorems: order manager -/

/-- C28: `SettleOrderAmountOnChain` fails exactly when one of the two chain lookups fails
or `cancelledOrFilled < cancelled`, and then leaves the state as it was; otherwise it sets
the dealt amount to `cancelledOrFilled - cancelled`, which is not negative, and the
cancelled amount to `cancelled`, on the buy side when `BuyNoMoreThanAmountB` holds and on
the sell side otherwise, and changes nothing else. -/
theorem C28_settle_amount (menv : ManagerEnv) (state : OrderState) :
    ((SettleOrderAmountOnChain menv state).2 ≠ none ↔
        ((∃ e, menv.GetCancelled state.RawOrder.DelegateAddress state.RawOrder.Hash = .error e)
        ∨ (∃ e, menv.GetCancelledOrFilled state.RawOrder.DelegateAddress state.RawOrder.Hash
            = .error e)
        ∨ (∃ c cf, menv.GetCancelled state.RawOrder.DelegateAddress state.RawOrder.Hash = .ok c
            ∧ menv.GetCancelledOrFilled state.RawOrder.DelegateAddress state.RawOrder.Hash
              = .ok cf
            ∧ cf < c)))
    ∧ ((SettleOrderAmountOnChain menv state).2 ≠ none →
        (SettleOrderAmountOnChain menv state).1 = state)
    ∧ (∀ c cf,
        menv.GetCancelled state.RawOrder.DelegateAddress state.RawOrder.Hash = .ok c →
        menv.GetCancelledOrFilled state.RawOrder.DelegateAddress state.RawOrder.Hash = .ok cf →
        ¬ cf < c →
        (SettleOrderAmountOnChain menv state).2 = none
        ∧ 0 ≤ cf - c
        ∧ (state.RawOrder.BuyNoMoreThanAmountB = true →
            (SettleOrderAmountOnChain menv state).1
              = { state with DealtAmountB := some (cf - c), CancelledAmountB := some c })
        ∧ (state.RawOrder.BuyNoMoreThanAmountB = false →
            (SettleOrderAmountOnChain menv state).1
              = { state with DealtAmountS := some (cf - c), CancelledAmountS := some c })) := by
  rcases hc : menv.GetCancelled state.RawOrder.DelegateAddress state.RawOrder.Hash with e | c
  · simp [SettleOrderAmountOnChain, hc]
  rcases hcf : menv.GetCancelledOrFilled state.RawOrder.DelegateAddress state.RawOrder.Hash
    with e | cf
  · simp [SettleOrderAmountOnChain, hc, hcf]
  by_cases hlt : cf < c
  · simp [SettleOrderAmountOnChain, hc, hcf, hlt]
  · have hge : c ≤ cf := by omega
    by_cases hb : state.RawOrder.BuyNoMoreThanAmountB = true
    · simp [SettleOrderAmountOnChain, hc, hcf, hlt, hb, hge]
    · have hb' : state.RawOrder.BuyNoMoreThanAmountB = false := by simpa using hb
      simp [SettleOrderAmountOnChain, hc, hcf, hlt, hb', hge]

/-- C28 at a chain reporting 2 cancelled and 7 cancelled-or-filled: the sell side of the
sample state gets 5 dealt and 2 cancelled. -/
theorem C28_settle_amount_witness :
    (SettleOrderAmountOnChain (chainEnv 2 7) (storedState 0)).1
      = { storedState 0 with DealtAmountS := some (7 - 2), CancelledAmountS := some 2 } :=
  ((C28_settle_amount (chainEnv 2 7) (storedState 0)).2.2 2 7 rfl rfl (by decide)).2.2.2 rfl

/-- C29: on a state whose six amounts are present, `SettleOrderStatus` changes the status
only: to NEW when the sum of the dealt, cancelled and split amounts of both sides is at
most 0, otherwise to PARTIAL when the order value is not dust, otherwise to CANCEL when
`isCancel` is true and to FINISHED when it is false; the status is one of these four. -/
theorem C29_settle_status (menv : ManagerEnv) (state : OrderState) (isCancel : Bool)
    (cancelledS dealtS splitS cancelledB dealtB splitB : Int)
    (h1 : state.CancelledAmountS = some cancelledS) (h2 : state.DealtAmountS = some dealtS)
    (h3 : state.SplitAmountS = some splitS) (h4 : state.CancelledAmountB = some cancelledB)
    (h5 : state.DealtAmountB = some dealtB) (h6 : state.SplitAmountB = some splitB) :
    ∃ status : Nat,
      SettleOrderStatus menv state isCancel = some { state with Status := status }
      ∧ status =
          (if cancelledS + dealtS + splitS + (cancelledB + dealtB + splitB) ≤ 0 then ORDER_NEW
          else if menv.IsOrderValueDust state = false then ORDER_PARTIAL
          else if isCancel = true then ORDER_CANCEL
          else ORDER_FINISHED)
      ∧ (status = ORDER_NEW ∨ status = ORDER_PARTIAL ∨ status = ORDER_CANCEL
          ∨ status = ORDER_FINISHED) := by
  refine ⟨_, ?_, rfl, ?_⟩
  · simp only [SettleOrderStatus, h1, h2, h3, h4, h5, h6]
    split_ifs <;> rfl
  · split_ifs <;> simp

/-- C29 at the sample state with 5 dealt on the sell side and no dust: PARTIAL. -/
theorem C29_settle_status_witness :
    SettleOrderStatus (chainEnv 0 5)
        { storedState 0 with
          CancelledAmountS := some 0, DealtAmountS := some 5, SplitAmountS := some 0
          CancelledAmountB := some 0, DealtAmountB := some 0, SplitAmountB := some 0 } false
      = some { storedState 0 with
          CancelledAmountS := some 0, DealtAmountS := some 5, SplitAmountS := some 0
          CancelledAmountB := some 0, DealtAmountB := some 0, SplitAmountB := some 0
          Status := ORDER_PARTIAL } := by
  obtain ⟨status, h, hs, _⟩ := C29_settle_status (chainEnv 0 5)
    { storedState 0 with
      CancelledAmountS := some 0, DealtAmountS := some 5, SplitAmountS := some 0
      CancelledAmountB := some 0, DealtAmountB := some 0, SplitAmountB := some 0 } false
    0 5 0 0 0 0 rfl rfl rfl rfl rfl rfl
  rw [h, hs]
  rfl

/-- C26, as stated, fails: for the sample order, with a chain that reports nothing
cancelled and 5 cancelled-or-filled, the state `NewOrderEntity` builds has status PARTIAL,
not NEW. -/
theorem C26_counterexample :
    (NewOrderEntity (chainEnv 0 5) (OrderState.ofOrder sampleOrder) none).map (fun st => st.Status)
      = some ORDER_PARTIAL
    ∧ ORDER_PARTIAL ≠ ORDER_NEW := by
  constructor
  · rfl
  · decide

/-- C26, amended: `NewOrderEntity` always builds a state; its status is NEW when a chain
lookup fails, or the cancelled-or-filled amount reported is below the cancelled amount, or
it is at most 0; when the chain reports a positive cancelled-or-filled amount that is at
least the cancelled amount, the status is PARTIAL if the order value is not dust and
FINISHED if it is, the order value being judged by `IsOrderValueDust` on the state as
built, before its status is set. -/
theorem C26_initial_status (menv : ManagerEnv) (state : OrderState) (blockNumber : Option Int) :
    ∃ built, NewOrderEntity menv state blockNumber = some built
      ∧ (((∃ e, menv.GetCancelled state.RawOrder.DelegateAddress state.RawOrder.Hash
              = .error e)
          ∨ (∃ e, menv.GetCancelledOrFilled state.RawOrder.DelegateAddress state.RawOrder.Hash
              = .error e)
          ∨ (∃ c cf, menv.GetCancelled state.RawOrder.DelegateAddress state.RawOrder.Hash
                = .ok c
              ∧ menv.GetCancelledOrFilled state.RawOrder.DelegateAddress state.RawOrder.Hash
                = .ok cf
              ∧ (cf < c ∨ cf ≤ 0))) →
          built.Status = ORDER_NEW)
      ∧ (∀ c cf,
          menv.GetCancelled state.RawOrder.DelegateAddress state.RawOrder.Hash = .ok c →
          menv.GetCancelledOrFilled state.RawOrder.DelegateAddress state.RawOrder.Hash
            = .ok cf →
          c ≤ cf → 0 < cf →
          (menv.IsOrderValueDust { built with Status := state.Status } = false →
            built.Status = ORDER_PARTIAL)
          ∧ (menv.IsOrderValueDust { built with Status := state.Status } = true →
            built.Status = ORDER_FINISHED)) := by
  rcases hc : menv.GetCancelled state.RawOrder.DelegateAddress state.RawOrder.Hash with e | c
  · cases blockNumber <;>
      simp [NewOrderEntity, SettleOrderAmountOnChain, SettleOrderStatus, hc]
  rcases hcf : menv.GetCancelledOrFilled state.RawOrder.DelegateAddress state.RawOrder.Hash
    with e | cf
  · cases blockNumber <;>
      simp [NewOrderEntity, SettleOrderAmountOnChain, SettleOrderStatus, hc, hcf]
  by_cases hlt : cf < c
  · have hle : ¬ c ≤ cf := by omega
    cases blockNumber <;>
      simp [NewOrderEntity, SettleOrderAmountOnChain, SettleOrderStatus, hc, hcf, hlt, hle]
  · have hle : c ≤ cf := by omega
    by_cases h0 : cf ≤ 0
    · have h0' : ¬ 0 < cf := by omega
      cases blockNumber <;>
        by_cases hb : state.RawOrder.BuyNoMoreThanAmountB = true <;>
        simp [NewOrderEntity, SettleOrderAmountOnChain, SettleOrderStatus, hc, hcf, hlt, hle,
          hb, h0, h0']
    · have h0' : 0 < cf := by omega
      cases blockNumber <;>
        by_cases hb : state.RawOrder.BuyNoMoreThanAmountB = true <;>
        simp [NewOrderEntity, SettleOrderAmountOnChain, SettleOrderStatus, hc, hcf, hlt, hle,
          hb, h0, h0'] <;>
        split_ifs with hd <;>
        simp [hd]

/-- C26 amended, at the sample order: with a chain that reports nothing the status is
NEW; with 5 cancelled-or-filled reported it is PARTIAL when the order value is not dust
and FINISHED when it is. -/
theorem C26_initial_status_witness :
    (NewOrderEntity (chainEnv 0 0) (OrderState.ofOrder sampleOrder) none).map
        (fun st => st.Status) = some ORDER_NEW
    ∧ (NewOrderEntity (chainEnv 0 5) (OrderState.ofOrder sampleOrder) none).map
        (fun st => st.Status) = some ORDER_PARTIAL
    ∧ (NewOrderEntity (dustChainEnv 0 5) (OrderState.ofOrder sampleOrder) none).map
        (fun st => st.Status) = some ORDER_FINISHED := by
  refine ⟨?_, ?_, ?_⟩
  · obtain ⟨built, h, hnew, _⟩ :=
      C26_initial_status (chainEnv 0 0) (OrderState.ofOrder sampleOrder) none
    rw [h]
    exact congrArg some (hnew (Or.inr (Or.inr ⟨0, 0, rfl, rfl, Or.inr (le_refl 0)⟩)))
  · obtain ⟨built, h, _, hset⟩ :=
      C26_initial_status (chainEnv 0 5) (OrderState.ofOrder sampleOrder) none
    rw [h]
    exact congrArg some ((hset 0 5 rfl rfl (by decide) (by decide)).1 rfl)
  · obtain ⟨built, h, _, hset⟩ :=
      C26_initial_status (dustChainEnv 0 5) (OrderState.ofOrder sampleOrder) none
    rw [h]
    exact congrArg some ((hset 0 5 rfl rfl (by decide) (by decide)).2 rfl)

/-! ## Theorems: paging -/

/-- C30, on the code: with a store that reports 250 open orders, `getAllOrdersByOwner`
requests page 1 only, whatever fuel the loop is given, and returns the 200 orders of
that page; page 2, with the remaining 50, is never requested. -/
theorem C30_second_page_missed (fuel : Nat) :
    getAllOrdersByOwner store250 (fuel + 1)
      = some ([1], .ok (List.replicate 200 (storedState 0)))
    ∧ (2 : Int) ∉ ([1] : List Int)
    ∧ (List.replicate 200 (storedState 0)).length = 200 := by
  refine ⟨?_, by decide, List.length_replicate _ _⟩
  rfl

/-! ## Theorems: depth levels -/

/-- Looking up a key after `depthMapSet`: the value just set under its key, the old value
under any other key. -/
theorem lookup_depthMapSet (m : List (String × DepthElement)) (k key : String)
    (v : DepthElement) :
    (depthMapSet m k v).lookup key = if key = k then some v else m.lookup key := by
  unfold depthMapSet
  by_cases hk : (m.lookup k).isSome = true
  · rw [if_pos hk]
    induction m with
    | nil => simp at hk
    | cons e m ih =>
      obtain ⟨a, x⟩ := e
      by_cases ha : a = k
      · subst ha
        by_cases hkey : key = a
        · subst hkey
          simp [List.lookup_cons]
        · have hne : (key == a) = false := by simpa using hkey
          simp only [List.map_cons, if_true, List.lookup_cons, hne, hkey, if_false]
          by_cases hk' : (m.lookup a).isSome = true
          · simpa [hkey] using ih hk'
          · have hnone : m.lookup a = none := Option.not_isSome_iff_eq_none.mp hk'
            have hmap : m.map (fun e => if e.1 = a then (a, v) else e) = m := by
              rw [List.lookup_eq_none_iff] at hnone
              have hid : m.map (fun e => if e.1 = a then (a, v) else e) = m.map id := by
                apply List.map_congr_left
                intro e he
                have := hnone e he
                have hne' : ¬ e.1 = a := by
                  intro h
                  simp [h] at this
                simp [hne']
              simpa using hid
            rw [hmap]
      · have hk' : (m.lookup k).isSome = true := by
          have hne : (k == a) = false := by
            simpa using (fun h : k = a => ha h.symm)
          simpa [List.lookup_cons, hne] using hk
        have ih' := ih hk'
        simp only [List.map_cons, ha, if_false, List.lookup_cons]
        by_cases hkey : key = a
        · have hka : ¬ key = k := fun h => ha (hkey ▸ h)
          simp [hkey, hka, show ¬ a = k from ha]
        · have hne : (key == a) = false := by simpa using hkey
          simp only [hne]
          exact ih'
  · rw [if_neg hk]
    have hnone : m.lookup k = none := Option.not_isSome_iff_eq_none.mp hk
    rw [List.lookup_append]
    by_cases hkey : key = k
    · subst hkey
      simp [hnone]
    · have hne : (key == k) = false := by simpa using hkey
      simp [List.lookup_cons, hne, hkey]

/-- The keys after `depthMapSet`: unchanged when the key was there, the key added at the
end when it was not. -/
theorem keys_depthMapSet (m : List (String × DepthElement)) (k : String) (v : DepthElement) :
    (depthMapSet m k v).map Prod.fst
      = if (m.lookup k).isSome = true then m.map Prod.fst else m.map Prod.fst ++ [k] := by
  unfold depthMapSet
  by_cases hk : (m.lookup k).isSome = true
  · rw [if_pos hk, if_pos hk, List.map_map]
    apply List.map_congr_left
    intro e _
    by_cases he : e.1 = k <;> simp [he]
  · rw [if_neg hk, if_neg hk]
    simp

/-- A key has a value in the map exactly when it is among the keys. -/
theorem lookup_isSome_iff_mem_keys (m : List (String × DepthElement)) (k : String) :
    (m.lookup k).isSome = true ↔ k ∈ m.map Prod.fst := by
  induction m with
  | nil => simp
  | cons e m ih =>
    obtain ⟨a, x⟩ := e
    by_cases ha : k = a
    · subst ha
      simp [List.lookup_cons]
    · have hne : (k == a) = false := by simpa using ha
      simp [List.lookup_cons, hne, ha, ih]

/-- One turn of the depth loop, when it returns, adds the contribution of the order, or
leaves the map as it is when the order is skipped. -/
theorem depthStep_eq (wenv : WalletEnv) (isAsk : Bool) (tokenSDecimal tokenBDecimal : Option Int)
    (m : List (String × DepthElement)) (s : OrderState)
    (h : stepDefined wenv isAsk tokenSDecimal tokenBDecimal s) :
    depthStep wenv isAsk tokenSDecimal tokenBDecimal m s
      = some (match orderLevel wenv isAsk tokenSDecimal tokenBDecimal s with
              | some c => addLevel isAsk m c
              | none => m) := by
  obtain ⟨⟨price, hp, hz⟩, hc⟩ := h
  unfold depthStep orderLevel
  rw [hp]
  rcases hcalc : calculateOrderBookAmount wenv s isAsk tokenSDecimal tokenBDecimal
    with _ | (e | ⟨aS, aB⟩)
  · exact absurd hcalc hc
  · simp
  · cases isAsk
    · simp only [Bool.false_eq_true, if_false, addLevel]
      cases m.lookup (wenv.FloatString10 price) <;> rfl
    · have hne : price ≠ 0 := hz rfl
      simp only [if_true, if_neg hne, addLevel]
      cases m.lookup (wenv.FloatString10 price⁻¹) <;> rfl

/-- The depth loop, when every turn returns, is the fold of `addLevel` over the
contributions of the orders that are not skipped. -/
theorem depthLoop_eq (wenv : WalletEnv) (isAsk : Bool) (tokenSDecimal tokenBDecimal : Option Int)
    (states : List OrderState) :
    ∀ m : List (String × DepthElement),
      (∀ s ∈ states, stepDefined wenv isAsk tokenSDecimal tokenBDecimal s) →
      depthLoop wenv isAsk tokenSDecimal tokenBDecimal states m
        = some ((states.filterMap (orderLevel wenv isAsk tokenSDecimal tokenBDecimal)).foldl
            (addLevel isAsk) m) := by
  induction states with
  | nil => intro m _; rfl
  | cons s rest ih =>
    intro m h
    have hs := h s (List.mem_cons_self _ _)
    have hrest : ∀ t ∈ rest, stepDefined wenv isAsk tokenSDecimal tokenBDecimal t :=
      fun t ht => h t (List.mem_cons_of_mem _ ht)
    simp only [depthLoop, depthStep_eq wenv isAsk tokenSDecimal tokenBDecimal m s hs]
    rw [ih _ hrest]
    cases hl : orderLevel wenv isAsk tokenSDecimal tokenBDecimal s with
    | none => simp [List.filterMap_cons, hl]
    | some c => simp [List.filterMap_cons, hl]

/-- The sell total of a level after one more contribution. -/
theorem levelSell_append (levels : List (String × ℚ × ℚ)) (c : String × ℚ × ℚ) (key : String) :
    levelSell (levels ++ [c]) key = levelSell levels key + (if c.1 = key then c.2.1 else 0) := by
  unfold levelSell
  by_cases h : c.1 = key <;> simp [List.filter_append, List.filter_cons, h]

/-- The buy total of a level after one more contribution. -/
theorem levelBuy_append (levels : List (String × ℚ × ℚ)) (c : String × ℚ × ℚ) (key : String) :
    levelBuy (levels ++ [c]) key = levelBuy levels key + (if c.1 = key then c.2.2 else 0) := by
  unfold levelBuy
  by_cases h : c.1 = key <;> simp [List.filter_append, List.filter_cons, h]

/-- A level no contribution goes to has the totals zero. -/
theorem level_absent (levels : List (String × ℚ × ℚ)) (key : String)
    (h : ¬ ∃ c ∈ levels, c.1 = key) :
    levelSell levels key = 0 ∧ levelBuy levels key = 0 := by
  have hf : levels.filter (fun c => decide (c.1 = key)) = [] := by
    rw [List.filter_eq_nil_iff]
    intro c hc
    simp only [decide_eq_true_eq]
    exact fun hk => h ⟨c, hc, hk⟩
  simp [levelSell, levelBuy, hf]

/-- The empty map holds the levels of no contributions. -/
theorem holdsLevels_nil (isAsk : Bool) : holdsLevels isAsk [] [] := by
  refine ⟨by simp, by simp, ?_⟩
  intro key v h
  simp at h

/-- Adding one contribution to a map that holds the levels of `levels` gives a map that
holds the levels of `levels ++ [c]`. -/
theorem holdsLevels_addLevel (isAsk : Bool) (m : List (String × DepthElement))
    (levels : List (String × ℚ × ℚ)) (c : String × ℚ × ℚ) (h : holdsLevels isAsk m levels) :
    holdsLevels isAsk (addLevel isAsk m c) (levels ++ [c]) := by
  obtain ⟨hnd, hkeys, hval⟩ := h
  rcases hl : m.lookup c.1 with _ | v0
  · have hnot : c.1 ∉ m.map Prod.fst := by
      intro hmem
      have := (lookup_isSome_iff_mem_keys m c.1).2 hmem
      rw [hl] at this
      simp at this
    have habs := level_absent levels c.1 (fun hex => hnot ((hkeys c.1).2 hex))
    have hk : (addLevel isAsk m c).map Prod.fst = m.map Prod.fst ++ [c.1] := by
      simp only [addLevel, hl, keys_depthMapSet]
      simp
    refine ⟨?_, ?_, ?_⟩
    · rw [hk]
      exact List.Nodup.append hnd (List.nodup_singleton _) (by simpa using hnot)
    · intro key
      rw [hk]
      constructor
      · intro hmem
        rcases List.mem_append.1 hmem with hm | hm
        · obtain ⟨c', hc', hk'⟩ := (hkeys key).1 hm
          exact ⟨c', List.mem_append_left _ hc', hk'⟩
        · exact ⟨c, by simp, (List.mem_singleton.1 hm).symm⟩
      · rintro ⟨c', hc', hk'⟩
        rcases List.mem_append.1 hc' with hm | hm
        · exact List.mem_append_left _ ((hkeys key).2 ⟨c', hm, hk'⟩)
        · have : c' = c := List.mem_singleton.1 hm
          subst this
          simp [hk']
    · intro key v hv
      simp only [addLevel, hl, lookup_depthMapSet] at hv
      rw [levelSell_append, levelBuy_append]
      by_cases hkey : key = c.1
      · rw [if_pos hkey] at hv
        have hv' := (Option.some.inj hv).symm
        subst hv'
        subst hkey
        cases isAsk <;> simp [habs.1, habs.2]
      · rw [if_neg hkey] at hv
        have hck : ¬ c.1 = key := fun h => hkey h.symm
        simpa [hck] using hval key v hv
  · have hmem : c.1 ∈ m.map Prod.fst :=
      (lookup_isSome_iff_mem_keys m c.1).1 (by rw [hl]; rfl)
    have hk : (addLevel isAsk m c).map Prod.fst = m.map Prod.fst := by
      simp only [addLevel, hl, keys_depthMapSet]
      simp
    obtain ⟨hp0, ha0, hs0⟩ := hval c.1 v0 hl
    refine ⟨by rw [hk]; exact hnd, ?_, ?_⟩
    · intro key
      rw [hk]
      constructor
      · intro hm
        obtain ⟨c', hc', hk'⟩ := (hkeys key).1 hm
        exact ⟨c', List.mem_append_left _ hc', hk'⟩
      · rintro ⟨c', hc', hk'⟩
        rcases List.mem_append.1 hc' with hm | hm
        · exact (hkeys key).2 ⟨c', hm, hk'⟩
        · have : c' = c := List.mem_singleton.1 hm
          subst this
          rw [← hk']
          exact hmem
    · intro key v hv
      simp only [addLevel, hl, lookup_depthMapSet] at hv
      rw [levelSell_append, levelBuy_append]
      by_cases hkey : key = c.1
      · rw [if_pos hkey] at hv
        have hv' := (Option.some.inj hv).symm
        subst hv'
        subst hkey
        cases isAsk <;> simp [hp0, ha0, hs0]
      · rw [if_neg hkey] at hv
        have hck : ¬ c.1 = key := fun h => hkey h.symm
        simpa [hck] using hval key v hv

/-- Folding `addLevel` over more contributions keeps the map holding the levels of all
contributions so far. -/
theorem holdsLevels_foldl (isAsk : Bool) (more : List (String × ℚ × ℚ)) :
    ∀ (m : List (String × DepthElement)) (levels : List (String × ℚ × ℚ)),
      holdsLevels isAsk m levels →
      holdsLevels isAsk (more.foldl (addLevel isAsk) m) (levels ++ more) := by
  induction more with
  | nil => intro m levels h; simpa using h
  | cons c rest ih =>
    intro m levels h
    have := ih (addLevel isAsk m c) (levels ++ [c]) (holdsLevels_addLevel isAsk m levels c h)
    simpa using this

/-- The turn of the depth loop on the sample state returns. -/
theorem sampleState_stepDefined :
    stepDefined sampleWalletEnv false (some (10 ^ 18)) (some (10 ^ 6)) sampleState := by
  refine ⟨⟨1 / 10000000000, rfl, fun h => by cases h⟩, ?_⟩
  rw [sampleState_amounts]
  simp

/-- The contribution of the sample state: the level of its rendered price, 40 sold and
8/10^11 bought. -/
theorem sampleState_level :
    orderLevel sampleWalletEnv false (some (10 ^ 18)) (some (10 ^ 6)) sampleState
      = some (sampleWalletEnv.FloatString10 (1 / 10000000000), 40, 8 / 100000000000) := by
  unfold orderLevel
  rw [sampleState_amounts]
  rfl

/-- C22: when every turn of the loop of `calculateDepth` returns, the map it has built
before sorting and truncation has exactly one level per distinct rendered price string
among the orders that `calculateOrderBookAmount` does not skip, the string being
`FloatString(10)` of `1/Price` for asks and of `Price` for bids; the level carries that
string, and its two totals are the exact sums, over the orders with that string, of the
capped sell amounts and of the capped buy amounts (asks: `Amount` sells and `Size` buys;
bids the other way round). The rows of `calculateDepth` are made from this map. -/
theorem C22_depth_levels (wenv : WalletEnv) (rt : DepthRuntime) (isAsk : Bool)
    (tokenSDecimal tokenBDecimal : Option Int) (states : List OrderState) (length : Int)
    (hdef : ∀ s ∈ states, stepDefined wenv isAsk tokenSDecimal tokenBDecimal s) :
    ∃ depthMap,
      depthLoop wenv isAsk tokenSDecimal tokenBDecimal states [] = some depthMap
      ∧ (states ≠ [] →
          calculateDepth wenv rt states length isAsk tokenSDecimal tokenBDecimal
            = truncateRows isAsk length (sortSlice (priceLess rt) (depthRows rt depthMap)))
      ∧ (depthMap.map Prod.fst).Nodup
      ∧ (∀ key, key ∈ depthMap.map Prod.fst ↔
          ∃ s ∈ states, ∃ price minAmountS minAmountB,
            s.RawOrder.Price = some price
            ∧ calculateOrderBookAmount wenv s isAsk tokenSDecimal tokenBDecimal
                = some (.ok (minAmountS, minAmountB))
            ∧ key = wenv.FloatString10 (if isAsk = true then price⁻¹ else price))
      ∧ (∀ key ∈ depthMap.map Prod.fst, ∃ v, depthMap.lookup key = some v)
      ∧ (∀ key v, depthMap.lookup key = some v →
          v.Price = key
          ∧ v.Amount
              = (if isAsk = true
                  then levelSell
                    (states.filterMap (orderLevel wenv isAsk tokenSDecimal tokenBDecimal)) key
                  else levelBuy
                    (states.filterMap (orderLevel wenv isAsk tokenSDecimal tokenBDecimal)) key)
          ∧ v.Size
              = (if isAsk = true
                  then levelBuy
                    (states.filterMap (orderLevel wenv isAsk tokenSDecimal tokenBDecimal)) key
                  else levelSell
                    (states.filterMap (orderLevel wenv isAsk tokenSDecimal tokenBDecimal)) key)) := by
  have hloop := depthLoop_eq wenv isAsk tokenSDecimal tokenBDecimal states [] hdef
  have hinv := holdsLevels_foldl isAsk
    (states.filterMap (orderLevel wenv isAsk tokenSDecimal tokenBDecimal)) [] []
    (holdsLevels_nil isAsk)
  rw [List.nil_append] at hinv
  obtain ⟨hnd, hkeys, hval⟩ := hinv
  refine ⟨_, hloop, ?_, hnd, ?_, ?_, hval⟩
  · intro hne
    have hlen : ¬ states.length = 0 := fun h => hne (List.length_eq_zero.1 h)
    simp only [calculateDepth, if_neg hlen, hloop]
  · intro key
    rw [hkeys key]
    constructor
    · rintro ⟨c, hc, hk⟩
      obtain ⟨s, hs, hsl⟩ := List.mem_filterMap.1 hc
      refine ⟨s, hs, ?_⟩
      unfold orderLevel at hsl
      rcases hp : s.RawOrder.Price with _ | price
      · simp [hp] at hsl
      · rcases hcalc : calculateOrderBookAmount wenv s isAsk tokenSDecimal tokenBDecimal
          with _ | (e | ⟨aS, aB⟩)
        · simp [hp, hcalc] at hsl
        · simp [hp, hcalc] at hsl
        · simp only [hp, hcalc, Option.some.injEq] at hsl
          refine ⟨price, aS, aB, rfl, rfl, ?_⟩
          rw [← hk, ← hsl]
    · rintro ⟨s, hs, price, aS, aB, hp, hcalc, hk⟩
      refine ⟨(key, aS, aB), List.mem_filterMap.2 ⟨s, hs, ?_⟩, rfl⟩
      simp only [orderLevel, hp, hcalc, hk]
  · intro key hmem
    have := (lookup_isSome_iff_mem_keys _ key).2 hmem
    exact Option.isSome_iff_exists.1 this

/-- C22 at two sample states with the same price: they share one level, which holds the
sum of both, 8/10^11 + 8/10^11 bought and 40 + 40 sold. -/
theorem C22_depth_levels_witness :
    ∃ depthMap,
      depthLoop sampleWalletEnv false (some (10 ^ 18)) (some (10 ^ 6))
        [sampleState, sampleState] [] = some depthMap
      ∧ depthMap.map Prod.fst = [sampleWalletEnv.FloatString10 (1 / 10000000000)]
      ∧ ∃ v, depthMap.lookup (sampleWalletEnv.FloatString10 (1 / 10000000000)) = some v
          ∧ v.Amount = 8 / 100000000000 + 8 / 100000000000 ∧ v.Size = 40 + 40 := by
  obtain ⟨m, hloop, _, hnd, hkeys, hsome, hval⟩ :=
    C22_depth_levels sampleWalletEnv sampleRuntime false (some (10 ^ 18)) (some (10 ^ 6))
      [sampleState, sampleState] 10
      (by
        intro s hs
        have : s = sampleState := by simpa using hs
        rw [this]
        exact sampleState_stepDefined)
  have hmem : sampleWalletEnv.FloatString10 (1 / 10000000000) ∈ m.map Prod.fst :=
    (hkeys _).2 ⟨sampleState, by simp, 1 / 10000000000, 40, 8 / 100000000000, rfl,
      sampleState_amounts, rfl⟩
  have hall : ∀ key ∈ m.map Prod.fst, key = sampleWalletEnv.FloatString10 (1 / 10000000000) := by
    intro key hk
    obtain ⟨s, hs, price, aS, aB, hp, _, hkey⟩ := (hkeys key).1 hk
    have : s = sampleState := by simpa using hs
    subst this
    have hprice : price = 1 / 10000000000 := (Option.some.inj hp).symm
    rw [hkey, hprice]
    rfl
  obtain ⟨v, hv⟩ := hsome _ hmem
  refine ⟨m, hloop, ?_, v, hv, ?_⟩
  · rcases hm : m.map Prod.fst with _ | ⟨a, rest⟩
    · rw [hm] at hmem
      simp at hmem
    · rw [hm] at hnd hall
      have ha := hall a (by simp)
      rcases rest with _ | ⟨b, rest⟩
      · rw [ha]
      · have hb := hall b (by simp)
        rw [ha, hb] at hnd
        simp at hnd
  · have h := hval _ v hv
    simp only [List.filterMap_cons, sampleState_level, List.filterMap_nil, Bool.false_eq_true,
      if_false] at h
    refine ⟨?_, ?_⟩
    · rw [h.2.1]
      simp [levelBuy]
    · rw [h.2.2]
      simp [levelSell]

/-! ## Theorems: sorting and truncation of the depth rows -/

/-- The truncation for a length that is not negative: all rows when there are no more than
`n`, otherwise the first `n` for bids and the rows from index `len - n - 1` for asks. -/
theorem truncateRows_eq {α : Type} (isAsk : Bool) (n : Nat) (rows : List α) :
    truncateRows isAsk (n : Int) rows
      = some (if rows.length ≤ n then rows
              else if isAsk = true then rows.drop (rows.length - n - 1) else rows.take n) := by
  unfold truncateRows
  by_cases h : rows.length ≤ n
  · have h' : ¬ (rows.length : Int) > (n : Int) := by omega
    rw [if_neg h', if_pos h]
  · have h' : (rows.length : Int) > (n : Int) := by omega
    rw [if_pos h', if_neg h]
    cases isAsk
    · have hn : ¬ ((n : Int) < 0) := by omega
      simp only [Bool.false_eq_true, if_false, if_neg hn, Int.toNat_ofNat]
    · have hb : ¬ ((rows.length : Int) - n - 1 < 0 ∨ (rows.length : Int) - n - 1 > rows.length) := by
        omega
      have ht : ((rows.length : Int) - n - 1).toNat = rows.length - n - 1 := by omega
      simp only [if_true, if_neg hb, ht]

/-- The rows `calculateDepth` returns are the truncation of the sorted rows. -/
theorem calculateDepth_eq (wenv : WalletEnv) (rt : DepthRuntime) (states : List OrderState)
    (length : Int) (isAsk : Bool) (tokenSDecimal tokenBDecimal : Option Int)
    (levels : List (List String))
    (h : depthLevels wenv rt states isAsk tokenSDecimal tokenBDecimal = some levels) :
    calculateDepth wenv rt states length isAsk tokenSDecimal tokenBDecimal
      = if states.length = 0 then some [] else truncateRows isAsk length levels := by
  unfold depthLevels at h
  unfold calculateDepth
  by_cases h0 : states.length = 0
  · rw [if_pos h0, if_pos h0]
  · rw [if_neg h0] at h
    rw [if_neg h0, if_neg h0]
    rcases hl : depthLoop wenv isAsk tokenSDecimal tokenBDecimal states [] with _ | m
    · rw [hl] at h
      simp at h
    · rw [hl] at h
      simp only [Option.map_some', Option.some.injEq] at h
      simp only [h]

/-- The sorted rows exist when every turn of the loop returns. -/
theorem depthLevels_defined (wenv : WalletEnv) (rt : DepthRuntime) (states : List OrderState)
    (isAsk : Bool) (tokenSDecimal tokenBDecimal : Option Int)
    (hdef : ∀ s ∈ states, stepDefined wenv isAsk tokenSDecimal tokenBDecimal s) :
    ∃ levels, depthLevels wenv rt states isAsk tokenSDecimal tokenBDecimal = some levels
      ∧ (states.length = 0 → levels = [])
      ∧ (states.length ≠ 0 → ∃ l, levels = sortSlice (priceLess rt) l) := by
  unfold depthLevels
  by_cases h0 : states.length = 0
  · rw [if_pos h0]
    exact ⟨[], rfl, fun _ => rfl, fun h => absurd h0 h⟩
  · rw [if_neg h0, depthLoop_eq wenv isAsk tokenSDecimal tokenBDecimal states [] hdef]
    exact ⟨_, rfl, fun h => absurd h h0, fun _ => ⟨_, rfl⟩⟩

/-- The model of `sort.Slice` with the comparison of `calculateDepth` returns the rows in
non-increasing order of price. -/
theorem sortSlice_descending (rt : DepthRuntime) (l : List (List String)) :
    (sortSlice (priceLess rt) l).Pairwise (fun a b => rowPrice rt b ≤ rowPrice rt a) := by
  haveI : IsTotal (List String) (fun a b => priceLess rt b a = false) :=
    ⟨fun a b => by
      simp only [priceLess, decide_eq_false_iff_not, not_lt, gt_iff_lt]
      exact le_total _ _⟩
  haveI : IsTrans (List String) (fun a b => priceLess rt b a = false) :=
    ⟨fun a b c hab hbc => by
      simp only [priceLess, decide_eq_false_iff_not, not_lt, gt_iff_lt] at hab hbc ⊢
      exact le_trans hbc hab⟩
  have hsorted : (sortSlice (priceLess rt) l).Pairwise (fun a b => priceLess rt b a = false) :=
    List.sorted_insertionSort (fun a b => priceLess rt b a = false) l
  refine List.Pairwise.imp ?_ hsorted
  intro a b hab
  simpa [priceLess] using hab

/-- The model of `sort.Slice` returns the rows it is given, in some order. -/
theorem sortSlice_perm (rt : DepthRuntime) (l : List (List String)) :
    (sortSlice (priceLess rt) l).Perm l :=
  List.perm_insertionSort _ l

/-- The sorted rows are in non-increasing order of price. -/
theorem depthLevels_descending (wenv : WalletEnv) (rt : DepthRuntime)
    (states : List OrderState) (isAsk : Bool) (tokenSDecimal tokenBDecimal : Option Int)
    (levels : List (List String))
    (h : depthLevels wenv rt states isAsk tokenSDecimal tokenBDecimal = some levels) :
    levels.Pairwise (fun a b => rowPrice rt b ≤ rowPrice rt a) := by
  unfold depthLevels at h
  by_cases h0 : states.length = 0
  · rw [if_pos h0] at h
    rw [← Option.some.inj h]
    exact List.Pairwise.nil
  · rw [if_neg h0] at h
    rcases hl : depthLoop wenv isAsk tokenSDecimal tokenBDecimal states [] with _ | m
    · rw [hl] at h
      simp at h
    · rw [hl] at h
      simp only [Option.map_some', Option.some.injEq] at h
      rw [← h]
      exact sortSlice_descending rt _

/-- In a list in non-increasing order of price, no row after a cut has a higher price than
a row before it. -/
theorem descending_cut (rt : DepthRuntime) (levels : List (List String)) (k : Nat)
    (h : levels.Pairwise (fun a b => rowPrice rt b ≤ rowPrice rt a)) :
    ∀ a ∈ levels.take k, ∀ b ∈ levels.drop k, rowPrice rt b ≤ rowPrice rt a := by
  rw [← List.take_append_drop k levels] at h
  exact (List.pairwise_append.1 h).2.2

/-! ## Theorems: the two sample states -/

/-- The amounts computed for the low-priced sample state, on either side. -/
theorem bookStateLow_amounts (isAsk : Bool) :
    calculateOrderBookAmount sampleWalletEnv bookStateLow isAsk (some (10 ^ 18)) (some (10 ^ 6))
      = some (.ok (40, 8 / 100000000000)) := by
  simp only [calculateOrderBookAmount, getAvailableMinAmount, sampleWalletEnv, bookStateLow,
    sampleState, OrderState.ofOrder, pricedOrder, sampleOrder, SetFrac]
  norm_num [dustThreshold]

/-- The amounts computed for the high-priced sample state, on either side. -/
theorem bookStateHigh_amounts (isAsk : Bool) :
    calculateOrderBookAmount sampleWalletEnv bookStateHigh isAsk (some (10 ^ 18)) (some (10 ^ 6))
      = some (.ok (40, 4 / 100000000000)) := by
  simp only [calculateOrderBookAmount, getAvailableMinAmount, sampleWalletEnv, bookStateHigh,
    sampleState, OrderState.ofOrder, pricedOrder, sampleOrder, SetFrac]
  norm_num [dustThreshold]

/-- The sample rendering of 1/2 with ten decimals. -/
theorem sample_render_half : sampleWalletEnv.FloatString10 (1 / 2) = "0.5000000000" := by
  have hf : ⌊(1 / 2 : ℚ) * 10000000000 + 1 / 2⌋ = 5000000000 := by
    rw [Int.floor_eq_iff]
    norm_num
  have hr : renderFixed 10 5000000000 = "0.5000000000" := by decide
  simp only [sampleWalletEnv, hf, hr]

/-- The sample rendering of 1 with ten decimals. -/
theorem sample_render_one : sampleWalletEnv.FloatString10 1 = "1.0000000000" := by
  have hf : ⌊(1 : ℚ) * 10000000000 + 1 / 2⌋ = 10000000000 := by
    rw [Int.floor_eq_iff]
    norm_num
  have hr : renderFixed 10 10000000000 = "1.0000000000" := by decide
  simp only [sampleWalletEnv, hf, hr]

/-- The sample parser reads `0.5000000000` as 1/2. -/
theorem sample_parse_half : parseDecimal "0.5000000000" = 1 / 2 := by
  have h1 : decimalDigits "0.5000000000" = 5000000000 := by decide
  have h2 : decimalPlaces "0.5000000000" = 10 := by decide
  rw [parseDecimal, h1, h2]
  norm_num

/-- The sample parser reads `1.0000000000` as 1. -/
theorem sample_parse_one : parseDecimal "1.0000000000" = 1 := by
  have h1 : decimalDigits "1.0000000000" = 10000000000 := by decide
  have h2 : decimalPlaces "1.0000000000" = 10 := by decide
  rw [parseDecimal, h1, h2]
  norm_num

/-- Every turn of the depth loop on the two sample bids returns. -/
theorem bookStates_stepDefined :
    ∀ s ∈ [bookStateLow, bookStateHigh],
      stepDefined sampleWalletEnv false (some (10 ^ 18)) (some (10 ^ 6)) s := by
  intro s hs
  simp only [List.mem_cons, List.mem_singleton, List.not_mem_nil, or_false] at hs
  rcases hs with hs | hs
  · rw [hs]
    refine ⟨⟨1 / 2, rfl, fun h => by cases h⟩, ?_⟩
    rw [bookStateLow_amounts]
    simp
  · rw [hs]
    refine ⟨⟨1, rfl, fun h => by cases h⟩, ?_⟩
    rw [bookStateHigh_amounts]
    simp

/-- The depth map of the two sample bids: one level at `0.5000000000`, one at
`1.0000000000`, in the order of the states. -/
theorem sample_depthMap :
    depthLoop sampleWalletEnv false (some (10 ^ 18)) (some (10 ^ 6))
        [bookStateLow, bookStateHigh] []
      = some [("0.5000000000", ⟨"0.5000000000", 40, 8 / 100000000000⟩),
          ("1.0000000000", ⟨"1.0000000000", 40, 4 / 100000000000⟩)] := by
  have hlow : orderLevel sampleWalletEnv false (some (10 ^ 18)) (some (10 ^ 6)) bookStateLow
      = some ("0.5000000000", 40, 8 / 100000000000) := by
    unfold orderLevel
    rw [bookStateLow_amounts, ← sample_render_half]
    rfl
  have hhigh : orderLevel sampleWalletEnv false (some (10 ^ 18)) (some (10 ^ 6)) bookStateHigh
      = some ("1.0000000000", 40, 4 / 100000000000) := by
    unfold orderLevel
    rw [bookStateHigh_amounts, ← sample_render_one]
    rfl
  rw [depthLoop_eq sampleWalletEnv false (some (10 ^ 18)) (some (10 ^ 6))
    [bookStateLow, bookStateHigh] [] bookStates_stepDefined]
  simp only [List.filterMap_cons, hlow, hhigh, List.filterMap_nil]
  rfl

/-- The sorted rows of the two sample bids: the level at `1.0000000000` comes first, the
level at `0.5000000000` second, the reverse of the order of the states. -/
theorem sample_levels :
    depthLevels sampleWalletEnv sampleRuntime [bookStateLow, bookStateHigh] false
        (some (10 ^ 18)) (some (10 ^ 6))
      = some [["1.0000000000", sampleRuntime.FormatFloat10 (4 / 100000000000),
            sampleRuntime.FormatFloat10 40],
          ["0.5000000000", sampleRuntime.FormatFloat10 (8 / 100000000000),
            sampleRuntime.FormatFloat10 40]] := by
  have hless : priceLess sampleRuntime
      ["1.0000000000", sampleRuntime.FormatFloat10 (4 / 100000000000),
        sampleRuntime.FormatFloat10 40]
      ["0.5000000000", sampleRuntime.FormatFloat10 (8 / 100000000000),
        sampleRuntime.FormatFloat10 40] = true := by
    have h1 : sampleRuntime.ParseFloat "1.0000000000" = 1 := sample_parse_one
    have h2 : sampleRuntime.ParseFloat "0.5000000000" = 1 / 2 := sample_parse_half
    simp only [priceLess, rowPrice, List.headD_cons, h1, h2]
    norm_num
  have hlen : ¬ [bookStateLow, bookStateHigh].length = 0 := by simp
  unfold depthLevels
  rw [if_neg hlen, sample_depthMap]
  have hrows : depthRows sampleRuntime
      [("0.5000000000", ⟨"0.5000000000", 40, 8 / 100000000000⟩),
        ("1.0000000000", ⟨"1.0000000000", 40, 4 / 100000000000⟩)]
      = [["0.5000000000", sampleRuntime.FormatFloat10 (8 / 100000000000),
            sampleRuntime.FormatFloat10 40],
          ["1.0000000000", sampleRuntime.FormatFloat10 (4 / 100000000000),
            sampleRuntime.FormatFloat10 40]] := rfl
  rw [Option.map_some', hrows]
  simp only [sortSlice, List.insertionSort, List.orderedInsert, hless, Bool.true_eq_false,
    if_false]

/-! ## Theorems: order of the depth rows and their truncation -/

/-- C23: for asks and for bids alike, when every turn of the loop returns and the
requested length is not negative, `calculateDepth` returns rows, and they are in
non-increasing order of the parsed value of their price string. -/
theorem C23_rows_descending (wenv : WalletEnv) (rt : DepthRuntime) (states : List OrderState)
    (length : Int) (isAsk : Bool) (tokenSDecimal tokenBDecimal : Option Int)
    (hdef : ∀ s ∈ states, stepDefined wenv isAsk tokenSDecimal tokenBDecimal s)
    (hlen : 0 ≤ length) :
    ∃ rows, calculateDepth wenv rt states length isAsk tokenSDecimal tokenBDecimal = some rows
      ∧ rows.Pairwise (fun a b => rowPrice rt b ≤ rowPrice rt a) := by
  obtain ⟨levels, hlev, _, _⟩ :=
    depthLevels_defined wenv rt states isAsk tokenSDecimal tokenBDecimal hdef
  have hpw := depthLevels_descending wenv rt states isAsk tokenSDecimal tokenBDecimal levels
    hlev
  rw [calculateDepth_eq wenv rt states length isAsk tokenSDecimal tokenBDecimal levels hlev]
  by_cases h0 : states.length = 0
  · rw [if_pos h0]
    exact ⟨[], rfl, List.Pairwise.nil⟩
  · rw [if_neg h0]
    obtain ⟨n, hn⟩ := Int.eq_ofNat_of_zero_le hlen
    rw [hn, truncateRows_eq]
    refine ⟨_, rfl, ?_⟩
    split_ifs
    · exact hpw
    · exact hpw.sublist (List.drop_sublist _ _)
    · exact hpw.sublist (List.take_sublist _ _)

/-- C23 at the two sample bids, given with the lower price first: the rows come back with
the higher price first, `1.0000000000` then `0.5000000000`. -/
theorem C23_rows_descending_witness :
    calculateDepth sampleWalletEnv sampleRuntime [bookStateLow, bookStateHigh] 10 false
        (some (10 ^ 18)) (some (10 ^ 6))
      = some [["1.0000000000", sampleRuntime.FormatFloat10 (4 / 100000000000),
            sampleRuntime.FormatFloat10 40],
          ["0.5000000000", sampleRuntime.FormatFloat10 (8 / 100000000000),
            sampleRuntime.FormatFloat10 40]]
    ∧ List.Pairwise (fun a b => rowPrice sampleRuntime b ≤ rowPrice sampleRuntime a)
        [["1.0000000000", sampleRuntime.FormatFloat10 (4 / 100000000000),
            sampleRuntime.FormatFloat10 40],
          ["0.5000000000", sampleRuntime.FormatFloat10 (8 / 100000000000),
            sampleRuntime.FormatFloat10 40]] := by
  obtain ⟨rows, hrows, hpw⟩ :=
    C23_rows_descending sampleWalletEnv sampleRuntime [bookStateLow, bookStateHigh] 10 false
      (some (10 ^ 18)) (some (10 ^ 6)) bookStates_stepDefined (by decide)
  have hcalc : calculateDepth sampleWalletEnv sampleRuntime [bookStateLow, bookStateHigh] 10
      false (some (10 ^ 18)) (some (10 ^ 6))
      = some [["1.0000000000", sampleRuntime.FormatFloat10 (4 / 100000000000),
            sampleRuntime.FormatFloat10 40],
          ["0.5000000000", sampleRuntime.FormatFloat10 (8 / 100000000000),
            sampleRuntime.FormatFloat10 40]] := by
    rw [calculateDepth_eq sampleWalletEnv sampleRuntime [bookStateLow, bookStateHigh] 10 false
      (some (10 ^ 18)) (some (10 ^ 6)) _ sample_levels]
    rfl
  rw [hcalc] at hrows
  rw [← Option.some.inj hrows] at hpw
  exact ⟨hcalc, hpw⟩

/-- C24: for a requested length `n` that is not negative, with `levels` the sorted rows
(`L` of them): when `L ≤ n`, `calculateDepth` returns them all; when `L > n` it returns for
bids exactly the first `n`, none of which has a lower price than a row left out, and for
asks exactly the rows from index `L - n - 1` on, which is a valid index, `n + 1` rows,
none of which has a higher price than a row left out. -/
theorem C24_truncation (wenv : WalletEnv) (rt : DepthRuntime) (states : List OrderState)
    (n : Nat) (isAsk : Bool) (tokenSDecimal tokenBDecimal : Option Int)
    (hdef : ∀ s ∈ states, stepDefined wenv isAsk tokenSDecimal tokenBDecimal s) :
    ∃ levels, depthLevels wenv rt states isAsk tokenSDecimal tokenBDecimal = some levels
      ∧ (levels.length ≤ n →
          calculateDepth wenv rt states (n : Int) isAsk tokenSDecimal tokenBDecimal
            = some levels)
      ∧ (n < levels.length → isAsk = false →
          calculateDepth wenv rt states (n : Int) isAsk tokenSDecimal tokenBDecimal
            = some (levels.take n)
          ∧ (levels.take n).length = n
          ∧ ∀ a ∈ levels.take n, ∀ b ∈ levels.drop n, rowPrice rt b ≤ rowPrice rt a)
      ∧ (n < levels.length → isAsk = true →
          calculateDepth wenv rt states (n : Int) isAsk tokenSDecimal tokenBDecimal
            = some (levels.drop (levels.length - n - 1))
          ∧ (levels.drop (levels.length - n - 1)).length = n + 1
          ∧ 0 ≤ (levels.length : Int) - (n : Int) - 1
          ∧ (levels.length : Int) - (n : Int) - 1 < (levels.length : Int)
          ∧ ∀ a ∈ levels.take (levels.length - n - 1),
              ∀ b ∈ levels.drop (levels.length - n - 1), rowPrice rt b ≤ rowPrice rt a) := by
  obtain ⟨levels, hlev, hnil, _⟩ :=
    depthLevels_defined wenv rt states isAsk tokenSDecimal tokenBDecimal hdef
  have hpw := depthLevels_descending wenv rt states isAsk tokenSDecimal tokenBDecimal levels
    hlev
  have hcalc := calculateDepth_eq wenv rt states (n : Int) isAsk tokenSDecimal tokenBDecimal
    levels hlev
  rw [truncateRows_eq] at hcalc
  refine ⟨levels, hlev, ?_, ?_, ?_⟩
  · intro hle
    rw [hcalc, if_pos hle]
    by_cases h0 : states.length = 0
    · rw [if_pos h0, hnil h0]
    · rw [if_neg h0]
  · intro hlt hbid
    have h0 : ¬ states.length = 0 := by
      intro h0
      rw [hnil h0] at hlt
      simp at hlt
    have hle : ¬ levels.length ≤ n := by omega
    refine ⟨?_, ?_, descending_cut rt levels n hpw⟩
    · rw [hcalc, if_neg h0, if_neg hle, hbid]
      simp
    · rw [List.length_take]
      omega
  · intro hlt hask
    have h0 : ¬ states.length = 0 := by
      intro h0
      rw [hnil h0] at hlt
      simp at hlt
    have hle : ¬ levels.length ≤ n := by omega
    refine ⟨?_, ?_, by omega, by omega, descending_cut rt levels _ hpw⟩
    · rw [hcalc, if_neg h0, if_neg hle, if_pos hask]
    · rw [List.length_drop]
      omega

/-- C24 at the two sample bids with length 1: of the two levels only the first, the
higher price, is returned. -/
theorem C24_truncation_witness :
    calculateDepth sampleWalletEnv sampleRuntime [bookStateLow, bookStateHigh] (1 : Nat)
        false (some (10 ^ 18)) (some (10 ^ 6))
      = some [["1.0000000000", sampleRuntime.FormatFloat10 (4 / 100000000000),
            sampleRuntime.FormatFloat10 40]] := by
  obtain ⟨levels, hlev, _, hbid, _⟩ :=
    C24_truncation sampleWalletEnv sampleRuntime [bookStateLow, bookStateHigh] 1 false
      (some (10 ^ 18)) (some (10 ^ 6)) bookStates_stepDefined
  rw [sample_levels] at hlev
  rw [← Option.some.inj hlev] at hbid
  exact (hbid (by decide) rfl).1

/-! ## Theorems: the unmerged order book -/

/-- One turn of the order-book loop, when it returns, appends the row of the order, or
leaves the rows as they are when the order is skipped. -/
theorem bookStep_eq (wenv : WalletEnv) (isAsk : Bool) (tokenSDecimal tokenBDecimal : Option Int)
    (elements : List OrderBookElement) (s : OrderState)
    (h : bookStepDefined wenv isAsk tokenSDecimal tokenBDecimal s) :
    bookStep wenv isAsk tokenSDecimal tokenBDecimal elements s
      = some (match bookRow wenv isAsk tokenSDecimal tokenBDecimal s with
              | some row => elements ++ [row]
              | none => elements) := by
  obtain ⟨⟨o, price, hh, hz⟩, hc⟩ := h
  unfold bookStep bookRow
  rw [hh]
  rcases hcalc : calculateOrderBookAmount wenv s isAsk tokenSDecimal tokenBDecimal
    with _ | (e | ⟨aS, aB⟩)
  · exact absurd hcalc hc
  · simp
  · cases isAsk
    · simp
    · have hne : price ≠ 0 := hz rfl
      simp [hne]

/-- The order-book loop, when every turn returns, appends the rows of the orders that are
not skipped, in the order of the states. -/
theorem bookLoop_eq (wenv : WalletEnv) (isAsk : Bool) (tokenSDecimal tokenBDecimal : Option Int)
    (states : List OrderState) :
    ∀ elements : List OrderBookElement,
      (∀ s ∈ states, bookStepDefined wenv isAsk tokenSDecimal tokenBDecimal s) →
      bookLoop wenv isAsk tokenSDecimal tokenBDecimal states elements
        = some (elements
            ++ states.filterMap (bookRow wenv isAsk tokenSDecimal tokenBDecimal)) := by
  induction states with
  | nil => intro elements _; simp [bookLoop]
  | cons s rest ih =>
    intro elements h
    have hs := h s (List.mem_cons_self _ _)
    have hrest : ∀ t ∈ rest, bookStepDefined wenv isAsk tokenSDecimal tokenBDecimal t :=
      fun t ht => h t (List.mem_cons_of_mem _ ht)
    simp only [bookLoop, bookStep_eq wenv isAsk tokenSDecimal tokenBDecimal elements s hs]
    rw [ih _ hrest]
    cases hl : bookRow wenv isAsk tokenSDecimal tokenBDecimal s with
    | none => simp [List.filterMap_cons, hl]
    | some c => simp [List.filterMap_cons, hl]

/-- The decimals of LRC in the registry of the sample wallet environment. -/
theorem sampleWalletEnv_lrc :
    (sampleWalletEnv.reg.tokenOf "LRC").Decimals = some (10 ^ 18) := by
  decide

/-- The round trip of `fmtFloat` in the sample wallet environment, from the rounded count
of units of `10^-8` and the decimal it is printed as. -/
theorem sample_fmtFloat (q : ℚ) (z : Int) (s : String) (n k : Nat)
    (hfloor : ⌊q * 100000000 + 1 / 2⌋ = z) (hs : renderFixed 8 z = s)
    (hn : decimalDigits s = n) (hk : decimalPlaces s = k) :
    fmtFloat sampleWalletEnv q = (n : ℚ) / 10 ^ k := by
  simp only [fmtFloat, sampleWalletEnv, hfloor, hs, parseDecimal, hn, hk]

/-- In the sample wallet environment `fmtFloat` leaves 0 as it is. -/
theorem sample_fmtFloat_zero : fmtFloat sampleWalletEnv 0 = 0 := by
  rw [sample_fmtFloat 0 0 "0.00000000" 0 8 (by rw [Int.floor_eq_iff]; norm_num) (by decide)
    (by decide) (by decide)]
  norm_num

/-- In the sample wallet environment `fmtFloat` leaves 1/2 as it is. -/
theorem sample_fmtFloat_half : fmtFloat sampleWalletEnv (1 / 2) = 1 / 2 := by
  rw [sample_fmtFloat (1 / 2) 50000000 "0.50000000" 50000000 8
    (by rw [Int.floor_eq_iff]; norm_num) (by decide) (by decide) (by decide)]
  norm_num

/-- In the sample wallet environment `fmtFloat` leaves 1 as it is. -/
theorem sample_fmtFloat_one : fmtFloat sampleWalletEnv 1 = 1 := by
  rw [sample_fmtFloat 1 100000000 "1.00000000" 100000000 8
    (by rw [Int.floor_eq_iff]; norm_num) (by decide) (by decide) (by decide)]
  norm_num

/-- In the sample wallet environment `fmtFloat` leaves 2 as it is. -/
theorem sample_fmtFloat_two : fmtFloat sampleWalletEnv 2 = 2 := by
  rw [sample_fmtFloat 2 200000000 "2.00000000" 200000000 8
    (by rw [Int.floor_eq_iff]; norm_num) (by decide) (by decide) (by decide)]
  norm_num

/-- In the sample wallet environment `fmtFloat` leaves 40 as it is. -/
theorem sample_fmtFloat_forty : fmtFloat sampleWalletEnv 40 = 40 := by
  rw [sample_fmtFloat 40 4000000000 "40.00000000" 4000000000 8
    (by rw [Int.floor_eq_iff]; norm_num) (by decide) (by decide) (by decide)]
  norm_num

/-- In the sample wallet environment `fmtFloat` rounds 8/10^11 to 0: it is below half a
unit of the eighth decimal. -/
theorem sample_fmtFloat_eight : fmtFloat sampleWalletEnv (8 / 100000000000) = 0 := by
  rw [sample_fmtFloat (8 / 100000000000) 0 "0.00000000" 0 8
    (by rw [Int.floor_eq_iff]; norm_num) (by decide) (by decide) (by decide)]
  norm_num

/-- In the sample wallet environment `fmtFloat` rounds 4/10^11 to 0. -/
theorem sample_fmtFloat_four : fmtFloat sampleWalletEnv (4 / 100000000000) = 0 := by
  rw [sample_fmtFloat (4 / 100000000000) 0 "0.00000000" 0 8
    (by rw [Int.floor_eq_iff]; norm_num) (by decide) (by decide) (by decide)]
  norm_num

/-- The values read for the low-priced sample state before the amount computation. -/
theorem bookStateLow_header :
    bookHeader sampleWalletEnv (some (10 ^ 18)) (some (10 ^ 6)) bookStateLow
      = some (⟨0, 0, 0, "0xhash", 0, 0, 0, 2000⟩, 1 / 2) := by
  have hhash : ∀ h, sampleWalletEnv.hashHex h = "0xhash" := fun _ => rfl
  unfold bookHeader
  rw [sampleWalletEnv_lrc]
  simp only [SetFrac?, bookStateLow, sampleState, OrderState.ofOrder, pricedOrder,
    sampleOrder, SetFrac, hhash]
  norm_num [wrapInt64, sample_fmtFloat_zero]

/-- The values read for the high-priced sample state before the amount computation. -/
theorem bookStateHigh_header :
    bookHeader sampleWalletEnv (some (10 ^ 18)) (some (10 ^ 6)) bookStateHigh
      = some (⟨0, 0, 0, "0xhash", 0, 0, 0, 2000⟩, 1) := by
  have hhash : ∀ h, sampleWalletEnv.hashHex h = "0xhash" := fun _ => rfl
  unfold bookHeader
  rw [sampleWalletEnv_lrc]
  simp only [SetFrac?, bookStateHigh, sampleState, OrderState.ofOrder, pricedOrder,
    sampleOrder, SetFrac, hhash]
  norm_num [wrapInt64, sample_fmtFloat_zero]

/-- The row of the low-priced sample state on the bid side: price 1/2, size 40, and the
amount 8/10^11 rounded to 0. -/
theorem bookStateLow_bid :
    bookRow sampleWalletEnv false (some (10 ^ 18)) (some (10 ^ 6)) bookStateLow
      = some ⟨1 / 2, 40, 0, "0xhash", 0, 0, 0, 2000⟩ := by
  unfold bookRow
  rw [bookStateLow_header, bookStateLow_amounts]
  simp only [Bool.false_eq_true, if_false, sample_fmtFloat_half, sample_fmtFloat_forty,
    sample_fmtFloat_eight]

/-- The row of the high-priced sample state on the bid side: price 1, size 40, and the
amount 4/10^11 rounded to 0. -/
theorem bookStateHigh_bid :
    bookRow sampleWalletEnv false (some (10 ^ 18)) (some (10 ^ 6)) bookStateHigh
      = some ⟨1, 40, 0, "0xhash", 0, 0, 0, 2000⟩ := by
  unfold bookRow
  rw [bookStateHigh_header, bookStateHigh_amounts]
  simp only [Bool.false_eq_true, if_false, if_true, inv_one, sample_fmtFloat_one,
    sample_fmtFloat_forty, sample_fmtFloat_four]

/-- The row of the low-priced sample state on the ask side: the inverted price 2, amount
40, and the size 8/10^11 rounded to 0. -/
theorem bookStateLow_ask :
    bookRow sampleWalletEnv true (some (10 ^ 18)) (some (10 ^ 6)) bookStateLow
      = some ⟨2, 0, 40, "0xhash", 0, 0, 0, 2000⟩ := by
  unfold bookRow
  rw [bookStateLow_header, bookStateLow_amounts]
  have hinv : ((1 / 2 : ℚ))⁻¹ = 2 := by norm_num
  simp only [if_true, hinv, sample_fmtFloat_two, sample_fmtFloat_forty, sample_fmtFloat_eight]

/-- The row of the high-priced sample state on the ask side: the inverted price 1, amount
40, and the size 4/10^11 rounded to 0. -/
theorem bookStateHigh_ask :
    bookRow sampleWalletEnv true (some (10 ^ 18)) (some (10 ^ 6)) bookStateHigh
      = some ⟨1, 0, 40, "0xhash", 0, 0, 0, 2000⟩ := by
  unfold bookRow
  rw [bookStateHigh_header, bookStateHigh_amounts]
  simp only [Bool.false_eq_true, if_false, if_true, inv_one, sample_fmtFloat_one,
    sample_fmtFloat_forty, sample_fmtFloat_four]

/-- Every turn of the order-book loop on the two sample states returns, on either side
and in either order. -/
theorem bookStates_defined (isAsk : Bool) (s : OrderState)
    (hs : s = bookStateLow ∨ s = bookStateHigh) :
    bookStepDefined sampleWalletEnv isAsk (some (10 ^ 18)) (some (10 ^ 6)) s := by
  rcases hs with hs | hs
  · rw [hs]
    refine ⟨⟨_, _, bookStateLow_header, fun _ => by norm_num⟩, ?_⟩
    rw [bookStateLow_amounts]
    simp
  · rw [hs]
    refine ⟨⟨_, _, bookStateHigh_header, fun _ => by norm_num⟩, ?_⟩
    rw [bookStateHigh_amounts]
    simp

/-- On a list of states that is not empty, when every turn returns and the length is not
negative, `generateOrderBook` returns the truncation of the rows in the order of the
states. -/
theorem generateOrderBook_eq (wenv : WalletEnv) (states : List OrderState) (isAsk : Bool)
    (tokenSDecimal tokenBDecimal : Option Int) (n : Nat) (hne : states ≠ [])
    (hdef : ∀ s ∈ states, bookStepDefined wenv isAsk tokenSDecimal tokenBDecimal s) :
    generateOrderBook wenv states isAsk tokenSDecimal tokenBDecimal (n : Int)
      = some (.ok
          (if (states.filterMap (bookRow wenv isAsk tokenSDecimal tokenBDecimal)).length ≤ n
            then states.filterMap (bookRow wenv isAsk tokenSDecimal tokenBDecimal)
            else if isAsk = true
              then (states.filterMap (bookRow wenv isAsk tokenSDecimal tokenBDecimal)).drop
                ((states.filterMap (bookRow wenv isAsk tokenSDecimal tokenBDecimal)).length
                  - n - 1)
              else (states.filterMap (bookRow wenv isAsk tokenSDecimal tokenBDecimal)).take
                n)) := by
  have hlen : ¬ states.length = 0 := fun h => hne (List.length_eq_zero.1 h)
  unfold generateOrderBook
  rw [if_neg hlen, bookLoop_eq wenv isAsk tokenSDecimal tokenBDecimal states [] hdef,
    List.nil_append]
  simp only [truncateRows_eq, Option.map_some']

/-- C25, on the code: `generateOrderBook` returns the rows in the order of the states it
is given, not in non-increasing order of price. Two sample bids given with prices 1/2 then
1 come back as rows with prices 1/2 then 1; two sample asks given with prices 1 then 1/2,
the descending order of the stored price, come back as rows with the inverted prices 1
then 2. -/
theorem C25_rows_unsorted :
    generateOrderBook sampleWalletEnv [bookStateLow, bookStateHigh] false
        (some (10 ^ 18)) (some (10 ^ 6)) ((10 : Nat) : Int)
      = some (.ok [⟨1 / 2, 40, 0, "0xhash", 0, 0, 0, 2000⟩,
          ⟨1, 40, 0, "0xhash", 0, 0, 0, 2000⟩])
    ∧ ¬ List.Pairwise (fun a b : OrderBookElement => b.Price ≤ a.Price)
        [⟨1 / 2, 40, 0, "0xhash", 0, 0, 0, 2000⟩, ⟨1, 40, 0, "0xhash", 0, 0, 0, 2000⟩]
    ∧ generateOrderBook sampleWalletEnv [bookStateHigh, bookStateLow] true
        (some (10 ^ 18)) (some (10 ^ 6)) ((10 : Nat) : Int)
      = some (.ok [⟨1, 0, 40, "0xhash", 0, 0, 0, 2000⟩,
          ⟨2, 0, 40, "0xhash", 0, 0, 0, 2000⟩])
    ∧ ¬ List.Pairwise (fun a b : OrderBookElement => b.Price ≤ a.Price)
        [⟨1, 0, 40, "0xhash", 0, 0, 0, 2000⟩, ⟨2, 0, 40, "0xhash", 0, 0, 0, 2000⟩] := by
  refine ⟨?_, by norm_num, ?_, by norm_num⟩
  · rw [generateOrderBook_eq sampleWalletEnv [bookStateLow, bookStateHigh] false
      (some (10 ^ 18)) (some (10 ^ 6)) 10 (by simp)
      (fun s hs => bookStates_defined false s (by simpa using hs))]
    simp only [List.filterMap_cons, bookStateLow_bid, bookStateHigh_bid, List.filterMap_nil]
    rfl
  · rw [generateOrderBook_eq sampleWalletEnv [bookStateHigh, bookStateLow] true
      (some (10 ^ 18)) (some (10 ^ 6)) 10 (by simp)
      (fun s hs => bookStates_defined true s (by
        have : s = bookStateHigh ∨ s = bookStateLow := by simpa using hs
        exact this.symm))]
    simp only [List.filterMap_cons, bookStateHigh_ask, bookStateLow_ask, List.filterMap_nil]
    rfl

/-! ## Theorems: full amounts of an untouched order -/

/-- C27, as stated, fails. With balance and allowance covering the sell amount and nothing
dealt: an order selling 5 base units of an 18-decimal token for 10 base units of another
is refused as dust, where the claim gives `(5/10^18, 10/10^18)`; and the sample order, 100
units of an 18-decimal token for 200 units of a 6-decimal one, comes out as
`(100, 2/10^10)`, where the claim gives `(100, 200)`. -/
theorem C27_counterexample :
    calculateOrderBookAmount fullWalletEnv dustState false (some (10 ^ 18)) (some (10 ^ 18))
      = some (.error "amount is zero, skipped")
    ∧ calculateOrderBookAmount fullWalletEnv sampleState false (some (10 ^ 18)) (some (10 ^ 6))
      = some (.ok (100, 2 / 10000000000))
    ∧ ((100 : ℚ), (2 / 10000000000 : ℚ))
      ≠ (((100 * 10 ^ 18 : Int) : ℚ) / ((10 ^ 18 : Int) : ℚ),
          ((200 * 10 ^ 6 : Int) : ℚ) / ((10 ^ 6 : Int) : ℚ)) := by
  refine ⟨?_, ?_, ?_⟩
  · simp only [calculateOrderBookAmount, getAvailableMinAmount, fullWalletEnv, sampleWalletEnv,
      dustState, sampleState, OrderState.ofOrder, pricedOrder, sampleOrder, SetFrac]
    norm_num [dustThreshold]
  · simp only [calculateOrderBookAmount, getAvailableMinAmount, fullWalletEnv, sampleWalletEnv,
      sampleState, OrderState.ofOrder, pricedOrder, sampleOrder, SetFrac]
    norm_num [dustThreshold]
  · norm_num

/-- C27, amended: for an order state with nothing dealt, cancelled or split (the remaining
amounts are `AmountS` and `AmountB`, both positive), whose owner's balance and allowance of
the sell token are both at least `AmountS`, with the same positive decimals `d` for both
tokens and `AmountS / d` not below the dust threshold, `calculateOrderBookAmount` returns
exactly `(AmountS / d, AmountB / d)`, whatever `BuyNoMoreThanAmountB` is. -/
theorem C27_full_amounts (wenv : WalletEnv) (state : OrderState) (isAsk : Bool)
    (d b l orderAmountS orderAmountB : Int)
    (hd : 0 < d)
    (hrem : wenv.RemainedAmount state = some ((orderAmountS : ℚ), (orderAmountB : ℚ)))
    (hlook : wenv.GetBalanceAndAllowance state.RawOrder.Owner state.RawOrder.TokenS
      state.RawOrder.DelegateAddress = .ok (b, l))
    (haS : state.RawOrder.AmountS = some orderAmountS)
    (haB : state.RawOrder.AmountB = some orderAmountB)
    (pS : 0 < orderAmountS) (pB : 0 < orderAmountB)
    (hb : orderAmountS ≤ b) (hl : orderAmountS ≤ l)
    (hdust : ¬ (orderAmountS : ℚ) / (d : ℚ) < dustThreshold) :
    calculateOrderBookAmount wenv state isAsk (some d) (some d)
      = some (.ok ((orderAmountS : ℚ) / (d : ℚ), (orderAmountB : ℚ) / (d : ℚ))) := by
  have hqd : (0 : ℚ) < (d : ℚ) := by exact_mod_cast hd
  have hqS : (0 : ℚ) < (orderAmountS : ℚ) := by exact_mod_cast pS
  have hqB : (0 : ℚ) < (orderAmountB : ℚ) := by exact_mod_cast pB
  have hqb : (orderAmountS : ℚ) ≤ (b : ℚ) := by exact_mod_cast hb
  have hql : (orderAmountS : ℚ) ≤ (l : ℚ) := by exact_mod_cast hl
  have hS0 : (orderAmountS : ℚ) / (d : ℚ) ≠ 0 := (div_pos hqS hqd).ne'
  have hB0 : (orderAmountB : ℚ) / (d : ℚ) ≠ 0 := (div_pos hqB hqd).ne'
  have hmin : min ((orderAmountS : ℚ) / (d : ℚ)) (min ((b : ℚ) / (d : ℚ)) ((l : ℚ) / (d : ℚ)))
      = (orderAmountS : ℚ) / (d : ℚ) := by
    apply min_eq_left
    exact le_min (div_le_div_of_nonneg_right hqb hqd.le) (div_le_div_of_nonneg_right hql hqd.le)
  have hsell : (orderAmountB : ℚ) / (d : ℚ) * ((orderAmountS : ℚ) / (orderAmountB : ℚ))
      = (orderAmountS : ℚ) / (d : ℚ) := by
    field_simp
    ring
  have hbuy : (orderAmountS : ℚ) / (d : ℚ) * ((orderAmountB : ℚ) / (orderAmountS : ℚ))
      = (orderAmountB : ℚ) / (d : ℚ) := by
    field_simp
    ring
  rw [calculateOrderBookAmount_eq wenv state isAsk d d (orderAmountS : ℚ) (orderAmountB : ℚ)
    b l orderAmountS orderAmountB hrem hd.ne' hd.ne' hlook haS haB pS.ne' pB.ne']
  rw [if_neg hS0, if_neg hB0, hmin, if_neg hdust, hsell, hbuy, min_self, min_self, hsell, hbuy]
  split <;> rfl

/-- C27, amended, at the sample state with 18 decimals on both sides and balance and
allowance of 100 units: the full amounts come back. -/
theorem C27_full_amounts_witness :
    calculateOrderBookAmount fullWalletEnv sampleState false (some (10 ^ 18)) (some (10 ^ 18))
      = some (.ok (((100 * 10 ^ 18 : Int) : ℚ) / ((10 ^ 18 : Int) : ℚ),
          ((200 * 10 ^ 6 : Int) : ℚ) / ((10 ^ 18 : Int) : ℚ))) :=
  C27_full_amounts fullWalletEnv sampleState false (10 ^ 18) (100 * 10 ^ 18) (100 * 10 ^ 18)
    (100 * 10 ^ 18) (200 * 10 ^ 6) (by norm_num)
    (by norm_num [fullWalletEnv, sampleWalletEnv, sampleState, OrderState.ofOrder, pricedOrder,
      sampleOrder])
    rfl rfl rfl (by norm_num) (by norm_num) (by norm_num) (by norm_num)
    (by norm_num [dustThreshold])

end Gateway
